import Mathlib

/-!
Celestial object catalogue: a verification development.

Shallow embedding of `celestial_objects.h` / `celestial_objects.cpp`
(namespace `celestial_objects`).

Conventions of the embedding.

* Objects live in a heap addressed by references (`Ref`); a `std::shared_ptr`
  that is dereferenced by the code is a `Ref`, a `std::weak_ptr` is an
  `Option Ref` (`none` when `lock()` gives `nullptr`).
* A `std::vector` is a `List`; `push_back` of an lvalue appends a copy made by
  the element's copy constructor.
* A `double` of the catalogue is only stored, copied, compared and printed: a
  number is carried as a rational number, next to the infinities and NaN. The
  matrix class calculates with its entries; there every product, sum and
  difference is rounded to the 53 bits of a `double`.
* An `enum class` is its underlying integer, with the enumerators as named
  constants, because the code builds enum values by casts such as
  `celestial_types(position)` that can leave the enumerator range.
-/

namespace celestial_objects

/-- Address of a heap object: what a non-null `std::shared_ptr` points to. -/
abbrev Ref := Nat

/-- A value of the C++ type `double` as the catalogue uses it (stored, copied, compared
and printed, never calculated with): a number, an infinity or NaN. A number is carried
as the exact rational. -/
inductive Double where
  | number (value : Rat)
  | infinity (negative : Bool)
  | nan
deriving DecidableEq

namespace Double

instance (n : Nat) : OfNat Double n := ⟨number (n : Rat)⟩

/-- The operator `<` on two `double` values: false as soon as one of them is NaN. -/
def lt : Double → Double → Bool
  | number a, number b => decide (a < b)
  | number _, infinity negative => !negative
  | infinity negative, number _ => negative
  | infinity a, infinity b => a && !b
  | _, _ => false

/-- The operator `<=` on two `double` values: false as soon as one of them is NaN. -/
def le : Double → Double → Bool
  | number a, number b => decide (a ≤ b)
  | number _, infinity negative => !negative
  | infinity negative, number _ => negative
  | infinity a, infinity b => a || !b
  | _, _ => false

instance : LT Double := ⟨fun a b => lt a b = true⟩

instance : LE Double := ⟨fun a b => le a b = true⟩

instance (a b : Double) : Decidable (a < b) := inferInstanceAs (Decidable (lt a b = true))

instance (a b : Double) : Decidable (a ≤ b) := inferInstanceAs (Decidable (le a b = true))

end Double

/-! ## Enumerations and their output tables (celestial_objects.h, 52-74) -/

/-- The `enum class celestial_types`, as its underlying integer. -/
structure celestial_types where
  code : Nat
deriving DecidableEq

namespace celestial_types
def Unassigned : celestial_types := ⟨0⟩
def Galaxy : celestial_types := ⟨1⟩
def Star : celestial_types := ⟨2⟩
def MainSequenceStar : celestial_types := ⟨3⟩
def RedGiantStar : celestial_types := ⟨4⟩
def Planet : celestial_types := ⟨5⟩
def TerrestrialPlanet : celestial_types := ⟨6⟩
def GaseousPlanet : celestial_types := ⟨7⟩
def DwarfPlanet : celestial_types := ⟨8⟩
def Moon : celestial_types := ⟨9⟩
def Comet : celestial_types := ⟨10⟩
def Asteroid : celestial_types := ⟨11⟩
def Satellite : celestial_types := ⟨12⟩
def StellarRemnant : celestial_types := ⟨13⟩
def Supernova : celestial_types := ⟨14⟩
def NeutronStar : celestial_types := ⟨15⟩
def Pulsar : celestial_types := ⟨16⟩
def BlackHole : celestial_types := ⟨17⟩
end celestial_types

def celestial_types_output : List String :=
  ["Unassigned", "Galaxy", "Star", "MainSequenceStar", "RedGiantStar",
   "Planet", "TerrestrialPlanet", "GaseousPlanet", "Dwarf Planet", "Moon", "Comet",
   "Asteroid", "Satellite", "StellarRemnant", "Supernova", "NeutronStar", "Pulsar",
   "BlackHole"]

/-- The `enum class hubble_types`, as its underlying integer. -/
structure hubble_types where
  code : Nat
deriving DecidableEq

namespace hubble_types
def Unassigned : hubble_types := ⟨0⟩
def E0 : hubble_types := ⟨1⟩
def E1 : hubble_types := ⟨2⟩
def E2 : hubble_types := ⟨3⟩
def E3 : hubble_types := ⟨4⟩
def E4 : hubble_types := ⟨5⟩
def E5 : hubble_types := ⟨6⟩
def E6 : hubble_types := ⟨7⟩
def E7 : hubble_types := ⟨8⟩
def S0 : hubble_types := ⟨9⟩
def Sa : hubble_types := ⟨10⟩
def Sb : hubble_types := ⟨11⟩
def Sc : hubble_types := ⟨12⟩
def SBa : hubble_types := ⟨13⟩
def SBb : hubble_types := ⟨14⟩
def SBc : hubble_types := ⟨15⟩
def Irr : hubble_types := ⟨16⟩
end hubble_types

def hubble_types_output : List String :=
  ["Unassigned", "E0", "E1", "E2", "E3", "E4", "E5", "E6", "E7", "S0", "Sa", "Sb", "Sc",
   "SBa", "SBb", "SBc", "Irr"]

/-- The `enum class stellar_types`, as its underlying integer. -/
structure stellar_types where
  code : Nat
deriving DecidableEq

namespace stellar_types
def Unassigned : stellar_types := ⟨0⟩
def O : stellar_types := ⟨1⟩
def B : stellar_types := ⟨2⟩
def A : stellar_types := ⟨3⟩
def F : stellar_types := ⟨4⟩
def G : stellar_types := ⟨5⟩
def K : stellar_types := ⟨6⟩
def M : stellar_types := ⟨7⟩
end stellar_types

def stellar_types_output : List String :=
  ["Unassigned", "O", "B", "A", "F", "G", "K", "M"]

/-- The `enum class luminosity_class`, as its underlying integer. -/
structure luminosity_class where
  code : Nat
deriving DecidableEq

namespace luminosity_class
def Unassigned : luminosity_class := ⟨0⟩
def Zero : luminosity_class := ⟨1⟩
def IaPlus : luminosity_class := ⟨2⟩
def Ia : luminosity_class := ⟨3⟩
def Iab : luminosity_class := ⟨4⟩
def Ib : luminosity_class := ⟨5⟩
def II : luminosity_class := ⟨6⟩
def III : luminosity_class := ⟨7⟩
def IV : luminosity_class := ⟨8⟩
def V : luminosity_class := ⟨9⟩
def VI : luminosity_class := ⟨10⟩
def VII : luminosity_class := ⟨11⟩
end luminosity_class

def luminosity_class_output : List String :=
  ["Unassigned", "0", "Ia+", "Iab", "Ib", "II", "III", "IV", "V", "VI", "VII"]

/-- The `enum class parameters`, as its underlying integer. -/
structure parameters where
  code : Nat
deriving DecidableEq

namespace parameters
def Name : parameters := ⟨0⟩
def CelestialType : parameters := ⟨1⟩
def HubbleType : parameters := ⟨2⟩
def StellarType : parameters := ⟨3⟩
def Redshift : parameters := ⟨4⟩
def Distance : parameters := ⟨5⟩
def Mass : parameters := ⟨6⟩
def RotationalVelocity : parameters := ⟨7⟩
def MemberNumber : parameters := ⟨8⟩
end parameters

def parameters_output : List String :=
  ["Name", "CelestialType", "HubbleType", "StellarType", "Redshift", "Mass",
   "RotationalVelocity", "MemberNumber"]

/-! ## Satellites (celestial_objects.h, 690-811) -/

/-- The class `satellite`: orbital parameters and a weak pointer to the object. The
field defaults are the member initialisers of the class. -/
structure satellite where
  orbit_distance : Double := 1
  orbit_tilt : Double := 0
  orbit_eccentricity : Double := 1
  satellite_object : Option Ref := none
deriving DecidableEq

namespace satellite

/-- The constructor `satellite(object_ptr, orb_dist, orb_tilt, orb_ecc)` (757-763). -/
def ctor (object_ptr : Ref) (orb_dist orb_tilt orb_ecc : Double) : satellite :=
  { orbit_distance := orb_dist
    orbit_tilt := orb_tilt
    orbit_eccentricity := orb_ecc
    satellite_object := some object_ptr }

/-- The copy constructor `satellite(const satellite& sat)` (770-776); the copy
assignment operator (778-789) assigns the same four values. The third assignment
reads `sat.orbit_tilt`. -/
def copy_ctor (sat : satellite) : satellite :=
  { orbit_distance := sat.orbit_distance
    orbit_tilt := sat.orbit_tilt
    orbit_eccentricity := sat.orbit_tilt
    satellite_object := sat.satellite_object }

/-- The method `satellite::get_object()`: `satellite_object.lock()`. -/
def get_object (sat : satellite) : Option Ref := sat.satellite_object

end satellite

/-- The call `std::vector<satellite>::push_back(sat)` on an lvalue: the new element is
copy-constructed from `sat`. When the vector grows, the elements it holds are copied
again; they were stored by a copy, and a copy of a copy is the same value
(`copy_ctor_idem`), so they do not change. -/
def push_back_satellite (v : List satellite) (sat : satellite) : List satellite :=
  v ++ [satellite.copy_ctor sat]

/-! ## Celestial objects (celestial_objects.h, 79-249) -/

/-- Data members added by the derived classes `galaxy` (257-258) and `star` (369-373);
every other derived class adds none. -/
inductive kind_fields where
  | base
  | galaxy (stellar_mass_fraction : Double) (hubble_type : hubble_types)
  | star (star_type : stellar_types) (stellar_digit : Int)
      (luminosity_id : luminosity_class) (abs_magnitude app_magnitude : Double)
deriving DecidableEq

/-- The class `celestial_object` with the data of its derived classes. The field
defaults are the member initialisers of the class. -/
structure celestial_object where
  object_type : celestial_types := celestial_types.Unassigned
  name : String := "Unassigned"
  redshift : Double := 0
  distance : Double := 0
  mass : Double := 0
  rotational_velocity : Double := 0
  parent_object : Option Ref := none
  member_objects : List satellite := []
  member_number : Int := 0
  derived : kind_fields := kind_fields.base
deriving DecidableEq

/-- The heap: the object every reference points to. -/
abbrev Heap := Ref → celestial_object

/-- What a call of `add_member` did: the message it printed, or `Added` when it reached
the branch that appends the satellite. -/
inductive add_member_outcome where
  | AlreadyParented
  | SelfParentParadox
  | CyclicParentage
  | Added
deriving DecidableEq

/-- The last branch of `add_member` (33-35): `satellite sat(member_ptr, orb_distance,
orb_tilt, orb_eccentricity); member_objects.push_back(sat); member_number++;` on the
object at `this`. No other object is written. -/
def append_member (heap : Heap) (this member_ptr : Ref)
    (orb_distance orb_tilt orb_eccentricity : Double) : Heap :=
  let sat := satellite.ctor member_ptr orb_distance orb_tilt orb_eccentricity
  Function.update heap this
    { heap this with
      member_objects := push_back_satellite (heap this).member_objects sat
      member_number := (heap this).member_number + 1 }

/-- The loop of `add_member` (25-27):
`while(current_parent.get() != nullptr) current_parent = current_parent->parent_object.lock();`
run for at most `fuel` iterations. The result is the value of `current_parent` when the
loop exits, or `none` when the iterations are used up before it exits. -/
def top_parent (heap : Heap) : Nat → Option Ref → Option (Option Ref)
  | _, none => some none
  | 0, some _ => none
  | fuel + 1, some p => top_parent heap fuel (heap p).parent_object

/-- The method `celestial_object::add_member(member_ptr, orb_distance, orb_tilt,
orb_eccentricity)` (celestial_objects.cpp, 9-38), called on the object at `this`. -/
def add_member (heap : Heap) (fuel : Nat) (this member_ptr : Ref)
    (orb_distance orb_tilt orb_eccentricity : Double) :
    Option (Heap × add_member_outcome) :=
  if (heap member_ptr).parent_object ≠ none then
    some (heap, add_member_outcome.AlreadyParented)
  else if (heap member_ptr).parent_object = some this then
    some (heap, add_member_outcome.SelfParentParadox)
  else
    match top_parent heap fuel (heap member_ptr).parent_object with
    | none => none
    | some current_parent =>
      if current_parent = some member_ptr then
        some (heap, add_member_outcome.CyclicParentage)
      else
        some (append_member heap this member_ptr orb_distance orb_tilt orb_eccentricity,
              add_member_outcome.Added)

/-- The method `celestial_object::get_all_members()` (149-154): returns the vector by
value, so every element is copy-constructed. -/
def get_all_members (heap : Heap) (this : Ref) : List satellite :=
  (heap this).member_objects.map satellite.copy_ctor

/-- The method `celestial_object::get_member_number()`. -/
def get_member_number (heap : Heap) (this : Ref) : Int := (heap this).member_number

/-- A heap of freshly constructed objects: no parent, no member. -/
def fresh_heap : Heap := fun _ => {}

/-- A heap in which the object at 1 already has the object at 0 as its parent. -/
def parented_heap : Heap :=
  Function.update fresh_heap 1 { parent_object := some 0 }

/-- States reached from freshly constructed objects by calls of `add_member`. -/
inductive add_member_reachable : Heap → Prop where
  | fresh (heap : Heap)
      (h : ∀ r, (heap r).parent_object = none ∧ (heap r).member_objects = [] ∧
        (heap r).member_number = 0) : add_member_reachable heap
  | call (heap heap' : Heap) (fuel : Nat) (this member_ptr : Ref) (d t e : Double)
      (o : add_member_outcome) (hr : add_member_reachable heap)
      (hc : add_member heap fuel this member_ptr d t e = some (heap', o)) :
      add_member_reachable heap'

/-- The object at `a` holds a satellite whose object is the one at `b`. -/
def child_edge (heap : Heap) (a b : Ref) : Prop :=
  ∃ s ∈ (heap a).member_objects, satellite.get_object s = some b

/-! ## Constructors of the derived classes (celestial_objects.h) -/

namespace celestial_object

/-- The constructor `celestial_object(name_input, z, dist, m, omega)` (162-169). -/
def ctor (name_input : String) (z dist m omega : Double) : celestial_object :=
  { name := name_input, redshift := z, distance := dist, mass := m,
    rotational_velocity := omega }

/-- The copy constructor `celestial_object(const celestial_object&)` (172-182): every
member but `parent_object` is copied; the vector copy copy-constructs each satellite. -/
def copy_ctor (object : celestial_object) : celestial_object :=
  { object_type := object.object_type
    name := object.name
    redshift := object.redshift
    distance := object.distance
    mass := object.mass
    rotational_velocity := object.rotational_velocity
    parent_object := none
    member_objects := object.member_objects.map satellite.copy_ctor
    member_number := object.member_number
    derived := object.derived }

end celestial_object

/-- The constructor `galaxy(name_input, z, dist, m, omega, mass_frac, h_type)` (352-358). -/
def galaxy.ctor (name_input : String) (z dist m omega mass_frac : Double)
    (h_type : hubble_types) : celestial_object :=
  { celestial_object.ctor name_input z dist m omega with
    object_type := celestial_types.Galaxy
    derived := kind_fields.galaxy mass_frac h_type }

/-- The constructor `star(name_input, z, dist, m, omega, s_type, s_digit, lum_no, abs_mag,
app_mag)` (476-486). -/
def star.ctor (name_input : String) (z dist m omega : Double) (s_type : stellar_types)
    (s_digit : Int) (lum_no : luminosity_class) (abs_mag app_mag : Double) :
    celestial_object :=
  { celestial_object.ctor name_input z dist m omega with
    object_type := celestial_types.Star
    derived := kind_fields.star s_type s_digit lum_no abs_mag app_mag }

/-- The ten-argument constructor of a class derived from `star` (`main_sequence_star`,
`red_giant_star`, `stellar_remnant`, `supernova`, `neutron_star`, `pulsar`): the base
constructor runs, then `object_type` is set to the enumerator of the class. -/
def star_derived.ctor (class_type : celestial_types) (name_input : String)
    (z dist m omega : Double) (s_type : stellar_types) (s_digit : Int)
    (lum_no : luminosity_class) (abs_mag app_mag : Double) : celestial_object :=
  { star.ctor name_input z dist m omega s_type s_digit lum_no abs_mag app_mag with
    object_type := class_type }

/-- The five-argument constructor of a class without data members of its own
(`planet`, `terrestrial_planet`, `gaseous_planet`, `dwarf_planet`, `moon`, `comet`,
`asteroid`, `black_hole`): the base constructor runs, then `object_type` is set to the
enumerator of the class. -/
def plain.ctor (class_type : celestial_types) (name_input : String)
    (z dist m omega : Double) : celestial_object :=
  { celestial_object.ctor name_input z dist m omega with object_type := class_type }

/-! ## Memory -/

/-- The heap together with the first address not yet handed out. -/
structure Memory where
  heap : Heap
  next : Ref

/-- The call `std::make_shared<T>(object)`: a new heap object copy-constructed from
`object`; every copy constructor of a derived class sets `object_type` to the enumerator
of its class, which is the value `object` already has. -/
def make_shared (mem : Memory) (object : celestial_object) : Memory × Ref :=
  ({ heap := Function.update mem.heap mem.next (celestial_object.copy_ctor object)
     next := mem.next + 1 }, mem.next)

/-! ## Library conversions -/

/-- Outcome of `std::stod` / `std::stoi`: the converted value, or the exception thrown. -/
inductive conversion (α : Type) where
  | value (v : α)
  | invalid_argument
  | out_of_range
deriving DecidableEq

/-- White space as `std::isspace` sees it in the C locale. -/
def is_space (c : Char) : Bool :=
  c.toNat = 32 || (9 ≤ c.toNat && c.toNat ≤ 13)

/-- Value of a string of decimal digits. -/
def digits_value (ds : List Char) : Nat :=
  ds.foldl (fun n c => 10 * n + (c.toNat - 48)) 0

/-- Optional sign in front of a numeral: whether it is negative, and the rest. -/
def read_sign : List Char → Bool × List Char
  | '-' :: rest => (true, rest)
  | '+' :: rest => (false, rest)
  | cs => (false, cs)

/-- A reading of `std::stoi(str)` (base 10): white space is skipped, then an optional
sign and the longest run of digits are read, what follows is ignored; no digit gives
`invalid_argument`, a value outside the range of `int` gives `out_of_range`. -/
def stoi_decimal (str : String) : conversion Int :=
  let signed := read_sign (str.data.dropWhile is_space)
  let ds := signed.2.takeWhile Char.isDigit
  if ds = [] then conversion.invalid_argument
  else
    let v : Int := if signed.1 then - (digits_value ds : Int) else (digits_value ds : Int)
    if v < -2147483648 ∨ 2147483647 < v then conversion.out_of_range
    else conversion.value v

/-- Exponent part of a decimal numeral: `e` or `E`, an optional sign and at least one
digit; 0 when there is none. -/
def read_exponent : List Char → Int
  | c :: rest =>
    if c = 'e' ∨ c = 'E' then
      let signed := read_sign rest
      let ds := signed.2.takeWhile Char.isDigit
      if ds = [] then 0
      else if signed.1 then - (digits_value ds : Int) else (digits_value ds : Int)
    else 0
  | [] => 0

/-- A reading of `std::stod(str)` on decimal numerals and on the words `nan` and `inf`:
white space is skipped, then an optional sign is read, then either one of the two words
(in any case; `nan` gives NaN, `inf` an infinity) or digits with an optional point and
an optional exponent; what follows is ignored; neither a word nor a digit gives
`invalid_argument`. The value of a numeral is the exact rational: rounding to a
`double`, the range check (`out_of_range`) and hexadecimal numerals are not covered, so
the import functions take the conversion as an argument and this reading is used only
to run them on plain numerals and on the two words. -/
def stod_decimal (str : String) : conversion Double :=
  let signed := read_sign (str.data.dropWhile is_space)
  let word := (signed.2.take 3).map Char.toLower
  if word = ['n', 'a', 'n'] then conversion.value Double.nan
  else if word = ['i', 'n', 'f'] then conversion.value (Double.infinity signed.1)
  else
    let int_part := signed.2.takeWhile Char.isDigit
    let after_int := signed.2.dropWhile Char.isDigit
    let frac_part : List Char :=
      match after_int with
      | '.' :: rest => rest.takeWhile Char.isDigit
      | _ => []
    let after_frac : List Char :=
      match after_int with
      | '.' :: rest => rest.dropWhile Char.isDigit
      | _ => after_int
    if int_part = [] ∧ frac_part = [] then conversion.invalid_argument
    else
      let digits : Int :=
        if signed.1 then - (digits_value (int_part ++ frac_part) : Int)
        else (digits_value (int_part ++ frac_part) : Int)
      let scale : Int := read_exponent after_frac - (frac_part.length : Int)
      conversion.value (Double.number
        (if 0 ≤ scale then mkRat (digits * 10 ^ scale.toNat) 1
         else mkRat digits (10 ^ (- scale).toNat)))

/-! ## The catalogue (celestial_objects.h, 926-1014) -/

/-- The class `catalogue`; the three iterator members are positions into
`catalogue_objects` and hold no data of their own. -/
structure catalogue where
  catalogue_name : String := ""
  catalogue_objects : List Ref := []
  local_object_names : List String := []
  object_amount : Int := 0

/-- The constructor `catalogue(std::string name)` (944-947). -/
def catalogue.ctor (name : String) : catalogue := { catalogue_name := name }

/-- Names of the objects of the catalogue, in sequence order. -/
def object_names (heap : Heap) (cat : catalogue) : List String :=
  cat.catalogue_objects.map (fun r => (heap r).name)

/-- The method `catalogue::add_object(celestial_object* object)`
(celestial_objects.cpp, 600-606). -/
def add_object (heap : Heap) (cat : catalogue) (object : Ref) : catalogue :=
  { cat with
    catalogue_objects := cat.catalogue_objects ++ [object]
    local_object_names := cat.local_object_names ++ [(heap object).name]
    object_amount := cat.object_amount + 1 }

/-- The test the Create command makes on the name typed in, before it constructs the
object and calls `add_object` (catalogue_project_main.cpp, 187-195): `true` when the
command answers "Name already taken". -/
def name_taken (cat : catalogue) (name : String) : Bool :=
  let obj_names := cat.local_object_names
  let name_position := obj_names.indexOf name
  decide (obj_names.length > 0 ∧ name_position < obj_names.length)

/-- The function `name_sort(name_a, name_b)` (802-810): both strings are lower-cased
character by character, then compared with `<`. -/
def name_sort (name_a name_b : String) : Bool :=
  decide (name_a.data.map Char.toLower < name_b.data.map Char.toLower)

/-- The loop after the `switch` of `sort_catalogue` (676-678):
`local_object_names[i] = catalogue_objects[i]->get_name()` for every index `i` of
`catalogue_objects`. An index past the end of `local_object_names` is undefined
behaviour in the code and writes nothing here; `names_cover_objects` shows that it does
not arise. -/
def refresh_names (heap : Heap) (objects : List Ref) (names : List String) : List String :=
  objects.enum.foldl (fun ns ir => ns.set ir.1 (heap ir.2).name) names

/-- The method `catalogue::sort_catalogue(parameters& parameter)` (608-682). The call
`std::sort(first, last, comp)` is the argument `std_sort`, applied to the comparison
function of the case taken; a parameter without a case throws and the handler at 679
prints a message, so the name loop is skipped. -/
def sort_catalogue (std_sort : (Ref → Ref → Bool) → List Ref → List Ref) (heap : Heap)
    (parameter : parameters) (cat : catalogue) : catalogue :=
  let sorted : Option (List Ref) :=
    if parameter = parameters.Name then
      some (std_sort (fun i j => name_sort (heap i).name (heap j).name) cat.catalogue_objects)
    else if parameter = parameters.Distance then
      some (std_sort (fun i j => decide ((heap i).distance < (heap j).distance))
        cat.catalogue_objects)
    else if parameter = parameters.Mass then
      some (std_sort (fun i j => decide ((heap i).mass < (heap j).mass))
        cat.catalogue_objects)
    else if parameter = parameters.Redshift then
      some (std_sort (fun i j => decide ((heap i).redshift < (heap j).redshift))
        cat.catalogue_objects)
    else if parameter = parameters.RotationalVelocity then
      some (std_sort
        (fun i j => decide ((heap i).rotational_velocity < (heap j).rotational_velocity))
        cat.catalogue_objects)
    else if parameter = parameters.MemberNumber then
      some (std_sort (fun i j => decide ((heap i).member_number < (heap j).member_number))
        cat.catalogue_objects)
    else none
  match sorted with
  | none => cat
  | some objects =>
    { cat with
      catalogue_objects := objects
      local_object_names := refresh_names heap objects cat.local_object_names }

/-- One behaviour `std::sort` may have: a stable insertion sort by the comparison
function. -/
def insertion_sort (comp : Ref → Ref → Bool) (l : List Ref) : List Ref :=
  l.insertionSort (fun a b => comp b a = false)

/-! ## Import of the object file (celestial_objects.cpp, 258-467) -/

/-- The call `line.find(":")`: position of the first colon, `none` for `npos`. -/
def find_colon (line : List Char) : Option Nat :=
  if line.indexOf ':' < line.length then some (line.indexOf ':') else none

/-- The tokeniser loop (276-287), run for at most `fuel` iterations: the text before
the first colon is pushed and erased with the colon; without a colon the whole rest is
pushed and the loop ends. `none` when the iterations are used up. -/
def tokenise_loop : Nat → List Char → List String → Option (List String)
  | 0, _, _ => none
  | fuel + 1, line, parameter_storage =>
    match find_colon line with
    | none => some (parameter_storage ++ [String.mk line])
    | some break_point =>
      tokenise_loop fuel (line.drop (break_point + 1))
        (parameter_storage ++ [String.mk (line.take break_point)])

/-- The tokeniser on a line, with one iteration per character and one more. -/
def tokenise (line : String) : Option (List String) :=
  tokenise_loop (line.length + 1) line.data []

/-- Ways control leaves the `try` block of the object parser other than by its end. -/
inductive thrown where
  /-- The exception `std::invalid_argument` of `stod` / `stoi`, handled at 459. -/
  | invalid_argument
  /-- The exception `std::out_of_range` of `stod` / `stoi`; no handler catches it. -/
  | out_of_range
  /-- The statement `throw int{-1}` at 448, handled at 463. -/
  | unknown_type
  /-- An access `parameter_storage[k]` with `k` not below the size: undefined. -/
  | index_out_of_range
  /-- The tokeniser loop did not end within its iterations. -/
  | loop_fuel
deriving DecidableEq

/-- The access `parameter_storage[k]`. -/
def storage_at (parameter_storage : List String) (k : Nat) : Except thrown String :=
  match parameter_storage[k]? with
  | some token => Except.ok token
  | none => Except.error thrown.index_out_of_range

/-- A library conversion applied to `parameter_storage[k]`. -/
def convert_at {α : Type} (conv : String → conversion α) (parameter_storage : List String)
    (k : Nat) : Except thrown α :=
  match storage_at parameter_storage k with
  | Except.error e => Except.error e
  | Except.ok token =>
    match conv token with
    | conversion.value v => Except.ok v
    | conversion.invalid_argument => Except.error thrown.invalid_argument
    | conversion.out_of_range => Except.error thrown.out_of_range

/-- The object parser from line 299 to line 452: the remaining conversions and the
construction of the object of the class selected by `object_type`. -/
def construct_object (stod : String → conversion Double) (stoi : String → conversion Int)
    (object_type : celestial_types) (object_name : String)
    (parameter_storage : List String) : Except thrown celestial_object := do
  let object_redshift ← convert_at stod parameter_storage 2
  let object_distance ← convert_at stod parameter_storage 3
  let object_mass ← convert_at stod parameter_storage 4
  let object_omega ← convert_at stod parameter_storage 5
  if object_type = celestial_types.Galaxy then
    let object_mass_frac ← convert_at stod parameter_storage 6
    let hubble_type_str ← storage_at parameter_storage 7
    let object_htype : hubble_types := ⟨hubble_types_output.indexOf hubble_type_str⟩
    pure (galaxy.ctor object_name object_redshift object_distance object_mass object_omega
      object_mass_frac object_htype)
  else if object_type = celestial_types.Star ∨ object_type = celestial_types.MainSequenceStar
      ∨ object_type = celestial_types.RedGiantStar
      ∨ object_type = celestial_types.StellarRemnant
      ∨ object_type = celestial_types.NeutronStar ∨ object_type = celestial_types.Pulsar then
    let stel_type_str ← storage_at parameter_storage 6
    let stel_type : stellar_types := ⟨stellar_types_output.indexOf stel_type_str⟩
    let stel_digit ← convert_at stoi parameter_storage 7
    let lum_no_str ← storage_at parameter_storage 8
    let lum_no : luminosity_class := ⟨luminosity_class_output.indexOf lum_no_str⟩
    let absolute_lum ← convert_at stod parameter_storage 9
    let apparent_lum ← convert_at stod parameter_storage 10
    if object_type = celestial_types.RedGiantStar ∨
        object_type = celestial_types.MainSequenceStar ∨
        object_type = celestial_types.NeutronStar ∨
        object_type = celestial_types.Pulsar ∨
        object_type = celestial_types.StellarRemnant then
      pure (star_derived.ctor object_type object_name object_redshift object_distance
        object_mass object_omega stel_type stel_digit lum_no absolute_lum apparent_lum)
    else
      pure (star.ctor object_name object_redshift object_distance object_mass object_omega
        stel_type stel_digit lum_no absolute_lum apparent_lum)
  else if object_type = celestial_types.Asteroid ∨ object_type = celestial_types.BlackHole
      ∨ object_type = celestial_types.Comet ∨ object_type = celestial_types.DwarfPlanet
      ∨ object_type = celestial_types.GaseousPlanet ∨ object_type = celestial_types.Moon
      ∨ object_type = celestial_types.Planet
      ∨ object_type = celestial_types.TerrestrialPlanet then
    pure (plain.ctor object_type object_name object_redshift object_distance object_mass
      object_omega)
  else
    throw thrown.unknown_type

/-- The state the import works on: the memory and the catalogue being filled. -/
abbrev import_state := Memory × catalogue

/-- The body of the object-parser loop for one line (265-465). The name token is
pushed onto `local_object_names` at 298, before any conversion. `Except.error` is the
end of the whole import: an exception no handler of the function catches, or an
undefined access. -/
def import_line (stod : String → conversion Double) (stoi : String → conversion Int)
    (st : import_state) (line : String) : Except thrown import_state :=
  match tokenise line with
  | none => Except.error thrown.loop_fuel
  | some parameter_storage =>
    match storage_at parameter_storage 0 with
    | Except.error e => Except.error e
    | Except.ok object_type_str =>
      let object_type : celestial_types := ⟨celestial_types_output.indexOf object_type_str⟩
      match storage_at parameter_storage 1 with
      | Except.error e => Except.error e
      | Except.ok object_name =>
        let named : catalogue :=
          { st.2 with local_object_names := st.2.local_object_names ++ [object_name] }
        match construct_object stod stoi object_type object_name parameter_storage with
        | Except.ok object =>
          let allocated := make_shared st.1 object
          Except.ok (allocated.1,
            { named with
              catalogue_objects := named.catalogue_objects ++ [allocated.2]
              object_amount := named.object_amount + 1 })
        | Except.error thrown.invalid_argument => Except.ok (st.1, named)
        | Except.error thrown.unknown_type => Except.ok (st.1, named)
        | Except.error e => Except.error e

/-- The object-parser loop of `import_from_file` (261-467) over the lines `getline`
delivers before the end of the file is seen. -/
def import_objects (stod : String → conversion Double) (stoi : String → conversion Int) :
    List String → import_state → Except thrown import_state
  | [], st => Except.ok st
  | line :: rest, st =>
    match import_line stod stoi st line with
    | Except.error e => Except.error e
    | Except.ok st' => import_objects stod stoi rest st'

/-- The name field of a record line: its second token. -/
def record_name (line : String) : Option String :=
  match tokenise line with
  | none => none
  | some parameter_storage => parameter_storage[1]?

/-! ## Reachable catalogue states -/

/-- Catalogue states reached from an empty catalogue through `add_object`,
`sort_catalogue` and the import of object files. Between these calls the caller may
construct objects and change objects without renaming them (`memory`). -/
inductive catalogue_reachable (stod : String → conversion Double)
    (stoi : String → conversion Int)
    (std_sort : (Ref → Ref → Bool) → List Ref → List Ref) : Memory → catalogue → Prop where
  | empty (mem : Memory) (name : String) :
      catalogue_reachable stod stoi std_sort mem (catalogue.ctor name)
  | memory (mem mem' : Memory) (cat : catalogue)
      (hr : catalogue_reachable stod stoi std_sort mem cat)
      (hnext : mem.next ≤ mem'.next)
      (hname : ∀ r, r < mem.next → (mem'.heap r).name = (mem.heap r).name) :
      catalogue_reachable stod stoi std_sort mem' cat
  | add_object (mem : Memory) (cat : catalogue) (object : Ref)
      (hr : catalogue_reachable stod stoi std_sort mem cat)
      (hobj : object < mem.next) :
      catalogue_reachable stod stoi std_sort mem (add_object mem.heap cat object)
  | sort (mem : Memory) (cat : catalogue) (parameter : parameters)
      (hr : catalogue_reachable stod stoi std_sort mem cat) :
      catalogue_reachable stod stoi std_sort mem
        (sort_catalogue std_sort mem.heap parameter cat)
  | import_file (mem mem' : Memory) (cat cat' : catalogue) (lines : List String)
      (hr : catalogue_reachable stod stoi std_sort mem cat)
      (hi : import_objects stod stoi lines (mem, cat) = Except.ok (mem', cat')) :
      catalogue_reachable stod stoi std_sort mem' cat'

/-- Catalogue states reached from an empty catalogue through `add_object` and
`sort_catalogue`, where `add_object` is called only with an object whose name passes
the test of the Create command (`name_taken`). Between these calls the caller may
construct objects and change objects without renaming them (`memory`). -/
inductive guarded_reachable
    (std_sort : (Ref → Ref → Bool) → List Ref → List Ref) : Memory → catalogue → Prop where
  | empty (mem : Memory) (name : String) :
      guarded_reachable std_sort mem (catalogue.ctor name)
  | memory (mem mem' : Memory) (cat : catalogue)
      (hr : guarded_reachable std_sort mem cat)
      (hnext : mem.next ≤ mem'.next)
      (hname : ∀ r, r < mem.next → (mem'.heap r).name = (mem.heap r).name) :
      guarded_reachable std_sort mem' cat
  | add_object (mem : Memory) (cat : catalogue) (object : Ref)
      (hr : guarded_reachable std_sort mem cat)
      (hobj : object < mem.next)
      (hfree : name_taken cat (mem.heap object).name = false) :
      guarded_reachable std_sort mem (add_object mem.heap cat object)
  | sort (mem : Memory) (cat : catalogue) (parameter : parameters)
      (hr : guarded_reachable std_sort mem cat) :
      guarded_reachable std_sort mem
        (sort_catalogue std_sort mem.heap parameter cat)

/-- Two objects with the same name `"a"` at the addresses 0 and 1. -/
def twin_memory : Memory :=
  { heap := fun _ => plain.ctor celestial_types.Planet "a" 0 0 0 0, next := 2 }

/-- A memory in which no object has been constructed yet. -/
def empty_memory : Memory := { heap := fresh_heap, next := 0 }

/-- The invariant that carries the uniqueness of names: the objects of the catalogue
are allocated, their names are pairwise distinct and occur in the name list, and the
name list is at least as long as the object sequence. -/
def names_invariant (mem : Memory) (cat : catalogue) : Prop :=
  (∀ r ∈ cat.catalogue_objects, r < mem.next) ∧
  (object_names mem.heap cat).Nodup ∧
  (∀ r ∈ cat.catalogue_objects, (mem.heap r).name ∈ cat.local_object_names) ∧
  cat.catalogue_objects.length ≤ cat.local_object_names.length

/-- The catalogue `"Test"` after `add_object` of the object at 0 of `twin_memory`. -/
def single_catalogue : catalogue :=
  add_object twin_memory.heap (catalogue.ctor "Test") 0

/-- The catalogue `"Test"` after `add_object` of both objects of `twin_memory`. -/
def twin_catalogue : catalogue :=
  add_object twin_memory.heap single_catalogue 1

/-- The state after the import into the empty catalogue `"Test"` of an object file
with two well-formed lines that both have the name `a`. -/
def twin_import : import_state :=
  match import_objects stod_decimal stoi_decimal ["Planet:a:0:0:1:2", "Moon:a:0:0:3:4"]
      (empty_memory, catalogue.ctor "Test") with
  | Except.ok st => st
  | Except.error _ => (empty_memory, catalogue.ctor "Test")

/-! ## Lookup and selection (celestial_objects.cpp, 684-779) -/

/-- What a call of `get_object` gives back. -/
inductive lookup where
  /-- The shared pointer returned. -/
  | object (r : Ref)
  /-- The statement `throw(-1)`, after the message. -/
  | thrown
  /-- An access `catalogue_objects[k]` with `k` not below the size: undefined. -/
  | out_of_bounds
deriving DecidableEq

/-- The method `catalogue::get_object(std::string name)` (684-694): `find_if` over
`local_object_names`, then `catalogue_objects` is indexed with the position found. -/
def get_object (cat : catalogue) (name : String) : lookup :=
  let object_position := cat.local_object_names.indexOf name
  if object_position ≥ cat.local_object_names.length then lookup.thrown
  else
    match cat.catalogue_objects[object_position]? with
    | some r => lookup.object r
    | none => lookup.out_of_bounds

/-- The method `catalogue::get_object(int index)` (696-704). -/
def get_object_int (cat : catalogue) (index : Int) : lookup :=
  if index < 0 ∨ index ≥ (cat.catalogue_objects.length : Int) then lookup.thrown
  else
    match cat.catalogue_objects[index.toNat]? with
    | some r => lookup.object r
    | none => lookup.out_of_bounds

/-- A loop of `subselect_catalogue`: every object of the sequence whose `object_type`
passes the test is pushed onto `subselection`, in sequence order. -/
def select_loop (heap : Heap) (test : celestial_types → Bool) (objects : List Ref) :
    List Ref :=
  objects.foldl
    (fun subselection r => if test (heap r).object_type then subselection ++ [r]
      else subselection) []

/-- The method `catalogue::subselect_catalogue(celestial_types& type)` (706-779). -/
def subselect_catalogue (heap : Heap) (cat : catalogue) (type : celestial_types) :
    List Ref :=
  if type = celestial_types.Star then
    select_loop heap
      (fun o_type => o_type = celestial_types.Star || o_type = celestial_types.MainSequenceStar
        || o_type = celestial_types.RedGiantStar || o_type = celestial_types.StellarRemnant
        || o_type = celestial_types.NeutronStar || o_type = celestial_types.Pulsar)
      cat.catalogue_objects
  else if type = celestial_types.StellarRemnant then
    select_loop heap
      (fun o_type => o_type = celestial_types.StellarRemnant
        || o_type = celestial_types.NeutronStar || o_type = celestial_types.Pulsar)
      cat.catalogue_objects
  else if type = celestial_types.NeutronStar then
    select_loop heap
      (fun o_type => o_type = celestial_types.NeutronStar || o_type = celestial_types.Pulsar)
      cat.catalogue_objects
  else if type = celestial_types.Planet then
    select_loop heap
      (fun o_type => o_type = celestial_types.Planet
        || o_type = celestial_types.TerrestrialPlanet
        || o_type = celestial_types.GaseousPlanet || o_type = celestial_types.DwarfPlanet)
      cat.catalogue_objects
  else if type = celestial_types.Unassigned then
    cat.catalogue_objects
  else
    select_loop heap (fun o_type => o_type = type) cat.catalogue_objects

/-- The TypeRegistry table as the specification words it: which object kinds a query
kind matches. -/
def registry_matches (query kind : celestial_types) : Bool :=
  if query = celestial_types.Star then
    decide (kind ∈ [celestial_types.Star, celestial_types.MainSequenceStar,
      celestial_types.RedGiantStar, celestial_types.StellarRemnant,
      celestial_types.NeutronStar, celestial_types.Pulsar])
  else if query = celestial_types.StellarRemnant then
    decide (kind ∈ [celestial_types.StellarRemnant, celestial_types.NeutronStar,
      celestial_types.Pulsar])
  else if query = celestial_types.NeutronStar then
    decide (kind ∈ [celestial_types.NeutronStar, celestial_types.Pulsar])
  else if query = celestial_types.Planet then
    decide (kind ∈ [celestial_types.Planet, celestial_types.TerrestrialPlanet,
      celestial_types.GaseousPlanet, celestial_types.DwarfPlanet])
  else if query = celestial_types.Unassigned then true
  else decide (kind = query)

/-- The state after the import of a line that is skipped and a well-formed line into
the empty catalogue `"Test"`. -/
def skipped_import : import_state :=
  match import_objects stod_decimal stoi_decimal
      ["Planet:x:abc:0:0:0", "Planet:p:0:0:1:2"] (empty_memory, catalogue.ctor "Test") with
  | Except.ok st => st
  | Except.error _ => (empty_memory, catalogue.ctor "Test")

/-- A memory with one object of each of the kinds Star, MainSequenceStar, Pulsar and
Planet at the addresses 0 to 3. -/
def registry_memory : Memory :=
  { heap := fun r =>
      if r = 0 then star.ctor "s" 0 0 1 0 stellar_types.G 2 luminosity_class.V 1 1
      else if r = 1 then
        star_derived.ctor celestial_types.MainSequenceStar "m" 0 0 1 0 stellar_types.G 2
          luminosity_class.V 1 1
      else if r = 2 then
        star_derived.ctor celestial_types.Pulsar "q" 0 0 1 0 stellar_types.G 2
          luminosity_class.V 1 1
      else plain.ctor celestial_types.Planet "p" 0 0 1 0
    next := 4 }

/-! ## Sorting: the contract of `std::sort` and the keys of the specification -/

/-- The requirement `std::sort` puts on its comparison function for the elements it is
to sort: a strict weak ordering of them (irreflexive, transitive, with transitive
incomparability). -/
def strict_weak_ordering (l : List Ref) (comp : Ref → Ref → Bool) : Prop :=
  (∀ a ∈ l, comp a a = false) ∧
  (∀ a ∈ l, ∀ b ∈ l, ∀ c ∈ l, comp a b = true → comp b c = true → comp a c = true) ∧
  (∀ a ∈ l, ∀ b ∈ l, ∀ c ∈ l, comp a b = false → comp b a = false → comp b c = false →
    comp c b = false → comp a c = false ∧ comp c a = false)

/-- What the C++ standard promises of `std::sort(first, last, comp)` when `comp` is a
strict weak ordering of the elements of the range: the range is a permutation of what
it was, and no element stands before one that `comp` orders before it. The order of
equivalent elements is not promised. -/
def sort_contract (std_sort : (Ref → Ref → Bool) → List Ref → List Ref) : Prop :=
  ∀ comp l, strict_weak_ordering l comp →
    (std_sort comp l).Perm l ∧ (std_sort comp l).Pairwise (fun a b => comp b a = false)

/-! ### The function `std::sort` of the GNU library

The algorithm of `std::sort` in libstdc++ (`bits/stl_algo.h`): an introsort loop that
partitions ranges of more than 16 elements around a median of three, then a final
insertion sort. The vector is a list and an iterator is a position in it. `none` is an
access outside the vector (undefined), which a comparison that is no strict weak
ordering can cause, or the heap-sort fallback `__partial_sort`, taken when the depth
limit is used up, which is not modelled. -/

namespace libstdcxx

/-- The call `std::iter_swap(a, b)`. -/
def iter_swap (v : List Ref) (a b : Nat) : Option (List Ref) :=
  match v[a]?, v[b]? with
  | some x, some y => some ((v.set a y).set b x)
  | _, _ => none

/-- The function `__move_median_to_first(result, a, b, c, comp)`. -/
def move_median_to_first (comp : Ref → Ref → Bool) (v : List Ref) (result a b c : Nat) :
    Option (List Ref) :=
  match v[a]?, v[b]?, v[c]? with
  | some va, some vb, some vc =>
    if comp va vb then
      if comp vb vc then iter_swap v result b
      else if comp va vc then iter_swap v result c
      else iter_swap v result a
    else if comp va vc then iter_swap v result a
    else if comp vb vc then iter_swap v result c
    else iter_swap v result b
  | _, _, _ => none

/-- The loop `while (comp(first, pivot)) ++first;` of `__unguarded_partition`: the
position it stops at. The first argument bounds the number of steps. -/
def partition_forward (comp : Ref → Ref → Bool) (v : List Ref) (pivot : Nat) :
    Nat → Nat → Option Nat
  | 0, _ => none
  | fuel + 1, first =>
    match v[first]?, v[pivot]? with
    | some x, some p => if comp x p then partition_forward comp v pivot fuel (first + 1)
      else some first
    | _, _ => none

/-- The statements `--last; while (comp(pivot, last)) --last;` of
`__unguarded_partition`, from the value `last` has before them: the position the loop
stops at. -/
def partition_backward (comp : Ref → Ref → Bool) (v : List Ref) (pivot : Nat) :
    Nat → Option Nat
  | 0 => none
  | last + 1 =>
    match v[pivot]?, v[last]? with
    | some p, some x => if comp p x then partition_backward comp v pivot last
      else some last
    | _, _ => none

/-- The function `__unguarded_partition(first, last, pivot, comp)`: the vector after
the swaps and the position returned. The first argument bounds the number of passes of
the outer loop. -/
def unguarded_partition (comp : Ref → Ref → Bool) (pivot : Nat) :
    Nat → List Ref → Nat → Nat → Option (List Ref × Nat)
  | 0, _, _, _ => none
  | fuel + 1, v, first, last =>
    match partition_forward comp v pivot (v.length + 1) first with
    | none => none
    | some first' =>
      match partition_backward comp v pivot last with
      | none => none
      | some last' =>
        if ¬ (first' < last') then some (v, first')
        else
          match iter_swap v first' last' with
          | none => none
          | some v' => unguarded_partition comp pivot fuel v' (first' + 1) last'

/-- The function `__unguarded_partition_pivot(first, last, comp)`. -/
def unguarded_partition_pivot (comp : Ref → Ref → Bool) (v : List Ref) (first last : Nat) :
    Option (List Ref × Nat) :=
  let mid := first + (last - first) / 2
  match move_median_to_first comp v first (first + 1) mid (last - 1) with
  | none => none
  | some v' => unguarded_partition comp first (v'.length + 1) v' (first + 1) last

/-- The function `__introsort_loop(first, last, depth_limit, comp)`. The first argument
bounds the depth of the recursion and the passes of the loop. -/
def introsort_loop (comp : Ref → Ref → Bool) :
    Nat → List Ref → Nat → Nat → Nat → Option (List Ref)
  | 0, _, _, _, _ => none
  | fuel + 1, v, first, last, depth_limit =>
    if last - first > 16 then
      if depth_limit = 0 then none
      else
        match unguarded_partition_pivot comp v first last with
        | none => none
        | some (v', cut) =>
          match introsort_loop comp fuel v' cut last (depth_limit - 1) with
          | none => none
          | some v'' => introsort_loop comp fuel v'' first cut (depth_limit - 1)
    else some v

/-- The function `__unguarded_linear_insert(last, comp)` for the value `val` taken from
the position `last`: elements before it that `val` is ordered before move up one
place. The loop has no test for the beginning of the vector. -/
def unguarded_linear_insert (comp : Ref → Ref → Bool) (val : Ref) :
    List Ref → Nat → Option (List Ref)
  | _, 0 => none
  | v, next + 1 =>
    match v[next]? with
    | some x =>
      if comp val x then unguarded_linear_insert comp val (v.set (next + 1) x) next
      else some (v.set (next + 1) val)
    | none => none

/-- One pass of the loop of `__insertion_sort(first, last, comp)`, for the position
`i`. -/
def insertion_step (comp : Ref → Ref → Bool) (first : Nat) (v : List Ref) (i : Nat) :
    Option (List Ref) :=
  match v[i]?, v[first]? with
  | some val, some front =>
    if comp val front then
      some (v.take first ++ val :: ((v.drop first).take (i - first) ++ v.drop (i + 1)))
    else unguarded_linear_insert comp val v i
  | _, _ => none

/-- The function `__insertion_sort(first, last, comp)`. -/
def insertion_sort (comp : Ref → Ref → Bool) (v : List Ref) (first last : Nat) :
    Option (List Ref) :=
  if first = last then some v
  else (List.range' (first + 1) (last - (first + 1))).foldlM (insertion_step comp first) v

/-- The function `__unguarded_insertion_sort(first, last, comp)`. -/
def unguarded_insertion_sort (comp : Ref → Ref → Bool) (v : List Ref) (first last : Nat) :
    Option (List Ref) :=
  (List.range' first (last - first)).foldlM
    (fun (v : List Ref) (i : Nat) =>
      match v[i]? with
      | some val => unguarded_linear_insert comp val v i
      | none => none) v

/-- The function `__final_insertion_sort(first, last, comp)`. -/
def final_insertion_sort (comp : Ref → Ref → Bool) (v : List Ref) (first last : Nat) :
    Option (List Ref) :=
  if last - first > 16 then
    match insertion_sort comp v first (first + 16) with
    | none => none
    | some v' => unguarded_insertion_sort comp v' (first + 16) last
  else insertion_sort comp v first last

/-- The function `std::__lg(n)`: the position of the highest bit of `n`. -/
def lg : Nat → Nat → Nat
  | 0, _ => 0
  | fuel + 1, n => if n < 2 then 0 else lg fuel (n / 2) + 1

/-- The function `std::sort(first, last, comp)` on a whole vector
(`__sort`). -/
def sort (comp : Ref → Ref → Bool) (v : List Ref) : Option (List Ref) :=
  if v = [] then some v
  else
    match introsort_loop comp (v.length + 1) v 0 v.length (lg v.length v.length * 2) with
    | none => none
    | some v' => final_insertion_sort comp v' 0 v.length

end libstdcxx

/-- The function `std::sort` of the GNU library as a function on lists: where the
reading `libstdcxx.sort` has no result the list is returned as it is. The theorems that
run it state that `libstdcxx.sort` has a result at their input. -/
def gnu_sort (comp : Ref → Ref → Bool) (l : List Ref) : List Ref :=
  (libstdcxx.sort comp l).getD l

/-- The place of a `double` that is not NaN in the order of the rational numbers with
the two infinities. -/
def Double.rank : Double → WithBot (WithTop Rat)
  | Double.number value => ((value : WithTop Rat) : WithBot (WithTop Rat))
  | Double.infinity true => ⊥
  | Double.infinity false => ((⊤ : WithTop Rat) : WithBot (WithTop Rat))
  | Double.nan => ⊥

/-- The key of the object at `r` under `p` is not NaN. The keys of Name and
MemberNumber are a string and an `int`. -/
def key_not_nan (heap : Heap) (p : parameters) (r : Ref) : Prop :=
  if p = parameters.Distance then (heap r).distance ≠ Double.nan
  else if p = parameters.Mass then (heap r).mass ≠ Double.nan
  else if p = parameters.Redshift then (heap r).redshift ≠ Double.nan
  else if p = parameters.RotationalVelocity then (heap r).rotational_velocity ≠ Double.nan
  else True

instance (heap : Heap) (p : parameters) (r : Ref) : Decidable (key_not_nan heap p r) := by
  unfold key_not_nan
  exact inferInstance

/-- The state after the import into the empty catalogue `"Test"` of an object file
with four planets whose distances are 1, 3, NaN and 2. -/
def nan_import : import_state :=
  match import_objects stod_decimal stoi_decimal
      ["Planet:a:0:1:0:0", "Planet:b:0:3:0:0", "Planet:c:0:nan:0:0", "Planet:d:0:2:0:0"]
      (empty_memory, catalogue.ctor "Test") with
  | Except.ok st => st
  | Except.error _ => (empty_memory, catalogue.ctor "Test")

/-- Planets at distance 0: the one at address `r` has the letter number `r` of the
alphabet as its name (`a` at 0, `b` at 1, ...). -/
def letter_heap : Heap :=
  fun r => plain.ctor celestial_types.Planet (String.mk [Char.ofNat (97 + r)]) 0 0 0 0

/-- The catalogue `"Test"` after `add_object` of the seventeen objects at the addresses
0 to 16 of `letter_heap`, in that order. -/
def letter_catalogue : catalogue :=
  (List.range 17).foldl (add_object letter_heap) (catalogue.ctor "Test")

/-- The parameters `sort_catalogue` has a case for. -/
def supported_parameter (p : parameters) : Prop :=
  p = parameters.Name ∨ p = parameters.Distance ∨ p = parameters.Mass ∨
  p = parameters.Redshift ∨ p = parameters.RotationalVelocity ∨ p = parameters.MemberNumber

/-- The key order of the specification: the key of the object at `a` under `p` is at
most the key of the object at `b`; the Name key is the name with every letter
lower-cased. -/
def key_le (heap : Heap) (p : parameters) (a b : Ref) : Prop :=
  if p = parameters.Name then
    (heap a).name.data.map Char.toLower ≤ (heap b).name.data.map Char.toLower
  else if p = parameters.Distance then (heap a).distance ≤ (heap b).distance
  else if p = parameters.Mass then (heap a).mass ≤ (heap b).mass
  else if p = parameters.Redshift then (heap a).redshift ≤ (heap b).redshift
  else if p = parameters.RotationalVelocity then
    (heap a).rotational_velocity ≤ (heap b).rotational_velocity
  else if p = parameters.MemberNumber then (heap a).member_number ≤ (heap b).member_number
  else True

instance (heap : Heap) (p : parameters) (a b : Ref) : Decidable (key_le heap p a b) := by
  unfold key_le
  exact inferInstance

/-- The objects at `a` and `b` have equal keys under `p`. -/
def same_key (heap : Heap) (p : parameters) (a b : Ref) : Bool :=
  if p = parameters.Name then
    decide ((heap a).name.data.map Char.toLower = (heap b).name.data.map Char.toLower)
  else if p = parameters.Distance then decide ((heap a).distance = (heap b).distance)
  else if p = parameters.Mass then decide ((heap a).mass = (heap b).mass)
  else if p = parameters.Redshift then decide ((heap a).redshift = (heap b).redshift)
  else if p = parameters.RotationalVelocity then
    decide ((heap a).rotational_velocity = (heap b).rotational_velocity)
  else if p = parameters.MemberNumber then
    decide ((heap a).member_number = (heap b).member_number)
  else true

/-- Three objects named `"Bravo"`, `"alpha"`, `"Alpha2"` at the addresses 0, 1, 2. -/
def bravo_memory : Memory :=
  { heap := fun r =>
      if r = 0 then plain.ctor celestial_types.Planet "Bravo" 0 0 0 0
      else if r = 1 then plain.ctor celestial_types.Planet "alpha" 0 0 0 0
      else plain.ctor celestial_types.Planet "Alpha2" 0 0 0 0
    next := 3 }

/-- The catalogue `"Test"` after `add_object` of the three objects of `bravo_memory`. -/
def bravo_catalogue : catalogue :=
  add_object bravo_memory.heap (add_object bravo_memory.heap
    (add_object bravo_memory.heap (catalogue.ctor "Test") 0) 1) 2

/-! ## Export (celestial_objects.cpp, 61-79, 161-208, 588-592) -/

/-- A reading of `operator<<` on a `double` that is a whole number of fewer than seven
digits, which the stream prints in plain decimal. It is used only to run the export on
such values: for any other value the text here (numerator, a slash, denominator) is not
what the stream prints, and the export functions take the printing as an argument. -/
def show_whole (q : Double) : String :=
  match q with
  | Double.number value =>
    if value.den = 1 then toString value.num
    else toString value.num ++ "/" ++ toString value.den
  | Double.infinity negative => if negative then "-inf" else "inf"
  | Double.nan => "nan"

/-- The call `write(s.c_str(), n)` on a stream: the first `n` characters of the buffer
of `s`, which holds the characters of `s` and a terminating null. `none` when `n` is
past the buffer: undefined. Sizes are counted in characters, which for text in ASCII is
the count in bytes. -/
def write_bytes (s : String) (n : Nat) : Option String :=
  if n ≤ s.length then some (String.mk (s.data.take n))
  else if n = s.length + 1 then some (s ++ String.mk [Char.ofNat 0])
  else none

/-- The record line put into `data_string` by the `export_to_file` of the class of the
object: `celestial_object` (67-68), `galaxy` (168-169) or `star` (195-197), which the
classes derived from `star` inherit. `none` when an output table is indexed past its
end: undefined. -/
def export_data_line (show_double : Double → String) (o : celestial_object) :
    Option String :=
  match celestial_types_output[o.object_type.code]? with
  | none => none
  | some type_token =>
    let common := type_token ++ ":" ++ o.name ++ ":" ++ show_double o.redshift ++ ":" ++
      show_double o.distance ++ ":" ++ show_double o.mass ++ ":" ++
      show_double o.rotational_velocity
    match o.derived with
    | kind_fields.base => some (common ++ "\n")
    | kind_fields.galaxy stellar_mass_fraction hubble_type =>
      match hubble_types_output[hubble_type.code]? with
      | none => none
      | some hubble_token =>
        some (common ++ ":" ++ show_double stellar_mass_fraction ++ ":" ++ hubble_token
          ++ "\n")
    | kind_fields.star star_type stellar_digit luminosity_id abs_magnitude app_magnitude =>
      match stellar_types_output[star_type.code]? with
      | none => none
      | some stellar_token =>
        match luminosity_class_output[luminosity_id.code]? with
        | none => none
        | some luminosity_token =>
          some (common ++ ":" ++ stellar_token ++ ":" ++ toString stellar_digit ++ ":" ++
            luminosity_token ++ ":" ++ show_double abs_magnitude ++ ":" ++
            show_double app_magnitude ++ "\n")

/-- The text `<name>:<child name>:<orbit_distance>:<orbit_tilt>:<orbit_eccentricity>`
and a newline that one pass of the relationship loop appends to `relationship_string`
for the satellite `current_satellite` with the object at `child`. -/
def relationship_line (show_double : Double → String) (heap : Heap) (name : String)
    (current_satellite : satellite) (child : Ref) : String :=
  name ++ ":" ++ (heap child).name ++ ":" ++ show_double current_satellite.orbit_distance ++
    ":" ++ show_double current_satellite.orbit_tilt ++ ":" ++
    show_double current_satellite.orbit_eccentricity ++ "\n"

/-- The relationship loop of `export_to_file` (71-78, 172-179, 200-207) over the indices
`i` still to do. The state is the content of `relationship_string`, which is never
cleared, and the text written to the relationship file so far; every pass writes
`data_size` characters, the size of the record line. `none` is undefined behaviour: an
index past `member_objects`, an expired satellite pointer, or a write past the buffer. -/
def relationship_loop (show_double : Double → String) (heap : Heap) (o : celestial_object)
    (data_size : Nat) : List Nat → String × String → Option (String × String)
  | [], state => some state
  | i :: rest, state =>
    match o.member_objects[i]? with
    | none => none
    | some member =>
      let current_satellite := satellite.copy_ctor member
      match satellite.get_object current_satellite with
      | none => none
      | some child =>
        let relationship_string :=
          state.1 ++ relationship_line show_double heap o.name current_satellite child
        match write_bytes relationship_string data_size with
        | none => none
        | some bytes =>
          relationship_loop show_double heap o data_size rest
            (relationship_string, state.2 ++ bytes)

/-- The virtual method `export_to_file(object_dat, relation_dat)` on the object at
`this`: the text written to the object file and the text written to the relationship
file. -/
def celestial_object.export_to_file (show_double : Double → String) (heap : Heap)
    (this : Ref) : Option (String × String) :=
  match export_data_line show_double (heap this) with
  | none => none
  | some data_string =>
    match relationship_loop show_double heap (heap this) data_string.length
        (List.range (heap this).member_number.toNat) ("", "") with
    | none => none
    | some state => some (data_string, state.2)

/-- The loop of `catalogue::export_to_file` (589-592) over the objects still to do: every
object appends to the two files. -/
def export_loop (show_double : Double → String) (heap : Heap) :
    List Ref → String × String → Option (String × String)
  | [], files => some files
  | r :: rest, files =>
    match celestial_object.export_to_file show_double heap r with
    | none => none
    | some written =>
      export_loop show_double heap rest (files.1 ++ written.1, files.2 ++ written.2)

/-- The method `catalogue::export_to_file()` from line 588 on: the content of the object
file and of the relationship file, both opened empty. -/
def catalogue.export_to_file (show_double : Double → String) (heap : Heap)
    (cat : catalogue) : Option (String × String) :=
  export_loop show_double heap cat.catalogue_objects ("", "")

/-- The relationship file the specification describes: one relationship line for every
satellite of the object, in order. -/
def relationship_lines (show_double : Double → String) (heap : Heap)
    (o : celestial_object) : String :=
  String.join (o.member_objects.map (fun sat =>
    match satellite.get_object sat with
    | some child => relationship_line show_double heap o.name sat child
    | none => ""))

/-- The lines `std::getline` delivers before the stream reports the end of the file
(261-263, 473-475): the lines that end in a newline; text after the last newline is read
together with the end of the file and is not processed. The second argument is the
line being read, last character first. -/
def file_lines_loop : List Char → List Char → List String
  | [], _ => []
  | c :: rest, current =>
    if c = Char.ofNat 10 then String.mk current.reverse :: file_lines_loop rest []
    else file_lines_loop rest (c :: current)

/-- The lines of a file that the import loops process. -/
def file_lines (text : String) : List String := file_lines_loop text.data []

/-- A moon `"m"` at 0 and two asteroids at 1 and 2; the moon is given the two asteroids
as members by `add_member` with the orbital parameters 1, 2, 3. -/
def family_heap : Heap :=
  append_member
    (append_member
      (fun r =>
        if r = 0 then plain.ctor celestial_types.Moon "m" 0 0 0 0
        else if r = 1 then plain.ctor celestial_types.Asteroid "first_child_of_m" 0 0 0 0
        else plain.ctor celestial_types.Asteroid "second" 0 0 0 0)
      0 1 1 2 3)
    0 2 1 2 3

/-- A supernova `"sn"` at every address. -/
def supernova_heap : Heap :=
  fun _ => star_derived.ctor celestial_types.Supernova "sn" 0 0 1 0 stellar_types.G 2
    luminosity_class.V 1 1

/-- A star whose luminosity class is the enumerator `VII`. -/
def hypergiant : celestial_object :=
  star.ctor "s" 0 0 1 0 stellar_types.G 2 luminosity_class.VII 1 1

/-- The catalogue `"Test"` holding the supernova at address 0 of `supernova_heap`. -/
def supernova_catalogue : catalogue :=
  add_object supernova_heap (catalogue.ctor "Test") 0

/-- The catalogue `"Test"` holding the three objects of `family_heap`. -/
def family_catalogue : catalogue :=
  add_object family_heap (add_object family_heap
    (add_object family_heap (catalogue.ctor "Test") 0) 1) 2

/-- The way an import ended without a catalogue, if it did. -/
def import_abort (result : Except thrown import_state) : Option thrown :=
  match result with
  | Except.error e => some e
  | Except.ok _ => none

/-- What an import left in the catalogue: name list, names of the objects, object count. -/
def import_summary (result : Except thrown import_state) :
    Option (List String × List String × Int) :=
  match result with
  | Except.error _ => none
  | Except.ok st => some (st.2.local_object_names, object_names st.1.heap st.2,
      st.2.object_amount)

/-- The fields of a record line as the specification lists them: kind token, name,
redshift, distance, mass, rotational velocity, then two more for a galaxy, five more
for a star, none for any other class. `none` when a value has no token in its table. -/
def record_fields (show_double : Double → String) (o : celestial_object) :
    Option (List String) :=
  match celestial_types_output[o.object_type.code]? with
  | none => none
  | some type_token =>
    let common := [type_token, o.name, show_double o.redshift, show_double o.distance,
      show_double o.mass, show_double o.rotational_velocity]
    match o.derived with
    | kind_fields.base => some common
    | kind_fields.galaxy stellar_mass_fraction hubble_type =>
      match hubble_types_output[hubble_type.code]? with
      | none => none
      | some hubble_token => some (common ++ [show_double stellar_mass_fraction, hubble_token])
    | kind_fields.star star_type stellar_digit luminosity_id abs_magnitude app_magnitude =>
      match stellar_types_output[star_type.code]?,
          luminosity_class_output[luminosity_id.code]? with
      | some stellar_token, some luminosity_token =>
        some (common ++ [stellar_token, toString stellar_digit, luminosity_token,
          show_double abs_magnitude, show_double app_magnitude])
      | _, _ => none

/-! ## Members, object count and the relationship parser -/

/-- The method `catalogue::get_number()`. -/
def get_number (cat : catalogue) : Int := cat.object_amount

/-- The method `celestial_object::get_member(int& index)` (celestial_objects.cpp,
112-121). The satellite is returned by value, so it is copy-constructed. `none` is
undefined behaviour: the `else` branch prints two lines and reaches the end of the
function, which returns a `satellite`, without a `return` statement; an access
`member_objects[k]` with `k` not below the size is undefined as well. -/
def get_member (heap : Heap) (this : Ref) (index : Int) : Option satellite :=
  if (heap this).member_number > 0 ∧ index ≥ 0 ∧ index < (heap this).member_number then
    match (heap this).member_objects[index.toNat]? with
    | some sat => some (satellite.copy_ctor sat)
    | none => none
  else none

/-- One call `this->add_member(member_ptr, orb_distance, orb_tilt, orb_eccentricity)`. -/
structure member_call where
  this : Ref
  member_ptr : Ref
  orb_distance : Double
  orb_tilt : Double
  orb_eccentricity : Double

/-- A sequence of `add_member` calls run one after the other: the final heap and the
outcome of every call, in call order. -/
def run_calls (fuel : Nat) : List member_call → Heap → Option (Heap × List add_member_outcome)
  | [], heap => some (heap, [])
  | call :: rest, heap =>
    match add_member heap fuel call.this call.member_ptr call.orb_distance call.orb_tilt
        call.orb_eccentricity with
    | none => none
    | some result =>
      match run_calls fuel rest result.1 with
      | none => none
      | some final => some (final.1, result.2 :: final.2)

/-- The members the specification expects of the object at `x` after a sequence of
calls: one for every call on `x` that succeeded, in call order. -/
def expected_members (x : Ref) (calls : List member_call)
    (outcomes : List add_member_outcome) : List (Option Ref) :=
  ((calls.zip outcomes).filter
    (fun co => decide (co.1.this = x) && decide (co.2 = add_member_outcome.Added))).map
    (fun co => some co.1.member_ptr)

/-- The two `find_if` calls of the relationship parser (509-512): the first object of
the sequence whose name is `name`, `none` for `catalogue_objects.end()`. -/
def find_named (heap : Heap) (cat : catalogue) (name : String) : Option Ref :=
  cat.catalogue_objects.find? (fun ptr => (heap ptr).name == name)

/-- The body of the relationship-parser loop for one line (477-522). The conversions
are not inside a `try` block, so every exception of `stod` leaves the function. -/
def import_relationship_line (stod : String → conversion Double) (fuel : Nat)
    (cat : catalogue) (heap : Heap) (line : String) : Except thrown Heap :=
  match tokenise line with
  | none => Except.error thrown.loop_fuel
  | some parameter_storage =>
    match storage_at parameter_storage 0 with
    | Except.error e => Except.error e
    | Except.ok parent_name =>
      match storage_at parameter_storage 1 with
      | Except.error e => Except.error e
      | Except.ok child_name =>
        match convert_at stod parameter_storage 2 with
        | Except.error e => Except.error e
        | Except.ok orbital_distance =>
          match convert_at stod parameter_storage 3 with
          | Except.error e => Except.error e
          | Except.ok orbital_tilt =>
            match convert_at stod parameter_storage 4 with
            | Except.error e => Except.error e
            | Except.ok orbital_eccentricity =>
              match find_named heap cat parent_name with
              | none => Except.ok heap
              | some parent_ptr =>
                match find_named heap cat child_name with
                | none => Except.ok heap
                | some child_ptr =>
                  match add_member heap fuel parent_ptr child_ptr orbital_distance
                      orbital_tilt orbital_eccentricity with
                  | none => Except.error thrown.loop_fuel
                  | some result => Except.ok result.1

/-- The relationship-parser loop of `import_from_file` (473-524) over the lines
`getline` delivers before the end of the file is seen. The catalogue is only read. -/
def import_relationships (stod : String → conversion Double) (fuel : Nat)
    (cat : catalogue) : List String → Heap → Except thrown Heap
  | [], heap => Except.ok heap
  | line :: rest, heap =>
    match import_relationship_line stod fuel cat heap line with
    | Except.error e => Except.error e
    | Except.ok heap' => import_relationships stod fuel cat rest heap'

/-- The catalogue `"Test"` holding the star at 0 of `registry_memory`. -/
def registry_first : catalogue :=
  add_object registry_memory.heap (catalogue.ctor "Test") 0

/-- The heap of `registry_memory` after the relationship line `s:p:1:2:3`, which makes
the planet `p` a member of the star `s`. -/
def orbit_heap : Heap := append_member registry_memory.heap 0 3 1 2 3

/-- The catalogue `"Test"` holding the four objects of `registry_memory`. -/
def registry_catalogue : catalogue :=
  add_object registry_memory.heap (add_object registry_memory.heap
    (add_object registry_memory.heap registry_first 1) 2) 3

/-- The state after the import of the record line of a supernova into the empty
catalogue `"Test"`: the name is in the name list, no object was made. -/
def supernova_skipped : import_state :=
  (empty_memory, { catalogue.ctor "Test" with local_object_names := ["sn"] })

/-- The kinds the type dispatch of the import has a case for. -/
def importable_kinds : List celestial_types :=
  [celestial_types.Galaxy, celestial_types.Star, celestial_types.MainSequenceStar,
   celestial_types.RedGiantStar, celestial_types.Planet, celestial_types.TerrestrialPlanet,
   celestial_types.GaseousPlanet, celestial_types.DwarfPlanet, celestial_types.Moon,
   celestial_types.Comet, celestial_types.Asteroid, celestial_types.StellarRemnant,
   celestial_types.NeutronStar, celestial_types.Pulsar, celestial_types.BlackHole]

/-! ## Class heads, the one-argument `add_member`, catalogue name, Sort command -/

/-- The kind of the class a class derives from directly, read off the class heads of
celestial_objects.h (`class main_sequence_star : public star` at 492, `red_giant_star`
513, `terrestrial_planet` 561, `gaseous_planet` 580, `dwarf_planet` 599,
`stellar_remnant` 813, `supernova` 836, `neutron_star` 857, `pulsar` 878); `none` for a
class whose base is `celestial_object` and for a kind without a class. -/
def base_class (kind : celestial_types) : Option celestial_types :=
  if kind = celestial_types.MainSequenceStar then some celestial_types.Star
  else if kind = celestial_types.RedGiantStar then some celestial_types.Star
  else if kind = celestial_types.TerrestrialPlanet then some celestial_types.Planet
  else if kind = celestial_types.GaseousPlanet then some celestial_types.Planet
  else if kind = celestial_types.DwarfPlanet then some celestial_types.Planet
  else if kind = celestial_types.StellarRemnant then some celestial_types.Star
  else if kind = celestial_types.Supernova then some celestial_types.StellarRemnant
  else if kind = celestial_types.NeutronStar then some celestial_types.StellarRemnant
  else if kind = celestial_types.Pulsar then some celestial_types.NeutronStar
  else none

/-- The kinds of the classes a class inherits from, nearest first, following
`base_class` for at most `depth` steps. -/
def base_classes : Nat → celestial_types → List celestial_types
  | 0, _ => []
  | depth + 1, kind =>
    match base_class kind with
    | none => []
    | some base => base :: base_classes depth base

/-- The eighteen enumerators of `celestial_types`. -/
def all_kinds : List celestial_types := (List.range 18).map (fun code => ⟨code⟩)

/-- Every pair (base, derived) of kinds such that the class of `derived` inherits,
directly or through other classes, from the class of `base`. -/
def inheritance_pairs : List (celestial_types × celestial_types) :=
  all_kinds.flatMap (fun derived => (base_classes 18 derived).map (fun base => (base, derived)))

/-- The constructor `satellite(std::shared_ptr<celestial_object> sat_object)` (709-755):
the three orbital parameters are read from `std::cin`, each in a loop that asks again
until a value in range is read. The last three arguments are the values the loops end
with. -/
def satellite.ctor_prompted (sat_object : Ref)
    (orbit_distance orbit_tilt orbit_eccentricity : Double) : satellite :=
  { orbit_distance := orbit_distance
    orbit_tilt := orbit_tilt
    orbit_eccentricity := orbit_eccentricity
    satellite_object := some sat_object }

/-- The method `celestial_object::add_member(member_ptr)` (celestial_objects.cpp, 40-59),
called on the object at `this`: the tests and the loop of the four-argument method, with
the satellite made by the prompting constructor; the last three arguments are the
values read from `std::cin`. -/
def add_member_prompted (heap : Heap) (fuel : Nat) (this member_ptr : Ref)
    (orbit_distance orbit_tilt orbit_eccentricity : Double) :
    Option (Heap × add_member_outcome) :=
  if (heap member_ptr).parent_object ≠ none then
    some (heap, add_member_outcome.AlreadyParented)
  else if (heap member_ptr).parent_object = some this then
    some (heap, add_member_outcome.SelfParentParadox)
  else
    match top_parent heap fuel (heap member_ptr).parent_object with
    | none => none
    | some current_parent =>
      if current_parent = some member_ptr then
        some (heap, add_member_outcome.CyclicParentage)
      else
        let sat := satellite.ctor_prompted member_ptr orbit_distance orbit_tilt
          orbit_eccentricity
        some (Function.update heap this
            { heap this with
              member_objects := push_back_satellite (heap this).member_objects sat
              member_number := (heap this).member_number + 1 },
          add_member_outcome.Added)

/-- The value `std::string::npos` of a 64-bit `size_t`. -/
def npos : Nat := 2 ^ 64 - 1

/-- The call `str.find_last_of(c)` for a one-character set: the position of the last
occurrence of the character, `npos` when there is none. -/
def find_last_of (str : List Char) (c : Char) : Nat :=
  let from_end := str.reverse.indexOf c
  if from_end < str.length then str.length - 1 - from_end else npos

/-- The call `str.substr(pos, count)`: the characters from `pos` on, at most `count` of
them; `pos` past the end throws `std::out_of_range` (`none`). -/
def substr (str : List Char) (pos count : Nat) : Option (List Char) :=
  if pos > str.length then none else some ((str.drop pos).take count)

/-- A `size_t` value stored in an `int` (32 bits) and passed on as a `size_t`. -/
def through_int (n : Nat) : Nat :=
  let low := n % 2 ^ 32
  if low < 2 ^ 31 then low else 2 ^ 64 - 2 ^ 32 + low

/-- The catalogue name `import_from_file` computes from the file name typed in
(celestial_objects.cpp, 238-241):
`int catalogue_name_begin{file_name.find_last_of("/") + 1};`
`catalogue_name = file_name.substr(catalogue_name_begin, (file_name.length()-4));`
with the arithmetic of `size_t`. -/
def import_catalogue_name (file_name : String) : Option String :=
  let catalogue_name_begin := through_int ((find_last_of file_name.data '/' + 1) % 2 ^ 64)
  (substr file_name.data catalogue_name_begin
    ((file_name.data.length + 2 ^ 64 - 4) % 2 ^ 64)).map String.mk

/-- The parameter the Sort command passes to `sort_catalogue` for the word typed in
(catalogue_project_main.cpp, 366-372): the position of the word in `parameters_output`,
cast to `parameters`; `none` when the command answers "Invalid parameter" and asks
again. -/
def sort_command_parameter (param_name : String) : Option parameters :=
  let position := parameters_output.indexOf param_name
  if position ≥ parameters_output.length then none else some ⟨position⟩

/-- The Sort command for the word typed in (catalogue_project_main.cpp, 357-377), on the
selected catalogue; `none` when the word is refused. -/
def sort_command (std_sort : (Ref → Ref → Bool) → List Ref → List Ref) (heap : Heap)
    (param_name : String) (cat : catalogue) : Option catalogue :=
  match sort_command_parameter param_name with
  | none => none
  | some param => some (sort_catalogue std_sort heap param cat)

/-- A planet `"far"` (distance 5, mass 2) at address 0 and a planet `"near"` (distance
1, mass 9) at every other address. -/
def scale_heap : Heap :=
  fun r =>
    if r = 0 then plain.ctor celestial_types.Planet "far" 0 5 2 0
    else plain.ctor celestial_types.Planet "near" 0 1 9 0

/-- The catalogue `"Test"` holding the objects at 0 and 1 of `scale_heap`, in that
order. -/
def scale_catalogue : catalogue :=
  add_object scale_heap (add_object scale_heap (catalogue.ctor "Test") 0) 1

end celestial_objects

/-! ## The matrix class (matrix_class.cpp)

An element is a `double` with a finite value, carried as the rational number it is. The
class calculates with its elements: a product, a sum or a difference is the exact
result rounded to the nearest `double` (53 significant bits, ties to even), each
operation on its own, as IEEE 754 arithmetic without fused operations gives it. A
result outside the range of the normal `double` values (overflow to an infinity, the
subnormal values) is outside the model and gives `none`. The value `std::nan("")` is an
argument where the code stores it. The array `matrix_data` points to is a `List`; an
access past its end is undefined and gives `none`. -/

namespace matrix_class

/-- Number of binary digits of `n`; the first argument bounds the recursion. -/
def bit_length : Nat → Nat → Nat
  | 0, _ => 0
  | fuel + 1, n => if n = 0 then 0 else bit_length fuel (n / 2) + 1

/-- The fraction `n / d` rounded to the nearest natural number, a tie to the even
one. -/
def round_half_even (n d : Nat) : Nat :=
  if 2 * (n % d) < d then n / d
  else if d < 2 * (n % d) then n / d + 1
  else if (n / d) % 2 = 0 then n / d
  else n / d + 1

/-- The fraction `a / den` divided by `2 ^ e`, as a numerator and a denominator. -/
def scaled (a den : Nat) (e : Int) : Nat × Nat :=
  if 0 ≤ e then (a, den * 2 ^ e.toNat) else (a * 2 ^ (-e).toNat, den)

/-- The `double` nearest to the fraction `num / den` (round to nearest, ties to even):
an exponent `e` is chosen with `2 ^ 52 ≤ |num / den| / 2 ^ e < 2 ^ 53`, the quotient is
rounded to a whole number `m`, and the result is `m * 2 ^ e` with the sign of `num`.
`none` when the result is not a normal `double` or zero: `e` below -1074 (subnormal
values) or a magnitude of `2 ^ 1024` or more (infinity). -/
def round_to_double (num : Int) (den : Nat) : Option Rat :=
  if num = 0 then some 0
  else
    let a := num.natAbs
    let e0 : Int := (bit_length a a : Int) - (bit_length den den : Int) - 53
    let e : Int := if (scaled a den e0).1 < 2 ^ 53 * (scaled a den e0).2 then e0 else e0 + 1
    let m := round_half_even (scaled a den e).1 (scaled a den e).2
    if e < -1074 ∨ 971 < e ∨ (e = 971 ∧ 2 ^ 53 ≤ m) then none
    else if 0 ≤ e then some (mkRat (num.sign * (m * 2 ^ e.toNat : Nat)) 1)
    else some (mkRat (num.sign * (m : Nat)) (2 ^ (-e).toNat))

/-- The product `a * b` of two `double` values. -/
def double_mul (a b : Rat) : Option Rat :=
  round_to_double (a.num * b.num) (a.den * b.den)

/-- The sum `a + b` of two `double` values. -/
def double_add (a b : Rat) : Option Rat :=
  round_to_double (a.num * b.den + b.num * a.den) (a.den * b.den)

/-- The difference `a - b` of two `double` values. -/
def double_sub (a b : Rat) : Option Rat :=
  round_to_double (a.num * b.den - b.num * a.den) (a.den * b.den)

/-- The number `x` is a whole number of magnitude at most `bound`. -/
def small_integer (bound : Nat) (x : Rat) : Prop :=
  x.den = 1 ∧ x.num.natAbs ≤ bound

instance (bound : Nat) (x : Rat) : Decidable (small_integer bound x) := by
  unfold small_integer
  exact inferInstance

/-- The class `matrix` (36-44): `rows`, `columns` and the array behind `matrix_data`. -/
structure matrix where
  rows : Int := 1
  columns : Int := 1
  matrix_data : List Rat := []
deriving DecidableEq

namespace matrix

/-- The constructor `matrix(int m, int n)` (46-58): an array of `rows * columns` zeros. -/
def ctor (m n : Int) : matrix :=
  { rows := m, columns := n, matrix_data := List.replicate (m * n).toNat 0 }

/-- The inner loop of `remove` (173-180) for the row `i`, over the columns `j` still to
do: an element outside the removed row and column is read at `j + i * columns` and
stored at `reduced_index`, which is then advanced. The second argument is what has been
stored so far, from index 0 on. -/
def remove_columns (this : matrix) (i_remove j_remove : Int) (i : Nat) :
    List Nat → List Rat → Option (List Rat)
  | [], stored => some stored
  | j :: js, stored =>
    if ¬ ((j : Int) = j_remove) ∧ ¬ ((i : Int) = i_remove) then
      match this.matrix_data[j + i * this.columns.toNat]? with
      | none => none
      | some value => remove_columns this i_remove j_remove i js (stored ++ [value])
    else remove_columns this i_remove j_remove i js stored

/-- The outer loop of `remove` (172-181) over the rows `i` still to do. -/
def remove_rows (this : matrix) (i_remove j_remove : Int) :
    List Nat → List Rat → Option (List Rat)
  | [], stored => some stored
  | i :: is, stored =>
    match remove_columns this i_remove j_remove i (List.range this.columns.toNat) stored with
    | none => none
    | some stored' => remove_rows this i_remove j_remove is stored'

/-- The method `matrix::remove(int row_remove, int column_remove)` (150-185). The first
branch returns a copy of the matrix. The two branches for a negative index change the
index and reach the end of the function without a `return`: undefined, `none`. In the
last branch the values stored by the loops fill `reduced` from index 0 on; storing more
than its array holds is undefined. -/
def remove (this : matrix) (row_remove column_remove : Int) : Option matrix :=
  let i_remove := row_remove - 1
  let j_remove := column_remove - 1
  if |i_remove| > this.rows - 1 ∨ |j_remove| > this.columns - 1 then some this
  else if i_remove < 0 then none
  else if j_remove < 0 then none
  else
    let reduced := ctor (this.rows - 1) (this.columns - 1)
    match remove_rows this i_remove j_remove (List.range this.rows.toNat) [] with
    | none => none
    | some stored =>
      if stored.length ≤ reduced.matrix_data.length then
        some { reduced with
          matrix_data := stored ++ reduced.matrix_data.drop stored.length }
      else none

/-- The method `matrix::determinant()` (187-215), with `fuel` bounding the depth of the
recursion. A matrix that is not square reaches the end of the function without a
`return`: undefined, `none`. -/
def determinant : Nat → matrix → Option Rat
  | 0, _ => none
  | fuel + 1, this =>
    if this.rows = 2 ∧ this.columns = 2 then
      match this.matrix_data[0]?, this.matrix_data[3]?, this.matrix_data[1]?,
          this.matrix_data[2]? with
      | some d0, some d3, some d1, some d2 =>
        match double_mul d0 d3, double_mul d1 d2 with
        | some main_product, some other_product => double_sub main_product other_product
        | _, _ => none
      | _, _, _, _ => none
    else if this.rows = this.columns then
      (List.range this.rows.toNat).foldlM
        (fun (determinant_sum : Rat) (j : Nat) =>
          match remove this 1 ((j : Int) + 1) with
          | none => none
          | some minor_matrix =>
            match this.matrix_data[j]?, determinant fuel minor_matrix with
            | some element, some minor_determinant =>
              match double_mul element minor_determinant with
              | none => none
              | some product =>
                if j % 2 = 0 then double_add determinant_sum product
                else double_sub determinant_sum product
            | _, _ => none)
        0
    else none

end matrix

/-- The innermost loop of `operator*` (271-278) over the indices `i` still to do, with
`j` equal to `i` throughout: `sum += a_element * b_element`. -/
def dot_loop (a b : matrix) (a_row b_column : Nat) : List Nat → Rat → Option Rat
  | [], sum => some sum
  | i :: is, sum =>
    match a.matrix_data[a_row * a.columns.toNat + i]?,
        b.matrix_data[i * b.columns.toNat + b_column]? with
    | some a_element, some b_element =>
      match double_mul a_element b_element with
      | none => none
      | some product =>
        match double_add sum product with
        | none => none
        | some sum' => dot_loop a b a_row b_column is sum'
    | _, _ => none

/-- The loop of `operator*` over the columns of `b` (268-281) for the row `a_row`: the
sum is stored at `a_row * b.columns + b_column` of the result array. -/
def mul_columns (a b : matrix) (a_row : Nat) : List Nat → List Rat → Option (List Rat)
  | [], result => some result
  | b_column :: rest, result =>
    match dot_loop a b a_row b_column (List.range b.rows.toNat) 0 with
    | none => none
    | some sum =>
      if a_row * b.columns.toNat + b_column < result.length then
        mul_columns a b a_row rest (result.set (a_row * b.columns.toNat + b_column) sum)
      else none

/-- The loop of `operator*` over the rows of `a` (267-282). -/
def mul_rows (a b : matrix) : List Nat → List Rat → Option (List Rat)
  | [], result => some result
  | a_row :: rest, result =>
    match mul_columns a b a_row (List.range b.columns.toNat) result with
    | none => none
    | some result' => mul_rows a b rest result'

/-- The function `operator*(const matrix& a, const matrix& b)` (257-291); `nan` is the
value `std::nan("")` stored in the 1 x 1 matrix of the failure branch. -/
def operator_mul (nan : Rat) (a b : matrix) : Option matrix :=
  if a.columns = b.rows then
    let result := matrix.ctor a.rows b.columns
    match mul_rows a b (List.range a.rows.toNat) result.matrix_data with
    | none => none
    | some data => some { result with matrix_data := data }
  else
    some { matrix.ctor 1 1 with matrix_data := (matrix.ctor 1 1).matrix_data.set 0 nan }

/-- The mathematical matrix with `r` rows and `c` columns whose entry (i, j) is the
element at `i * c + j` of the array. -/
def to_Matrix (m : matrix) (r c : Nat) : Matrix (Fin r) (Fin c) Rat :=
  Matrix.of (fun i j => m.matrix_data.getD (i.val * c + j.val) 0)

/-- Index `k` of what is left of a range after the index `x` is deleted. -/
def skip (x k : Nat) : Nat := if k < x then k else k + 1

/-- Matrix A of `main` (348-350). -/
def matrix_a : matrix :=
  { rows := 3, columns := 3, matrix_data := [1, 2, 3, 9, 8, 7, 4, 2, 6] }

/-- Matrix B of `main` (352-354). -/
def matrix_b : matrix :=
  { rows := 3, columns := 3, matrix_data := [5, 5, 4, 1, 2, 3, 6, 9, 8] }

/-- Matrix C of `main` (356-358). -/
def matrix_c : matrix :=
  { rows := 2, columns := 3, matrix_data := [3, 4, 1, 2, 5, 6] }

/-- A 2 x 2 matrix with `2 ^ 27 + 1` on the diagonal, whose determinant has 55 binary
digits. -/
def rounding_diagonal : matrix :=
  { rows := 2, columns := 2, matrix_data := [134217729, 0, 0, 134217729] }

/-- The 1 x 1 matrix holding `2 ^ 27 + 1`, whose square has 55 binary digits. -/
def rounding_square : matrix :=
  { rows := 1, columns := 1, matrix_data := [134217729] }

end matrix_class

namespace celestial_objects

/-! # Theorems -/

/-! ## Parenting -/

theorem top_parent_null (heap : Heap) (fuel : Nat) : top_parent heap fuel none = some none := by
  cases fuel <;> rfl

/-- The branch `add_member` takes is decided by the first test alone: the second test and
the loop test are only reached with a null `parent_object`, where both are false. -/
theorem add_member_eq (heap : Heap) (fuel : Nat) (this member_ptr : Ref) (d t e : Double) :
    add_member heap fuel this member_ptr d t e =
      if (heap member_ptr).parent_object ≠ none then
        some (heap, add_member_outcome.AlreadyParented)
      else
        some (append_member heap this member_ptr d t e, add_member_outcome.Added) := by
  unfold add_member
  by_cases h : (heap member_ptr).parent_object = none
  · simp [h, top_parent_null]
  · simp [h]

theorem append_member_parent_object (heap : Heap) (this member_ptr : Ref) (d t e : Double)
    (r : Ref) : (append_member heap this member_ptr d t e r).parent_object =
      (heap r).parent_object := by
  unfold append_member
  by_cases hr : r = this
  · subst hr; simp
  · simp [Function.update_noteq hr]

theorem append_member_this (heap : Heap) (this member_ptr : Ref) (d t e : Double) :
    append_member heap this member_ptr d t e this =
      { heap this with
        member_objects :=
          push_back_satellite (heap this).member_objects (satellite.ctor member_ptr d t e)
        member_number := (heap this).member_number + 1 } := by
  simp [append_member]

theorem append_member_other (heap : Heap) (this member_ptr : Ref) (d t e : Double)
    (r : Ref) (hr : r ≠ this) : append_member heap this member_ptr d t e r = heap r := by
  simp [append_member, Function.update_noteq hr]

/-- The method returns for every amount of loop fuel, zero included. -/
theorem add_member_total (heap : Heap) (fuel : Nat) (this member_ptr : Ref) (d t e : Double) :
    (add_member heap fuel this member_ptr d t e).isSome = true := by
  rw [add_member_eq]
  split <;> rfl

theorem add_member_parent_object (heap heap' : Heap) (fuel : Nat) (this member_ptr : Ref)
    (d t e : Double) (o : add_member_outcome)
    (hc : add_member heap fuel this member_ptr d t e = some (heap', o)) (r : Ref) :
    (heap' r).parent_object = (heap r).parent_object := by
  rw [add_member_eq] at hc
  split at hc
  · cases hc; rfl
  · cases hc
    exact append_member_parent_object heap this member_ptr d t e r

theorem reachable_parent_object (heap : Heap) (hr : add_member_reachable heap) (r : Ref) :
    (heap r).parent_object = none := by
  induction hr with
  | fresh heap h => exact (h r).1
  | call heap heap' fuel this member_ptr d t e o _ hc ih =>
    rw [add_member_parent_object heap heap' fuel this member_ptr d t e o hc r]
    exact ih

theorem copy_ctor_idem (sat : satellite) :
    satellite.copy_ctor (satellite.copy_ctor sat) = satellite.copy_ctor sat := rfl

/-- C1, evaluated on the code: on fresh objects 0, 1, 2, after `0.add_member(1)` the
call `1.add_member(0)` is not rejected: it reaches the appending branch and object 1
holds a satellite of object 0; and after `0.add_member(1)`, `1.add_member(2)` the call
`2.add_member(0)` is not rejected either. -/
theorem add_member_accepts_cycle :
    ((add_member fresh_heap 0 0 1 1 0 1).bind fun r1 =>
      (add_member r1.1 0 1 0 1 0 1).map fun r2 =>
        (r1.2, r2.2, (r2.1 1).member_objects.map satellite.get_object,
          (r2.1 1).member_number)) =
      some (add_member_outcome.Added, add_member_outcome.Added, [some 0], 1) ∧
    ((add_member fresh_heap 0 0 1 1 0 1).bind fun r1 =>
      (add_member r1.1 0 1 2 1 0 1).bind fun r2 =>
        (add_member r2.1 0 2 0 1 0 1).map fun r3 =>
          (r1.2, r2.2, r3.2, (r3.1 2).member_objects.map satellite.get_object,
            (r3.1 2).member_number)) =
      some (add_member_outcome.Added, add_member_outcome.Added, add_member_outcome.Added,
        [some 0], 1) := by
  constructor <;> rfl

/-- C2, evaluated on the code: on fresh objects 0, 1, 2, the call `0.add_member(1)`
made twice reaches the appending branch both times, leaving two satellites of object 1
in object 0; and `2.add_member(1)` after `0.add_member(1)` is accepted too, so object 1
is the target of a satellite of object 0 and of one of object 2. -/
theorem add_member_accepts_second_parent :
    ((add_member fresh_heap 0 0 1 1 0 1).bind fun r1 =>
      (add_member r1.1 0 0 1 1 0 1).map fun r2 =>
        (r1.2, r2.2, (r2.1 0).member_objects.map satellite.get_object,
          (r2.1 0).member_number)) =
      some (add_member_outcome.Added, add_member_outcome.Added, [some 1, some 1], 2) ∧
    ((add_member fresh_heap 0 0 1 1 0 1).bind fun r1 =>
      (add_member r1.1 0 2 1 1 0 1).map fun r2 =>
        (r1.2, r2.2, (r2.1 0).member_objects.map satellite.get_object,
          (r2.1 2).member_objects.map satellite.get_object)) =
      some (add_member_outcome.Added, add_member_outcome.Added, [some 1], [some 1]) := by
  constructor <;> decide

/-- C3, evaluated on the code: on a fresh object 0 the call `0.add_member(0)` reaches the
appending branch: the member list of object 0 grows from empty to one satellite whose
object is object 0 itself, and the member count from 0 to 1. -/
theorem add_member_accepts_self :
    (add_member fresh_heap 0 0 0 1 0 1).map
        (fun r => (r.2, (r.1 0).member_objects.map satellite.get_object,
          (r.1 0).member_number)) =
      some (add_member_outcome.Added, [some 0], 1) := by
  decide

/-- C4, evaluated on the code: a state reachable from fresh objects by `add_member`
calls in which object 0 is a child of itself, so the child relation has a cycle. -/
theorem reachable_child_cycle :
    ∃ heap, add_member_reachable heap ∧ child_edge heap 0 0 := by
  refine ⟨append_member fresh_heap 0 0 1 0 1, ?_, ?_⟩
  · refine add_member_reachable.call fresh_heap _ 0 0 0 1 0 1 add_member_outcome.Added
      (add_member_reachable.fresh _ (fun _ => ⟨rfl, rfl, rfl⟩)) ?_
    rw [add_member_eq]
    rfl
  · exact ⟨satellite.copy_ctor (satellite.ctor 0 1 0 1),
      by simp [append_member, push_back_satellite, fresh_heap], rfl⟩

/-- C5, on the code: for every object P and every unparented object C the call
`P.add_member(C, d, t, e)` reaches the appending branch and P's member list grows by
one, but C's parent reference is still null afterwards: it is not set to P. -/
theorem add_member_leaves_child_unparented (heap : Heap) (fuel : Nat) (P C : Ref)
    (d t e : Double) (hC : (heap C).parent_object = none) :
    ∃ heap', add_member heap fuel P C d t e = some (heap', add_member_outcome.Added) ∧
      (heap' P).member_objects.length = (heap P).member_objects.length + 1 ∧
      (heap' C).parent_object = none ∧ (heap' C).parent_object ≠ some P := by
  have hp : (append_member heap P C d t e C).parent_object = none := by
    rw [append_member_parent_object, hC]
  refine ⟨append_member heap P C d t e, ?_, ?_, hp, ?_⟩
  · rw [add_member_eq, if_neg (by simp [hC])]
  · simp [append_member_this, push_back_satellite]
  · simp [hp]

theorem add_member_leaves_child_unparented_witness :
    (fresh_heap 1).parent_object = none ∧
    ∃ heap', add_member fresh_heap 0 0 1 1 0 1 = some (heap', add_member_outcome.Added) ∧
      (heap' 0).member_objects.length = (fresh_heap 0).member_objects.length + 1 ∧
      (heap' 1).parent_object = none ∧ (heap' 1).parent_object ≠ some 0 :=
  ⟨rfl, add_member_leaves_child_unparented fresh_heap 0 0 1 1 0 1 rfl⟩

/-- C6, on the code: for every object P, every unparented object C and all d, t, e,
after `P.add_member(C, d, t, e)` the last satellite of P's member list and of
`P.get_all_members()` references C and has orbit_distance d and orbit_tilt t, but its
orbit_eccentricity is t, not e. -/
theorem add_member_last_satellite (heap : Heap) (fuel : Nat) (P C : Ref)
    (d t e : Double) (hC : (heap C).parent_object = none) :
    ∃ heap', add_member heap fuel P C d t e = some (heap', add_member_outcome.Added) ∧
      (heap' P).member_objects.getLast? =
        some { orbit_distance := d, orbit_tilt := t, orbit_eccentricity := t,
               satellite_object := some C } ∧
      (get_all_members heap' P).getLast? =
        some { orbit_distance := d, orbit_tilt := t, orbit_eccentricity := t,
               satellite_object := some C } := by
  refine ⟨append_member heap P C d t e, ?_, ?_, ?_⟩
  · rw [add_member_eq, if_neg (by simp [hC])]
  · simp [append_member_this, push_back_satellite, satellite.copy_ctor, satellite.ctor]
  · simp [get_all_members, append_member_this, push_back_satellite, satellite.copy_ctor,
      satellite.ctor]

theorem add_member_last_satellite_witness :
    (fresh_heap 1).parent_object = none ∧
    ∃ heap', add_member fresh_heap 0 0 1 1 2 3 = some (heap', add_member_outcome.Added) ∧
      (heap' 0).member_objects.getLast? =
        some { orbit_distance := 1, orbit_tilt := 2, orbit_eccentricity := 2,
               satellite_object := some 1 } ∧
      (get_all_members heap' 0).getLast? =
        some { orbit_distance := 1, orbit_tilt := 2, orbit_eccentricity := 2,
               satellite_object := some 1 } :=
  ⟨rfl, add_member_last_satellite fresh_heap 0 0 1 1 2 3 rfl⟩

/-- C7: whenever `P.add_member(C, d, t, e)` returns without reaching the appending
branch (it reported AlreadyParented, SelfParentParadox or CyclicParentage), the heap is
the one before the call; in particular P's member list and member count and C's parent
reference and member list are what they were. -/
theorem add_member_failure_atomic (heap heap' : Heap) (fuel : Nat) (P C : Ref)
    (d t e : Double) (o : add_member_outcome)
    (hc : add_member heap fuel P C d t e = some (heap', o))
    (ho : o ≠ add_member_outcome.Added) :
    heap' = heap ∧
      (heap' P).member_objects = (heap P).member_objects ∧
      (heap' P).member_number = (heap P).member_number ∧
      (heap' C).parent_object = (heap C).parent_object ∧
      (heap' C).member_objects = (heap C).member_objects := by
  have h : heap' = heap := by
    rw [add_member_eq] at hc
    split at hc
    · cases hc; rfl
    · cases hc; exact absurd rfl ho
  subst h
  exact ⟨rfl, rfl, rfl, rfl, rfl⟩

theorem add_member_failure_atomic_witness :
    add_member parented_heap 0 0 1 1 0 1 =
        some (parented_heap, add_member_outcome.AlreadyParented) ∧
    add_member_outcome.AlreadyParented ≠ add_member_outcome.Added ∧
    (parented_heap = parented_heap ∧
      (parented_heap 0).member_objects = (parented_heap 0).member_objects ∧
      (parented_heap 0).member_number = (parented_heap 0).member_number ∧
      (parented_heap 1).parent_object = (parented_heap 1).parent_object ∧
      (parented_heap 1).member_objects = (parented_heap 1).member_objects) :=
  ⟨rfl, by decide,
    add_member_failure_atomic parented_heap parented_heap 0 0 1 1 0 1
      add_member_outcome.AlreadyParented rfl (by decide)⟩



/-! ## The catalogue -/

theorem construct_object_name (stod : String → conversion Double)
    (stoi : String → conversion Int) (object_type : celestial_types) (object_name : String)
    (parameter_storage : List String) (object : celestial_object)
    (h : construct_object stod stoi object_type object_name parameter_storage =
      Except.ok object) : object.name = object_name := by
  unfold construct_object at h
  simp only [bind, Except.bind, pure, Except.pure, throw, throwThe, MonadExceptOf.throw] at h
  repeat' split at h
  all_goals first
    | (cases h; rfl)
    | cases h

theorem find_colon_lt (line : List Char) (break_point : Nat)
    (h : find_colon line = some break_point) : break_point < line.length := by
  unfold find_colon at h
  split at h
  · cases h; assumption
  · cases h

/-- The tokeniser loop ends within one iteration per character and one more. -/
theorem tokenise_loop_total : ∀ (fuel : Nat) (line : List Char) (parameter_storage : List String),
    line.length < fuel → (tokenise_loop fuel line parameter_storage).isSome = true := by
  intro fuel
  induction fuel with
  | zero => intro line _ h; exact absurd h (Nat.not_lt_zero _)
  | succ fuel ih =>
    intro line parameter_storage h
    unfold tokenise_loop
    split
    · rfl
    · rename_i break_point hfind
      apply ih
      have hlt := find_colon_lt line break_point hfind
      simp only [List.length_drop]
      omega

theorem tokenise_total (line : String) : (tokenise line).isSome = true :=
  tokenise_loop_total _ _ _ (Nat.lt_succ_self _)

theorem storage_at_ok (parameter_storage : List String) (k : Nat) (token : String)
    (h : storage_at parameter_storage k = Except.ok token) :
    parameter_storage[k]? = some token := by
  unfold storage_at at h
  split at h
  · cases h; assumption
  · cases h

/-- What a line does when the import goes on after it: its name field is appended to
the name list, and either nothing else changes or one new object of that name is
allocated and appended to the object sequence. -/
theorem import_line_ok (stod : String → conversion Double) (stoi : String → conversion Int)
    (st st' : import_state) (line : String)
    (h : import_line stod stoi st line = Except.ok st') :
    ∃ n, record_name line = some n ∧
      st'.2.local_object_names = st.2.local_object_names ++ [n] ∧
      st'.2.catalogue_name = st.2.catalogue_name ∧
      ((st'.1 = st.1 ∧ st'.2.catalogue_objects = st.2.catalogue_objects ∧
          st'.2.object_amount = st.2.object_amount) ∨
       (∃ o : celestial_object, o.name = n ∧ st'.1 = (make_shared st.1 o).1 ∧
          st'.2.catalogue_objects = st.2.catalogue_objects ++ [st.1.next] ∧
          st'.2.object_amount = st.2.object_amount + 1)) := by
  unfold import_line at h
  split at h
  · cases h
  · rename_i parameter_storage htok
    split at h
    · cases h
    · split at h
      · cases h
      · rename_i object_name hname
        have hrec : record_name line = some object_name := by
          simp [record_name, htok, storage_at_ok _ _ _ hname]
        refine ⟨object_name, hrec, ?_⟩
        dsimp only at h
        split at h
        · rename_i object hobj
          cases h
          refine ⟨rfl, rfl, Or.inr ⟨object, ?_, rfl, rfl, rfl⟩⟩
          exact construct_object_name _ _ _ _ _ _ hobj
        · cases h
          exact ⟨rfl, rfl, Or.inl ⟨rfl, rfl, rfl⟩⟩
        · cases h
          exact ⟨rfl, rfl, Or.inl ⟨rfl, rfl, rfl⟩⟩
        · cases h

theorem refresh_names_aux (heap : Heap) (objects : List Ref) :
    ∀ (pre mid post : List String), mid.length = objects.length →
      (objects.enumFrom pre.length).foldl (fun ns ir => ns.set ir.1 (heap ir.2).name)
          (pre ++ mid ++ post) =
        pre ++ objects.map (fun r => (heap r).name) ++ post := by
  induction objects with
  | nil =>
    intro pre mid post hlen
    have : mid = [] := List.length_eq_zero.mp hlen
    simp [this]
  | cons r rs ih =>
    intro pre mid post hlen
    cases mid with
    | nil => simp at hlen
    | cons x mid' =>
      have hset : (pre ++ x :: mid' ++ post).set pre.length (heap r).name =
          (pre ++ [(heap r).name]) ++ mid' ++ post := by
        simp [List.set_append]
      have hl : (pre ++ [(heap r).name]).length = pre.length + 1 := by simp
      simp only [List.enumFrom_cons, List.foldl_cons, hset]
      rw [← hl, ih (pre ++ [(heap r).name]) mid' post (by simpa using hlen)]
      simp

/-- With a name list at least as long as the object sequence, the name loop of
`sort_catalogue` writes the names of the objects over the first entries and leaves the
entries after them. -/
theorem refresh_names_eq (heap : Heap) (objects : List Ref) (names : List String)
    (hlen : objects.length ≤ names.length) :
    refresh_names heap objects names =
      objects.map (fun r => (heap r).name) ++ names.drop objects.length := by
  have h := refresh_names_aux heap objects [] (names.take objects.length)
    (names.drop objects.length) (by simp [hlen])
  simpa [refresh_names, List.enum] using h

/-- The method either leaves the catalogue as it is (a parameter without a case) or
replaces the object sequence by the result of `std::sort` and runs the name loop. -/
theorem sort_catalogue_cases (std_sort : (Ref → Ref → Bool) → List Ref → List Ref)
    (heap : Heap) (parameter : parameters) (cat : catalogue) :
    sort_catalogue std_sort heap parameter cat = cat ∨
    ∃ comp, sort_catalogue std_sort heap parameter cat =
      { cat with
        catalogue_objects := std_sort comp cat.catalogue_objects
        local_object_names :=
          refresh_names heap (std_sort comp cat.catalogue_objects) cat.local_object_names } := by
  unfold sort_catalogue
  split_ifs
  · exact Or.inr ⟨_, rfl⟩
  · exact Or.inr ⟨_, rfl⟩
  · exact Or.inr ⟨_, rfl⟩
  · exact Or.inr ⟨_, rfl⟩
  · exact Or.inr ⟨_, rfl⟩
  · exact Or.inr ⟨_, rfl⟩
  · exact Or.inl rfl

theorem name_taken_false (cat : catalogue) (name : String)
    (h : name_taken cat name = false) : name ∉ cat.local_object_names := by
  intro hmem
  have h1 : cat.local_object_names.indexOf name < cat.local_object_names.length :=
    List.indexOf_lt_length.mpr hmem
  have h2 : cat.local_object_names.length > 0 := List.length_pos_of_mem hmem
  simp [name_taken, h1, h2] at h

theorem names_invariant_memory (mem mem' : Memory) (cat : catalogue)
    (hinv : names_invariant mem cat) (hnext : mem.next ≤ mem'.next)
    (hname : ∀ r, r < mem.next → (mem'.heap r).name = (mem.heap r).name) :
    names_invariant mem' cat := by
  obtain ⟨ha, hb, hc, hd⟩ := hinv
  have hmap : object_names mem'.heap cat = object_names mem.heap cat := by
    unfold object_names
    exact List.map_congr_left (fun r hr => hname r (ha r hr))
  refine ⟨fun r hr => lt_of_lt_of_le (ha r hr) hnext, ?_, ?_, hd⟩
  · rw [hmap]; exact hb
  · intro r hr
    rw [hname r (ha r hr)]
    exact hc r hr

theorem names_invariant_add_object (mem : Memory) (cat : catalogue) (object : Ref)
    (hinv : names_invariant mem cat) (hobj : object < mem.next)
    (hfree : (mem.heap object).name ∉ cat.local_object_names) :
    names_invariant mem (add_object mem.heap cat object) := by
  obtain ⟨ha, hb, hc, hd⟩ := hinv
  refine ⟨?_, ?_, ?_, ?_⟩
  · intro r hr
    simp only [add_object, List.mem_append, List.mem_singleton] at hr
    rcases hr with hr | hr
    · exact ha r hr
    · rw [hr]; exact hobj
  · have hnot : (mem.heap object).name ∉ object_names mem.heap cat := by
      intro hmem
      simp only [object_names, List.mem_map] at hmem
      obtain ⟨r, hr, hrn⟩ := hmem
      exact hfree (hrn ▸ hc r hr)
    simp only [object_names, add_object, List.map_append, List.map_cons, List.map_nil]
    rw [List.nodup_append]
    refine ⟨hb, List.nodup_singleton _, ?_⟩
    intro a ha1 ha2
    simp only [List.mem_singleton] at ha2
    exact hnot (ha2 ▸ ha1)
  · intro r hr
    simp only [add_object, List.mem_append, List.mem_singleton] at hr ⊢
    rcases hr with hr | hr
    · exact Or.inl (hc r hr)
    · exact Or.inr (by rw [hr])
  · simp only [add_object, List.length_append, List.length_singleton]
    omega

theorem names_invariant_sort (std_sort : (Ref → Ref → Bool) → List Ref → List Ref)
    (hsort : ∀ comp l, (std_sort comp l).Perm l) (mem : Memory) (cat : catalogue)
    (parameter : parameters) (hinv : names_invariant mem cat) :
    names_invariant mem (sort_catalogue std_sort mem.heap parameter cat) := by
  rcases sort_catalogue_cases std_sort mem.heap parameter cat with h | ⟨comp, h⟩
  · rw [h]; exact hinv
  · rw [h]
    obtain ⟨ha, hb, hc, hd⟩ := hinv
    have hp := hsort comp cat.catalogue_objects
    have hlen : (std_sort comp cat.catalogue_objects).length ≤ cat.local_object_names.length := by
      rw [hp.length_eq]; exact hd
    refine ⟨?_, ?_, ?_, ?_⟩
    · intro r hr
      exact ha r (hp.mem_iff.mp hr)
    · exact ((hp.map (fun r => (mem.heap r).name)).nodup_iff).mpr hb
    · intro r hr
      simp only [refresh_names_eq mem.heap _ _ hlen, List.mem_append, List.mem_map]
      exact Or.inl ⟨r, hr, rfl⟩
    · simp only [refresh_names_eq mem.heap _ _ hlen, List.length_append, List.length_map,
        List.length_drop]
      omega

theorem guarded_reachable_invariant
    (std_sort : (Ref → Ref → Bool) → List Ref → List Ref)
    (hsort : ∀ comp l, (std_sort comp l).Perm l) (mem : Memory) (cat : catalogue)
    (h : guarded_reachable std_sort mem cat) : names_invariant mem cat := by
  induction h with
  | empty mem name =>
    exact ⟨by simp [catalogue.ctor], by simp [object_names, catalogue.ctor],
      by simp [catalogue.ctor], by simp [catalogue.ctor]⟩
  | memory mem mem' cat _ hnext hname ih =>
    exact names_invariant_memory mem mem' cat ih hnext hname
  | add_object mem cat object _ hobj hfree ih =>
    exact names_invariant_add_object mem cat object ih hobj (name_taken_false cat _ hfree)
  | sort mem cat parameter _ ih =>
    exact names_invariant_sort std_sort hsort mem cat parameter ih

theorem insertion_sort_perm (comp : Ref → Ref → Bool) (l : List Ref) :
    (insertion_sort comp l).Perm l :=
  List.perm_insertionSort _ l

/-- In every reachable catalogue state the name list is at least as long as the object
sequence, so the name loop of `sort_catalogue` stays inside `local_object_names`, and
`object_amount` is the length of the object sequence. -/
theorem names_cover_objects (stod : String → conversion Double)
    (stoi : String → conversion Int)
    (std_sort : (Ref → Ref → Bool) → List Ref → List Ref)
    (hsort : ∀ comp l, (std_sort comp l).Perm l) (mem : Memory) (cat : catalogue)
    (h : catalogue_reachable stod stoi std_sort mem cat) :
    cat.catalogue_objects.length ≤ cat.local_object_names.length ∧
      cat.object_amount = cat.catalogue_objects.length := by
  induction h with
  | empty mem name => simp [catalogue.ctor]
  | memory mem mem' cat _ _ _ ih => exact ih
  | add_object mem cat object _ _ ih =>
    simp only [add_object, List.length_append, List.length_singleton]
    refine ⟨by omega, ?_⟩
    rw [ih.2]; push_cast; rfl
  | sort mem cat parameter _ ih =>
    rcases sort_catalogue_cases std_sort mem.heap parameter cat with h | ⟨comp, h⟩
    · rw [h]; exact ih
    · rw [h]
      have hp := hsort comp cat.catalogue_objects
      have hlen : (std_sort comp cat.catalogue_objects).length ≤
          cat.local_object_names.length := by
        rw [hp.length_eq]; exact ih.1
      simp only [refresh_names_eq mem.heap _ _ hlen, List.length_append, List.length_map,
        List.length_drop]
      refine ⟨by omega, ?_⟩
      rw [ih.2, hp.length_eq]
  | import_file mem mem' cat cat' lines _ hi ih =>
    have key : ∀ (ls : List String) (st st' : import_state),
        (st.2.catalogue_objects.length ≤ st.2.local_object_names.length ∧
          st.2.object_amount = st.2.catalogue_objects.length) →
        import_objects stod stoi ls st = Except.ok st' →
        (st'.2.catalogue_objects.length ≤ st'.2.local_object_names.length ∧
          st'.2.object_amount = st'.2.catalogue_objects.length) := by
      intro ls
      induction ls with
      | nil =>
        intro st st' hst h
        simp only [import_objects] at h
        cases h
        exact hst
      | cons line rest ihl =>
        intro st st' hst h
        simp only [import_objects] at h
        split at h
        · cases h
        · rename_i mid hmid
          obtain ⟨n, -, hnames, -, hcase⟩ := import_line_ok stod stoi st mid line hmid
          refine ihl mid st' ?_ h
          rcases hcase with ⟨-, hobjs, hamt⟩ | ⟨o, -, -, hobjs, hamt⟩
          · rw [hobjs, hnames, hamt, List.length_append]
            exact ⟨by omega, hst.2⟩
          · rw [hobjs, hnames, hamt, List.length_append, List.length_append, hst.2]
            simp only [List.length_singleton]
            refine ⟨by omega, ?_⟩
            push_cast; rfl
    exact key lines (mem, cat) (mem', cat') ih hi

/-- C8, counterexample: the catalogue `single_catalogue` holds an object named `"a"`;
`add_object` of a second object named `"a"` does not fail and changes the catalogue:
two objects, two names, object count 2. -/
theorem add_object_duplicate_name :
    (twin_memory.heap 1).name ∈ object_names twin_memory.heap single_catalogue ∧
    single_catalogue.catalogue_objects = [0] ∧
    single_catalogue.object_amount = 1 ∧
    (add_object twin_memory.heap single_catalogue 1).catalogue_objects = [0, 1] ∧
    (add_object twin_memory.heap single_catalogue 1).local_object_names = ["a", "a"] ∧
    (add_object twin_memory.heap single_catalogue 1).object_amount = 2 := by
  decide

/-- C8, amended: for every catalogue and every object, also one whose name is the name
of an object already in the catalogue, `add_object` makes no test and does not fail: it
appends the object to the object sequence and its name to the name list, and raises the
object count by one. The test for a taken name is the one the Create command makes
before the call: it refuses exactly the names in the name list. -/
theorem add_object_appends (heap : Heap) (cat : catalogue) (object : Ref) :
    (add_object heap cat object).catalogue_objects = cat.catalogue_objects ++ [object] ∧
    (add_object heap cat object).local_object_names =
      cat.local_object_names ++ [(heap object).name] ∧
    (add_object heap cat object).object_amount = cat.object_amount + 1 ∧
    (add_object heap cat object).catalogue_name = cat.catalogue_name ∧
    (∀ name, name_taken cat name = true ↔ name ∈ cat.local_object_names) := by
  refine ⟨rfl, rfl, rfl, rfl, ?_⟩
  intro name
  constructor
  · intro h
    by_contra hn
    have hlt : ¬ List.indexOf name cat.local_object_names < cat.local_object_names.length :=
      fun hlt => hn (List.indexOf_lt_length.mp hlt)
    simp [name_taken, hlt] at h
  · intro h
    have h1 : cat.local_object_names.indexOf name < cat.local_object_names.length :=
      List.indexOf_lt_length.mpr h
    have h2 : cat.local_object_names.length > 0 := List.length_pos_of_mem h
    simp [name_taken, h1, h2]

/-- C9, counterexample: the catalogue `twin_catalogue`, reached from the empty catalogue
`"Test"` by two calls of `add_object`, holds two objects named `"a"`; and so does the
catalogue reached from the empty catalogue `"Test"` by the import of an object file
whose two lines have the name `a`. -/
theorem reachable_duplicate_names :
    (catalogue_reachable stod_decimal stoi_decimal insertion_sort twin_memory twin_catalogue ∧
      object_names twin_memory.heap twin_catalogue = ["a", "a"] ∧
      ¬ (object_names twin_memory.heap twin_catalogue).Nodup) ∧
    (catalogue_reachable stod_decimal stoi_decimal insertion_sort twin_import.1
        twin_import.2 ∧
      object_names twin_import.1.heap twin_import.2 = ["a", "a"] ∧
      ¬ (object_names twin_import.1.heap twin_import.2).Nodup) := by
  refine ⟨⟨?_, by decide, by decide⟩, ⟨?_, by decide, by decide⟩⟩
  · exact catalogue_reachable.add_object _ _ 1
      (catalogue_reachable.add_object _ _ 0 (catalogue_reachable.empty _ "Test") (by decide))
      (by decide)
  · exact catalogue_reachable.import_file empty_memory _ (catalogue.ctor "Test") _
      ["Planet:a:0:0:1:2", "Moon:a:0:0:3:4"] (catalogue_reachable.empty _ "Test") rfl

/-- C9, amended: in every catalogue state reached from an empty catalogue through
`add_object` called only with a name that passes the name test of the Create command,
and `sort_catalogue`, the names of the objects of the catalogue are pairwise distinct.
`std::sort` is taken to return a permutation of its input. Nothing is said of states
reached through an import. -/
theorem guarded_names_nodup
    (std_sort : (Ref → Ref → Bool) → List Ref → List Ref)
    (hsort : ∀ comp l, (std_sort comp l).Perm l) (mem : Memory) (cat : catalogue)
    (h : guarded_reachable std_sort mem cat) :
    (object_names mem.heap cat).Nodup :=
  (guarded_reachable_invariant std_sort hsort mem cat h).2.1

theorem bravo_sorted_reachable :
    guarded_reachable insertion_sort bravo_memory
      (sort_catalogue insertion_sort bravo_memory.heap parameters.Name bravo_catalogue) := by
  refine guarded_reachable.sort _ _ _ ?_
  refine guarded_reachable.add_object _ _ 2 ?_ (by decide) (by decide)
  refine guarded_reachable.add_object _ _ 1 ?_ (by decide) (by decide)
  exact guarded_reachable.add_object _ _ 0 (guarded_reachable.empty _ "Test") (by decide)
    (by decide)

theorem guarded_names_nodup_witness :
    (∀ comp l, (insertion_sort comp l).Perm l) ∧
    guarded_reachable insertion_sort bravo_memory
      (sort_catalogue insertion_sort bravo_memory.heap parameters.Name bravo_catalogue) ∧
    (object_names bravo_memory.heap
      (sort_catalogue insertion_sort bravo_memory.heap parameters.Name
        bravo_catalogue)).Nodup :=
  ⟨insertion_sort_perm, bravo_sorted_reachable,
    guarded_names_nodup insertion_sort insertion_sort_perm _ _ bravo_sorted_reachable⟩

/-- C10, evaluated on the code: importing into the empty catalogue `"Test"` a file
whose one line has a numeric field that does not convert (`abc`), or an unknown type
token (`Foo`), leaves the name `x` in the name list with no object in the sequence; and
with a well-formed line after it the name list is `x, p` while the only object is named
`p`, so entry 0 of the name list is not the name of object 0. -/
theorem import_skipped_line_keeps_name :
    (import_objects stod_decimal stoi_decimal ["Planet:x:abc:0:0:0"]
        (empty_memory, catalogue.ctor "Test")).toOption.map
      (fun st => (st.2.local_object_names, st.2.catalogue_objects, st.2.object_amount)) =
      some (["x"], [], 0) ∧
    (import_objects stod_decimal stoi_decimal ["Foo:x:0:0:0:0"]
        (empty_memory, catalogue.ctor "Test")).toOption.map
      (fun st => (st.2.local_object_names, st.2.catalogue_objects, st.2.object_amount)) =
      some (["x"], [], 0) ∧
    (import_objects stod_decimal stoi_decimal ["Planet:x:abc:0:0:0", "Planet:p:0:0:1:2"]
        (empty_memory, catalogue.ctor "Test")).toOption.map
      (fun st => (st.2.local_object_names, object_names st.1.heap st.2,
        st.2.object_amount)) =
      some (["x", "p"], ["p"], 1) := by
  decide

/-! ## Lookup and selection -/

/-- When the name list is the list of the names of the objects, `get_object` returns an
object of the catalogue with the name asked for if there is one, and throws otherwise. -/
theorem get_object_aligned (heap : Heap) (cat : catalogue) (n : String)
    (halign : cat.local_object_names = object_names heap cat) :
    (n ∈ object_names heap cat →
      ∃ r, get_object cat n = lookup.object r ∧ r ∈ cat.catalogue_objects ∧
        (heap r).name = n) ∧
    (n ∉ object_names heap cat → get_object cat n = lookup.thrown) := by
  constructor
  · intro hmem
    have hlt : List.indexOf n cat.local_object_names < cat.local_object_names.length := by
      rw [halign]; exact List.indexOf_lt_length.mpr hmem
    have hlt' : List.indexOf n cat.local_object_names < cat.catalogue_objects.length := by
      have : cat.local_object_names.length = cat.catalogue_objects.length := by
        rw [halign]; simp [object_names]
      omega
    refine ⟨cat.catalogue_objects.get ⟨_, hlt'⟩, ?_, List.get_mem _ _ _, ?_⟩
    · simp [get_object, hlt, List.getElem?_eq_getElem hlt']
    · have h1 : (object_names heap cat).get ⟨List.indexOf n cat.local_object_names,
          by rw [← halign]; exact hlt⟩ = n := by
        simp [halign]
      simpa [object_names] using h1
  · intro hmem
    have hge : ¬ List.indexOf n cat.local_object_names < cat.local_object_names.length := by
      intro hlt
      exact hmem (halign ▸ List.indexOf_lt_length.mp hlt)
    simp [get_object, Nat.le_of_not_lt hge]

/-- C11, evaluated on the code: after the import of the lines `Planet:x:abc:0:0:0` and
`Planet:p:0:0:1:2` into an empty catalogue (a reachable state) the only object is named
`p`; `get_object("p")` finds the name at position 1 and indexes the one-element object
sequence there, and `get_object("x")`, a name no object has, returns the object `p`. -/
theorem get_object_after_skipped_line :
    object_names skipped_import.1.heap skipped_import.2 = ["p"] ∧
    skipped_import.2.local_object_names = ["x", "p"] ∧
    get_object skipped_import.2 "p" = lookup.out_of_bounds ∧
    get_object skipped_import.2 "x" = lookup.object 0 ∧
    (skipped_import.1.heap 0).name = "p" := by
  decide

/-- C12: for a catalogue holding n objects and every integer i, `get_object(i)` throws
exactly when i < 0 or i >= n, and otherwise returns the object at position i of the
sequence; the access is never out of bounds. -/
theorem get_object_int_spec (cat : catalogue) (i : Int) :
    (get_object_int cat i = lookup.thrown ↔
      (i < 0 ∨ (cat.catalogue_objects.length : Int) ≤ i)) ∧
    ((0 ≤ i ∧ i < (cat.catalogue_objects.length : Int)) ↔
      ∃ r, cat.catalogue_objects[i.toNat]? = some r ∧ get_object_int cat i = lookup.object r) ∧
    get_object_int cat i ≠ lookup.out_of_bounds := by
  by_cases h : i < 0 ∨ (cat.catalogue_objects.length : Int) ≤ i
  · have hthrown : get_object_int cat i = lookup.thrown := by
      unfold get_object_int
      rw [if_pos (by simpa [ge_iff_le] using h)]
    refine ⟨⟨fun _ => h, fun _ => hthrown⟩, ⟨?_, ?_⟩, by rw [hthrown]; decide⟩
    · intro hin; omega
    · rintro ⟨r, -, hr⟩
      rw [hthrown] at hr
      cases hr
  · have hin : 0 ≤ i ∧ i < (cat.catalogue_objects.length : Int) := by omega
    have hlt : i.toNat < cat.catalogue_objects.length := by omega
    have hval : get_object_int cat i = lookup.object (cat.catalogue_objects.get ⟨_, hlt⟩) := by
      unfold get_object_int
      rw [if_neg (by simpa [ge_iff_le] using h)]
      simp [List.getElem?_eq_getElem hlt]
    refine ⟨⟨?_, fun h' => absurd h' h⟩, ⟨fun _ => ⟨_, ?_, hval⟩, fun _ => hin⟩,
      by rw [hval]; simp⟩
    · intro hthrown
      rw [hval] at hthrown
      cases hthrown
    · simp [List.getElem?_eq_getElem hlt]

theorem select_loop_eq_filter (heap : Heap) (test : celestial_types → Bool)
    (objects : List Ref) :
    select_loop heap test objects = objects.filter (fun r => test (heap r).object_type) := by
  have key : ∀ (l acc : List Ref),
      l.foldl (fun subselection r =>
          if test (heap r).object_type then subselection ++ [r] else subselection) acc =
        acc ++ l.filter (fun r => test (heap r).object_type) := by
    intro l
    induction l with
    | nil => intro acc; simp
    | cons r rs ih =>
      intro acc
      by_cases h : test (heap r).object_type = true
      · simp [List.foldl_cons, h, ih, List.filter_cons]
      · simp [List.foldl_cons, h, ih, List.filter_cons]
  simpa [select_loop] using key objects []

/-- C13: for every catalogue and every query kind k, `subselect_catalogue(k)` is the
object sequence filtered, in order, by the TypeRegistry table of the specification. -/
theorem subselect_catalogue_eq_filter (heap : Heap) (cat : catalogue) (k : celestial_types) :
    subselect_catalogue heap cat k =
      cat.catalogue_objects.filter (fun r => registry_matches k (heap r).object_type) := by
  unfold subselect_catalogue registry_matches
  split_ifs
  · rw [select_loop_eq_filter]
    apply List.filter_congr
    intro r _
    simp [Bool.or_assoc]
  · rw [select_loop_eq_filter]
    apply List.filter_congr
    intro r _
    simp [Bool.or_assoc]
  · rw [select_loop_eq_filter]
    apply List.filter_congr
    intro r _
    simp
  · rw [select_loop_eq_filter]
    apply List.filter_congr
    intro r _
    simp [Bool.or_assoc]
  · simp
  · rw [select_loop_eq_filter]

theorem subselect_star_example :
    subselect_catalogue registry_memory.heap
      (add_object registry_memory.heap (add_object registry_memory.heap
        (add_object registry_memory.heap (add_object registry_memory.heap
          (catalogue.ctor "Test") 0) 1) 2) 3) celestial_types.Star = [0, 1, 2] := by
  decide

/-! ## Sorting -/

/-- A comparison that agrees on the elements of a list with the order of keys in a
linear order is a strict weak ordering of them. -/
theorem key_comp_strict_weak {K : Type} [LinearOrder K] (key : Ref → K) (l : List Ref)
    (comp : Ref → Ref → Bool)
    (h : ∀ a ∈ l, ∀ b ∈ l, comp a b = decide (key a < key b)) :
    strict_weak_ordering l comp := by
  refine ⟨?_, ?_, ?_⟩
  · intro a ha
    rw [h a ha a ha]
    simp
  · intro a ha b hb c hc hab hbc
    rw [h a ha b hb] at hab
    rw [h b hb c hc] at hbc
    rw [h a ha c hc]
    simp only [decide_eq_true_eq] at hab hbc ⊢
    exact lt_trans hab hbc
  · intro a ha b hb c hc hab hba hbc hcb
    rw [h a ha b hb] at hab
    rw [h b hb a ha] at hba
    rw [h b hb c hc] at hbc
    rw [h c hc b hb] at hcb
    rw [h a ha c hc, h c hc a ha]
    simp only [decide_eq_false_iff_not, not_lt] at hab hba hbc hcb ⊢
    exact ⟨le_trans hbc hab, le_trans hba hcb⟩

theorem strict_weak_ordering_subset (l l' : List Ref) (comp : Ref → Ref → Bool)
    (hsub : ∀ x ∈ l', x ∈ l) (h : strict_weak_ordering l comp) :
    strict_weak_ordering l' comp :=
  ⟨fun a ha => h.1 a (hsub a ha),
    fun a ha b hb c hc => h.2.1 a (hsub a ha) b (hsub b hb) c (hsub c hc),
    fun a ha b hb c hc => h.2.2 a (hsub a ha) b (hsub b hb) c (hsub c hc)⟩

theorem strict_weak_ordering_asymm (l : List Ref) (comp : Ref → Ref → Bool)
    (h : strict_weak_ordering l comp) (a b : Ref) (ha : a ∈ l) (hb : b ∈ l)
    (hab : comp a b = true) : comp b a = false := by
  by_contra hba
  have hba' : comp b a = true := by simpa using hba
  have := h.2.1 a ha b hb a ha hab hba'
  rw [h.1 a ha] at this
  cases this

theorem strict_weak_ordering_le_trans (l : List Ref) (comp : Ref → Ref → Bool)
    (h : strict_weak_ordering l comp) (a b c : Ref) (ha : a ∈ l) (hb : b ∈ l) (hc : c ∈ l)
    (hba : comp b a = false) (hcb : comp c b = false) : comp c a = false := by
  by_contra hca
  have hca' : comp c a = true := by simpa using hca
  have hab : comp a b = false := by
    by_contra hab
    have hab' : comp a b = true := by simpa using hab
    have := h.2.1 c hc a ha b hb hca' hab'
    rw [hcb] at this
    cases this
  have hbc : comp b c = false := by
    by_contra hbc
    have hbc' : comp b c = true := by simpa using hbc
    have := h.2.1 b hb c hc a ha hbc' hca'
    rw [hba] at this
    cases this
  have := (h.2.2 a ha b hb c hc hab hba hbc hcb).2
  rw [hca'] at this
  cases this

theorem ordered_insert_sorted (comp : Ref → Ref → Bool) (a : Ref) :
    ∀ (l : List Ref), strict_weak_ordering (a :: l) comp →
      l.Pairwise (fun x y => comp y x = false) →
      (l.orderedInsert (fun x y => comp y x = false) a).Pairwise
        (fun x y => comp y x = false) := by
  intro l
  induction l with
  | nil => intro _ _; simp
  | cons b l ih =>
    intro hswo hsorted
    have ha : a ∈ a :: b :: l := List.mem_cons_self _ _
    have hb : b ∈ a :: b :: l := List.mem_cons_of_mem _ (List.mem_cons_self _ _)
    have hl : ∀ x ∈ l, x ∈ a :: b :: l :=
      fun x hx => List.mem_cons_of_mem _ (List.mem_cons_of_mem _ hx)
    obtain ⟨hbl, hsl⟩ := List.pairwise_cons.mp hsorted
    rw [List.orderedInsert]
    split
    · rename_i hab
      refine List.pairwise_cons.mpr ⟨?_, hsorted⟩
      intro x hx
      rcases List.mem_cons.mp hx with hx | hx
      · rw [hx]; exact hab
      · exact strict_weak_ordering_le_trans _ comp hswo a b x ha hb (hl x hx) hab (hbl x hx)
    · rename_i hab
      have hba : comp b a = true := by simpa using hab
      have hswo' : strict_weak_ordering (a :: l) comp :=
        strict_weak_ordering_subset _ _ comp (fun x hx => by
          rcases List.mem_cons.mp hx with h | h
          · rw [h]; exact ha
          · exact hl x h) hswo
      refine List.pairwise_cons.mpr ⟨?_, ih hswo' hsl⟩
      intro x hx
      rcases (List.mem_orderedInsert _).mp hx with hx | hx
      · rw [hx]
        exact strict_weak_ordering_asymm _ comp hswo b a hb ha hba
      · exact hbl x hx

theorem insertion_sort_contract : sort_contract insertion_sort := by
  intro comp l hswo
  refine ⟨insertion_sort_perm comp l, ?_⟩
  unfold insertion_sort
  induction l with
  | nil => simp
  | cons a l ih =>
    have hswo' : strict_weak_ordering l comp :=
      strict_weak_ordering_subset _ _ comp (fun x hx => List.mem_cons_of_mem _ hx) hswo
    rw [List.insertionSort]
    refine ordered_insert_sorted comp a _ ?_ (ih hswo')
    exact strict_weak_ordering_subset _ _ comp (fun x hx => by
      rcases List.mem_cons.mp hx with h | h
      · rw [h]; exact List.mem_cons_self _ _
      · exact List.mem_cons_of_mem _ ((List.perm_insertionSort _ l).subset h)) hswo

theorem sorted_by_key {K : Type} [LinearOrder K] (key : Ref → K)
    (std_sort : (Ref → Ref → Bool) → List Ref → List Ref) (hc : sort_contract std_sort)
    (l : List Ref) (comp : Ref → Ref → Bool)
    (h : ∀ a ∈ l, ∀ b ∈ l, comp a b = decide (key a < key b)) :
    (std_sort comp l).Pairwise (fun a b => a ∈ l ∧ b ∈ l ∧ key a ≤ key b) := by
  obtain ⟨hperm, hsorted⟩ := hc comp l (key_comp_strict_weak key l comp h)
  refine hsorted.imp_of_mem ?_
  intro a b ha hb hab
  have ha' := hperm.subset ha
  have hb' := hperm.subset hb
  rw [h b hb' a ha'] at hab
  exact ⟨ha', hb', by simpa using hab⟩

theorem name_sort_eq (heap : Heap) :
    (fun i j => name_sort (heap i).name (heap j).name) =
      (fun i j => decide ((heap i).name.data.map Char.toLower <
        (heap j).name.data.map Char.toLower)) := by
  funext i j
  unfold name_sort
  congr

theorem Double.lt_eq_rank (a b : Double) (ha : a ≠ Double.nan) (hb : b ≠ Double.nan) :
    decide (a < b) = decide (Double.rank a < Double.rank b) := by
  show decide (Double.lt a b = true) = decide (Double.rank a < Double.rank b)
  cases a with
  | nan => exact absurd rfl ha
  | number x =>
    cases b with
    | nan => exact absurd rfl hb
    | number y => simp [Double.lt, Double.rank]
    | infinity nb =>
      cases nb
      · simp [Double.lt, Double.rank, WithBot.coe_lt_coe, -WithBot.coe_top]
      · simp [Double.lt, Double.rank]
  | infinity na =>
    cases b with
    | nan => exact absurd rfl hb
    | number y => cases na <;> simp [Double.lt, Double.rank]
    | infinity nb => cases na <;> cases nb <;> simp [Double.lt, Double.rank]

theorem Double.le_of_rank (a b : Double) (ha : a ≠ Double.nan) (hb : b ≠ Double.nan)
    (h : Double.rank a ≤ Double.rank b) : a ≤ b := by
  show Double.le a b = true
  cases a with
  | nan => exact absurd rfl ha
  | number x =>
    cases b with
    | nan => exact absurd rfl hb
    | number y => simpa [Double.le, Double.rank] using h
    | infinity nb => cases nb <;> simp_all [Double.le, Double.rank]
  | infinity na =>
    cases b with
    | nan => exact absurd rfl hb
    | number y => cases na <;> simp_all [Double.le, Double.rank]
    | infinity nb => cases na <;> cases nb <;> simp_all [Double.le, Double.rank]

/-- A sort by a `double` field leaves the sequence in non-decreasing order of the field
when the field of no object of the sequence is NaN. -/
theorem sorted_by_double (field : Ref → Double)
    (std_sort : (Ref → Ref → Bool) → List Ref → List Ref) (hc : sort_contract std_sort)
    (l : List Ref) (hnan : ∀ r ∈ l, field r ≠ Double.nan) :
    (std_sort (fun i j => decide (field i < field j)) l).Pairwise
      (fun a b => field a ≤ field b) := by
  refine (sorted_by_key (fun r => Double.rank (field r)) std_sort hc l _ ?_).imp ?_
  · intro a ha b hb
    exact Double.lt_eq_rank _ _ (hnan a ha) (hnan b hb)
  · intro a b h
    exact Double.le_of_rank _ _ (hnan a h.1) (hnan b h.2.1) h.2.2

/-- C14, amended: for every catalogue and every supported parameter p such that the key
under p of no object of the catalogue is NaN, after `sort_catalogue(p)` the object
sequence is in non-decreasing order of the key of p, the Name key being the lower-cased
name. `std::sort` is taken by its contract. -/
theorem sort_catalogue_sorted (std_sort : (Ref → Ref → Bool) → List Ref → List Ref)
    (hc : sort_contract std_sort) (heap : Heap) (p : parameters) (cat : catalogue)
    (hp : supported_parameter p)
    (hnan : ∀ r ∈ cat.catalogue_objects, key_not_nan heap p r) :
    (sort_catalogue std_sort heap p cat).catalogue_objects.Pairwise (key_le heap p) := by
  rcases hp with h | h | h | h | h | h <;> subst h
  · have hobj : (sort_catalogue std_sort heap parameters.Name cat).catalogue_objects =
        std_sort (fun i j => decide ((heap i).name.data.map Char.toLower <
          (heap j).name.data.map Char.toLower)) cat.catalogue_objects := by
      simp [sort_catalogue, name_sort_eq]
    rw [hobj]
    refine (sorted_by_key (fun r => (heap r).name.data.map Char.toLower) std_sort hc _ _
      (fun _ _ _ _ => rfl)).imp ?_
    intro a b h
    simpa [key_le] using h.2.2
  · have hobj : (sort_catalogue std_sort heap parameters.Distance cat).catalogue_objects =
        std_sort (fun i j => decide ((heap i).distance < (heap j).distance))
          cat.catalogue_objects := by
      simp [sort_catalogue, parameters.Distance, parameters.Name]
    rw [hobj]
    refine (sorted_by_double (fun r => (heap r).distance) std_sort hc _ ?_).imp ?_
    · intro r hr
      simpa [key_not_nan] using hnan r hr
    · intro a b h
      simpa [key_le, parameters.Distance, parameters.Name] using h
  · have hobj : (sort_catalogue std_sort heap parameters.Mass cat).catalogue_objects =
        std_sort (fun i j => decide ((heap i).mass < (heap j).mass))
          cat.catalogue_objects := by
      simp [sort_catalogue, parameters.Mass, parameters.Distance, parameters.Name]
    rw [hobj]
    refine (sorted_by_double (fun r => (heap r).mass) std_sort hc _ ?_).imp ?_
    · intro r hr
      simpa [key_not_nan, parameters.Mass, parameters.Distance] using hnan r hr
    · intro a b h
      simpa [key_le, parameters.Mass, parameters.Distance, parameters.Name] using h
  · have hobj : (sort_catalogue std_sort heap parameters.Redshift cat).catalogue_objects =
        std_sort (fun i j => decide ((heap i).redshift < (heap j).redshift))
          cat.catalogue_objects := by
      simp [sort_catalogue, parameters.Redshift, parameters.Mass, parameters.Distance,
        parameters.Name]
    rw [hobj]
    refine (sorted_by_double (fun r => (heap r).redshift) std_sort hc _ ?_).imp ?_
    · intro r hr
      simpa [key_not_nan, parameters.Redshift, parameters.Mass, parameters.Distance]
        using hnan r hr
    · intro a b h
      simpa [key_le, parameters.Redshift, parameters.Mass, parameters.Distance,
        parameters.Name] using h
  · have hobj :
        (sort_catalogue std_sort heap parameters.RotationalVelocity cat).catalogue_objects =
        std_sort (fun i j =>
            decide ((heap i).rotational_velocity < (heap j).rotational_velocity))
          cat.catalogue_objects := by
      simp [sort_catalogue, parameters.RotationalVelocity, parameters.Redshift,
        parameters.Mass, parameters.Distance, parameters.Name]
    rw [hobj]
    refine (sorted_by_double (fun r => (heap r).rotational_velocity) std_sort hc _ ?_).imp ?_
    · intro r hr
      simpa [key_not_nan, parameters.RotationalVelocity, parameters.Redshift,
        parameters.Mass, parameters.Distance] using hnan r hr
    · intro a b h
      simpa [key_le, parameters.RotationalVelocity, parameters.Redshift, parameters.Mass,
        parameters.Distance, parameters.Name] using h
  · have hobj : (sort_catalogue std_sort heap parameters.MemberNumber cat).catalogue_objects =
        std_sort (fun i j => decide ((heap i).member_number < (heap j).member_number))
          cat.catalogue_objects := by
      simp [sort_catalogue, parameters.MemberNumber, parameters.RotationalVelocity,
        parameters.Redshift, parameters.Mass, parameters.Distance, parameters.Name]
    rw [hobj]
    refine (sorted_by_key (fun r => (heap r).member_number) std_sort hc _ _
      (fun _ _ _ _ => rfl)).imp ?_
    intro a b h
    simpa [key_le, parameters.MemberNumber, parameters.RotationalVelocity,
      parameters.Redshift, parameters.Mass, parameters.Distance, parameters.Name] using h.2.2

theorem sort_catalogue_sorted_witness :
    (sort_contract insertion_sort ∧ supported_parameter parameters.Distance ∧
      ∀ r ∈ scale_catalogue.catalogue_objects, key_not_nan scale_heap parameters.Distance r) ∧
    (sort_catalogue insertion_sort scale_heap parameters.Distance
      scale_catalogue).catalogue_objects = [1, 0] ∧
    (sort_catalogue insertion_sort scale_heap parameters.Distance
      scale_catalogue).catalogue_objects.Pairwise (key_le scale_heap parameters.Distance) :=
  ⟨⟨insertion_sort_contract, Or.inr (Or.inl rfl), by decide⟩, by decide,
    sort_catalogue_sorted insertion_sort insertion_sort_contract scale_heap
      parameters.Distance scale_catalogue (Or.inr (Or.inl rfl)) (by decide)⟩

/-- C14, counterexample: the import of an object file with four planets whose distance
fields are `1`, `3`, `nan` and `2` gives a catalogue whose objects have these distances;
`std::sort` of the GNU library by Distance leaves the four objects in the order they
had, in which the distance 3 stands before the distance 2 and the NaN between them. -/
theorem sort_catalogue_nan_unsorted :
    catalogue_reachable stod_decimal stoi_decimal gnu_sort nan_import.1 nan_import.2 ∧
    nan_import.2.catalogue_objects.map (fun r => (nan_import.1.heap r).distance) =
      [1, 3, Double.nan, 2] ∧
    libstdcxx.sort (fun i j => decide ((nan_import.1.heap i).distance <
        (nan_import.1.heap j).distance)) nan_import.2.catalogue_objects = some [0, 1, 2, 3] ∧
    (sort_catalogue gnu_sort nan_import.1.heap parameters.Distance
      nan_import.2).catalogue_objects = [0, 1, 2, 3] ∧
    ¬ (sort_catalogue gnu_sort nan_import.1.heap parameters.Distance
      nan_import.2).catalogue_objects.Pairwise
        (key_le nan_import.1.heap parameters.Distance) := by
  refine ⟨?_, by decide, by decide, by decide, ?_⟩
  · exact catalogue_reachable.import_file empty_memory _ (catalogue.ctor "Test") _
      ["Planet:a:0:1:0:0", "Planet:b:0:3:0:0", "Planet:c:0:nan:0:0", "Planet:d:0:2:0:0"]
      (catalogue_reachable.empty _ "Test") rfl
  · decide

/-- The example of the specification: `"Bravo"`, `"alpha"`, `"Alpha2"` added in that
order come out of a sort by Name as `"alpha"`, `"Alpha2"`, `"Bravo"`, and the name list
follows. -/
theorem sort_name_example :
    object_names bravo_memory.heap bravo_catalogue = ["Bravo", "alpha", "Alpha2"] ∧
    object_names bravo_memory.heap
      (sort_catalogue insertion_sort bravo_memory.heap parameters.Name bravo_catalogue) =
      ["alpha", "Alpha2", "Bravo"] ∧
    (sort_catalogue insertion_sort bravo_memory.heap parameters.Name
      bravo_catalogue).local_object_names = ["alpha", "Alpha2", "Bravo"] := by
  decide

theorem sort_catalogue_perm (std_sort : (Ref → Ref → Bool) → List Ref → List Ref)
    (hsort : ∀ comp l, (std_sort comp l).Perm l) (heap : Heap) (p : parameters)
    (cat : catalogue) :
    (sort_catalogue std_sort heap p cat).catalogue_objects.Perm cat.catalogue_objects := by
  rcases sort_catalogue_cases std_sort heap p cat with h | ⟨comp, h⟩
  · rw [h]
  · rw [h]
    exact hsort comp cat.catalogue_objects

/-- C15, counterexample: the seventeen objects of `letter_catalogue` all have the
distance 0 and stand in the order 0, 1, ..., 16; `std::sort` of the GNU library by
Distance leaves them in the order 8, 16, 15, ..., 9, 0, 7, 6, ..., 1, so that the object
at 0 now stands after the object at 8. -/
theorem sort_catalogue_not_stable :
    letter_catalogue.catalogue_objects =
      [0, 1, 2, 3, 4, 5, 6, 7, 8, 9, 10, 11, 12, 13, 14, 15, 16] ∧
    (∀ r ∈ letter_catalogue.catalogue_objects, (letter_heap r).distance = 0) ∧
    libstdcxx.sort (fun i j => decide ((letter_heap i).distance < (letter_heap j).distance))
        letter_catalogue.catalogue_objects =
      some [8, 16, 15, 14, 13, 12, 11, 10, 9, 0, 7, 6, 5, 4, 3, 2, 1] ∧
    (sort_catalogue gnu_sort letter_heap parameters.Distance
      letter_catalogue).catalogue_objects =
      [8, 16, 15, 14, 13, 12, 11, 10, 9, 0, 7, 6, 5, 4, 3, 2, 1] := by
  decide

/-- C15, amended: for every catalogue, every parameter p and every object a, the objects
whose key under p equals the key of a are after `sort_catalogue(p)` the same objects as
before it, each as often as before; their relative order is the one `std::sort` leaves.
`std::sort` is taken to return a permutation of its input. -/
theorem sort_catalogue_keeps_equal_keys
    (std_sort : (Ref → Ref → Bool) → List Ref → List Ref)
    (hsort : ∀ comp l, (std_sort comp l).Perm l) (heap : Heap) (p : parameters)
    (cat : catalogue) (a : Ref) :
    ((sort_catalogue std_sort heap p cat).catalogue_objects.filter (same_key heap p a)).Perm
      (cat.catalogue_objects.filter (same_key heap p a)) :=
  (sort_catalogue_perm std_sort hsort heap p cat).filter _

theorem sort_catalogue_keeps_equal_keys_witness :
    (∀ comp l, (insertion_sort comp l).Perm l) ∧
    ((sort_catalogue insertion_sort twin_memory.heap parameters.Distance
        twin_catalogue).catalogue_objects.filter
        (same_key twin_memory.heap parameters.Distance 0)).Perm
      (twin_catalogue.catalogue_objects.filter
        (same_key twin_memory.heap parameters.Distance 0)) :=
  ⟨insertion_sort_perm,
    sort_catalogue_keeps_equal_keys insertion_sort insertion_sort_perm
      twin_memory.heap parameters.Distance twin_catalogue 0⟩

/-- A parameter without a case in the `switch` leaves the catalogue as it is. -/
theorem sort_catalogue_unsupported (std_sort : (Ref → Ref → Bool) → List Ref → List Ref)
    (heap : Heap) (p : parameters) (cat : catalogue) (hp : ¬ supported_parameter p) :
    sort_catalogue std_sort heap p cat = cat := by
  unfold supported_parameter at hp
  simp only [not_or] at hp
  obtain ⟨h1, h2, h3, h4, h5, h6⟩ := hp
  simp [sort_catalogue, h1, h2, h3, h4, h5, h6]

/-- C16: for every catalogue, `sort_catalogue` called with CelestialType, HubbleType or
StellarType takes the throwing default case, whose handler only prints; the catalogue
(object sequence, name list, object count, name) is what it was. None of the three is
a supported parameter. -/
theorem sort_catalogue_special_parameter
    (std_sort : (Ref → Ref → Bool) → List Ref → List Ref) (heap : Heap) (cat : catalogue) :
    sort_catalogue std_sort heap parameters.CelestialType cat = cat ∧
    sort_catalogue std_sort heap parameters.HubbleType cat = cat ∧
    sort_catalogue std_sort heap parameters.StellarType cat = cat ∧
    ¬ supported_parameter parameters.CelestialType ∧
    ¬ supported_parameter parameters.HubbleType ∧
    ¬ supported_parameter parameters.StellarType := by
  have h1 : ¬ supported_parameter parameters.CelestialType := by
    unfold supported_parameter; decide
  have h2 : ¬ supported_parameter parameters.HubbleType := by
    unfold supported_parameter; decide
  have h3 : ¬ supported_parameter parameters.StellarType := by
    unfold supported_parameter; decide
  exact ⟨sort_catalogue_unsupported std_sort heap _ cat h1,
    sort_catalogue_unsupported std_sort heap _ cat h2,
    sort_catalogue_unsupported std_sort heap _ cat h3, h1, h2, h3⟩

/-! ## Export -/

/-- C17, evaluated on the code: a catalogue holding one supernova is exported as the
record line `Supernova:sn:0:0:1:0:G:2:VI:1:1`, and the import of that file gives a
catalogue without any object (the type dispatch of the import has no case for
Supernova); and the export of a catalogue in which the moon `m` has two satellites
leaves a relationship file without one complete line, so the import has no
relationship line to read. -/
theorem export_import_loses_content :
    supernova_catalogue.catalogue_objects = [0] ∧
    (catalogue.export_to_file show_whole supernova_heap supernova_catalogue).map
        (fun files => (files.1,
          import_summary (import_objects stod_decimal stoi_decimal (file_lines files.1)
            (empty_memory, catalogue.ctor "Test")))) =
      some ("Supernova:sn:0:0:1:0:G:2:VI:1:1\n", some (["sn"], [], 0)) ∧
    (family_heap 0).member_objects.map satellite.get_object = [some 1, some 2] ∧
    (catalogue.export_to_file show_whole family_heap family_catalogue).map
        (fun files => (file_lines files.1, files.2, file_lines files.2)) =
      some (["Moon:m:0:0:0:0", "Asteroid:first_child_of_m:0:0:0:0",
        "Asteroid:second:0:0:0:0"], "m:first_child_om:first_child_o", []) := by
  decide

/-- C18, evaluated on the code: for a star whose luminosity class is `VII`, enumerator
11, `export_to_file` indexes the eleven-entry table `luminosity_class_output` at 11;
no record line is defined. -/
theorem export_data_line_past_table :
    hypergiant.object_type = celestial_types.Star ∧
    hypergiant.derived =
      kind_fields.star stellar_types.G 2 luminosity_class.VII 1 1 ∧
    luminosity_class.VII.code = 11 ∧
    luminosity_class_output.length = 11 ∧
    export_data_line show_whole hypergiant = none ∧
    celestial_object.export_to_file show_whole (fun _ => hypergiant) 0 = none := by
  decide

/-- C19, evaluated on the code: the moon `m` has the two satellites `first_child_of_m`
and `second`; the relationship lines are `m:first_child_of_m:1:2:2` and
`m:second:1:2:2`, but each pass writes the first 15 characters (the size of the record
line `Moon:m:0:0:0:0`) of the text gathered so far, so the relationship file holds
`m:first_child_o` twice and no newline. -/
theorem export_relationships_truncated :
    (family_heap 0).member_number = 2 ∧
    relationship_lines show_whole family_heap (family_heap 0) =
      "m:first_child_of_m:1:2:2\nm:second:1:2:2\n" ∧
    celestial_object.export_to_file show_whole family_heap 0 =
      some ("Moon:m:0:0:0:0\n", "m:first_child_om:first_child_o") := by
  decide

/-- C20, evaluated on the code: a line with an unknown type token leaves its name in
the name list while the well-formed line after it is imported; a line with too few
fields is read past the end of the token vector, and a numeric field outside the range
of `int` raises `std::out_of_range`, which no handler catches: in both cases the import
does not reach the well-formed line after it. -/
theorem import_bad_lines :
    import_summary (import_objects stod_decimal stoi_decimal
        ["Foo:x:0:0:0:0", "Planet:p:0:0:1:2"] (empty_memory, catalogue.ctor "Test")) =
      some (["x", "p"], ["p"], 1) ∧
    import_abort (import_objects stod_decimal stoi_decimal
        ["Planet:x:0:0", "Planet:p:0:0:1:2"] (empty_memory, catalogue.ctor "Test")) =
      some thrown.index_out_of_range ∧
    import_abort (import_objects stod_decimal stoi_decimal
        ["Star:s:0:0:1:0:G:99999999999:V:1:1", "Planet:p:0:0:1:2"]
        (empty_memory, catalogue.ctor "Test")) =
      some thrown.out_of_range := by
  decide

/-- Where every table lookup of the export is inside its table, the record line is the
fields of the specification joined by colons, with a newline at the end: six fields
for a class without data of its own, eight for a galaxy, eleven for a star. -/
theorem export_data_line_fields (show_double : Double → String) (o : celestial_object) :
    export_data_line show_double o =
      (record_fields show_double o).map (fun fields => ":".intercalate fields ++ "\n") ∧
    ∀ fields, record_fields show_double o = some fields →
      fields.length =
        match o.derived with
        | kind_fields.base => 6
        | kind_fields.galaxy _ _ => 8
        | kind_fields.star _ _ _ _ _ => 11 := by
  unfold export_data_line record_fields
  cases h0 : celestial_types_output[o.object_type.code]? with
  | none => simp
  | some type_token =>
    cases hd : o.derived with
    | base =>
      simp [String.intercalate, String.intercalate.go, String.append_assoc]
    | galaxy smf hubble_type =>
      cases h1 : hubble_types_output[hubble_type.code]? with
      | none => simp [h1]
      | some hubble_token =>
        simp [h1, String.intercalate, String.intercalate.go, String.append_assoc]
    | star star_type stellar_digit luminosity_id abs_magnitude app_magnitude =>
      cases h1 : stellar_types_output[star_type.code]? with
      | none => simp [h1]
      | some stellar_token =>
        cases h2 : luminosity_class_output[luminosity_id.code]? with
        | none => simp [h1, h2]
        | some luminosity_token =>
          simp [h1, h2, String.intercalate, String.intercalate.go, String.append_assoc]

/-! ## The tokeniser -/

theorem indexOf_split (a : Char) (l : List Char) (h : l.indexOf a < l.length) :
    l = l.take (l.indexOf a) ++ a :: l.drop (l.indexOf a + 1) ∧ a ∉ l.take (l.indexOf a) := by
  induction l with
  | nil => simp at h
  | cons b rest ih =>
    by_cases hb : b = a
    · subst hb
      simp [List.indexOf_cons_self]
    · rw [List.indexOf_cons_ne _ hb] at h ⊢
      have h' : rest.indexOf a < rest.length := by simpa using h
      obtain ⟨h1, h2⟩ := ih h'
      refine ⟨?_, ?_⟩
      · simp only [List.take_succ_cons, List.drop_succ_cons, List.cons_append]
        rw [← h1]
      · simp only [List.take_succ_cons, List.mem_cons, not_or]
        exact ⟨fun e => hb e.symm, h2⟩

theorem tokenise_loop_spec : ∀ (fuel : Nat) (line : List Char) (parameter_storage : List String),
    line.length < fuel →
    ∃ tokens, tokenise_loop fuel line parameter_storage = some (parameter_storage ++ tokens) ∧
      tokens.length = line.count ':' + 1 ∧
      (∀ t ∈ tokens, ':' ∉ t.data) ∧
      List.intercalate [':'] (tokens.map String.data) = line := by
  intro fuel
  induction fuel with
  | zero => intro line _ h; exact absurd h (Nat.not_lt_zero _)
  | succ fuel ih =>
    intro line parameter_storage h
    unfold tokenise_loop
    cases hfind : find_colon line with
    | none =>
      have hnot : ':' ∉ line := by
        intro hmem
        have := List.indexOf_lt_length.mpr hmem
        simp [find_colon, this] at hfind
      refine ⟨[String.mk line], rfl, ?_, ?_, ?_⟩
      · simp [List.count_eq_zero_of_not_mem hnot]
      · intro t ht
        simp only [List.mem_singleton] at ht
        subst ht
        exact hnot
      · simp [List.intercalate]
    | some break_point =>
      have hbp : break_point = line.indexOf ':' ∧ line.indexOf ':' < line.length := by
        unfold find_colon at hfind
        split at hfind
        · cases hfind
          exact ⟨rfl, by assumption⟩
        · cases hfind
      obtain ⟨hbp1, hbp2⟩ := hbp
      obtain ⟨hsplit, hnot⟩ := indexOf_split ':' line hbp2
      rw [← hbp1] at hsplit hnot
      have hlen : (line.drop (break_point + 1)).length < fuel := by
        simp only [List.length_drop]
        omega
      obtain ⟨tokens, hrun, hcount, hcolon, hjoin⟩ :=
        ih (line.drop (break_point + 1))
          (parameter_storage ++ [String.mk (line.take break_point)]) hlen
      refine ⟨String.mk (line.take break_point) :: tokens, ?_, ?_, ?_, ?_⟩
      · simp only [hrun, List.append_assoc, List.singleton_append]
      · have hc : line.count ':' =
            (line.take break_point).count ':' + ((':' :: line.drop (break_point + 1))).count ':' := by
          conv_lhs => rw [hsplit]
          rw [List.count_append]
        rw [hc, List.count_eq_zero_of_not_mem hnot, List.count_cons_self, List.length_cons,
          hcount]
        omega
      · intro t ht
        simp only [List.mem_cons] at ht
        rcases ht with ht | ht
        · subst ht
          exact hnot
        · exact hcolon t ht
      · cases tokens with
        | nil => simp at hcount
        | cons t ts =>
          have hj : List.intercalate [':'] (List.map String.data (t :: ts)) =
              line.drop (break_point + 1) := hjoin
          conv_rhs => rw [hsplit, ← hj]
          simp [List.intercalate]

/-- C29: for every line the tokeniser ends and gives the maximal colon-free pieces of
the line in order: a line with k colons gives k + 1 tokens (the empty line one empty
token), no token holds a colon, and the tokens joined by colons are the line. -/
theorem tokenise_spec (line : String) :
    ∃ tokens, tokenise line = some tokens ∧
      tokens.length = line.data.count ':' + 1 ∧
      (∀ t ∈ tokens, ':' ∉ t.data) ∧
      List.intercalate [':'] (tokens.map String.data) = line.data := by
  obtain ⟨tokens, hrun, h⟩ :=
    tokenise_loop_spec (line.length + 1) line.data [] (Nat.lt_succ_self _)
  exact ⟨tokens, by simpa [tokenise] using hrun, h⟩

/-! ## Frame of `add_object` and of `sort_catalogue` -/

/-- C27: for a catalogue holding n objects (with `object_amount` n, as in every
reachable state) and every object o, after `add_object(o)` the catalogue holds n + 1
objects, `get_number()` is n + 1, `get_object(n)` is o, the name list ends with the
name of o, and `get_object(i)` for every i below n returns what it returned before. -/
theorem add_object_frame (heap : Heap) (cat : catalogue) (object : Ref)
    (hcount : cat.object_amount = cat.catalogue_objects.length) :
    (add_object heap cat object).catalogue_objects.length = cat.catalogue_objects.length + 1 ∧
    get_number (add_object heap cat object) = (cat.catalogue_objects.length : Int) + 1 ∧
    get_object_int (add_object heap cat object) cat.catalogue_objects.length =
      lookup.object object ∧
    (add_object heap cat object).local_object_names.getLast? = some (heap object).name ∧
    ∀ i : Int, 0 ≤ i → i < cat.catalogue_objects.length →
      get_object_int (add_object heap cat object) i = get_object_int cat i := by
  refine ⟨by simp [add_object], by simp [get_number, add_object, hcount], ?_,
    by simp [add_object], ?_⟩
  · simp [get_object_int, add_object]
  · intro i h0 hlt
    have hi : i.toNat < cat.catalogue_objects.length := by omega
    have h1 : ¬ (i < 0 ∨ i ≥ ((cat.catalogue_objects ++ [object]).length : Int)) := by
      simp only [List.length_append, List.length_singleton]
      push_cast
      omega
    have h2 : ¬ (i < 0 ∨ i ≥ (cat.catalogue_objects.length : Int)) := by omega
    simp only [get_object_int, add_object, if_neg h1, if_neg h2,
      List.getElem?_append_left hi]

theorem add_object_frame_witness :
    registry_first.object_amount = registry_first.catalogue_objects.length ∧
    ((add_object registry_memory.heap registry_first 1).catalogue_objects.length =
        registry_first.catalogue_objects.length + 1 ∧
      get_number (add_object registry_memory.heap registry_first 1) =
        (registry_first.catalogue_objects.length : Int) + 1 ∧
      get_object_int (add_object registry_memory.heap registry_first 1)
          registry_first.catalogue_objects.length = lookup.object 1 ∧
      (add_object registry_memory.heap registry_first 1).local_object_names.getLast? =
        some (registry_memory.heap 1).name ∧
      ∀ i : Int, 0 ≤ i → i < registry_first.catalogue_objects.length →
        get_object_int (add_object registry_memory.heap registry_first 1) i =
          get_object_int registry_first i) :=
  ⟨by decide, add_object_frame registry_memory.heap registry_first 1 (by decide)⟩

theorem sort_catalogue_supported (std_sort : (Ref → Ref → Bool) → List Ref → List Ref)
    (heap : Heap) (p : parameters) (cat : catalogue) (hp : supported_parameter p) :
    ∃ comp, sort_catalogue std_sort heap p cat =
      { cat with
        catalogue_objects := std_sort comp cat.catalogue_objects
        local_object_names :=
          refresh_names heap (std_sort comp cat.catalogue_objects) cat.local_object_names } := by
  rcases hp with hp | hp | hp | hp | hp | hp <;> subst hp
  · exact ⟨fun i j => name_sort (heap i).name (heap j).name, by simp [sort_catalogue]⟩
  · exact ⟨fun i j => decide ((heap i).distance < (heap j).distance),
      by simp [sort_catalogue, parameters.Distance, parameters.Name]⟩
  · exact ⟨fun i j => decide ((heap i).mass < (heap j).mass),
      by simp [sort_catalogue, parameters.Mass, parameters.Distance, parameters.Name]⟩
  · exact ⟨fun i j => decide ((heap i).redshift < (heap j).redshift),
      by simp [sort_catalogue, parameters.Redshift, parameters.Mass, parameters.Distance,
        parameters.Name]⟩
  · exact ⟨fun i j => decide ((heap i).rotational_velocity < (heap j).rotational_velocity),
      by simp [sort_catalogue, parameters.RotationalVelocity, parameters.Redshift,
        parameters.Mass, parameters.Distance, parameters.Name]⟩
  · exact ⟨fun i j => decide ((heap i).member_number < (heap j).member_number),
      by simp [sort_catalogue, parameters.MemberNumber, parameters.RotationalVelocity,
        parameters.Redshift, parameters.Mass, parameters.Distance, parameters.Name]⟩

/-- C28: for every catalogue whose name list is at least as long as its object sequence
(as in every reachable state) and every supported parameter, `sort_catalogue` leaves a
permutation of the object sequence, the same object count and catalogue name, and a
name list whose entry i is the name of object i for every position i of the sequence.
The heap is only read, so no object changes. `std::sort` is taken to return a
permutation of its input. -/
theorem sort_catalogue_frame (std_sort : (Ref → Ref → Bool) → List Ref → List Ref)
    (hsort : ∀ comp l, (std_sort comp l).Perm l) (heap : Heap) (p : parameters)
    (cat : catalogue) (hp : supported_parameter p)
    (hlen : cat.catalogue_objects.length ≤ cat.local_object_names.length) :
    (sort_catalogue std_sort heap p cat).catalogue_objects.Perm cat.catalogue_objects ∧
    (sort_catalogue std_sort heap p cat).catalogue_objects.length =
      cat.catalogue_objects.length ∧
    (sort_catalogue std_sort heap p cat).object_amount = cat.object_amount ∧
    (sort_catalogue std_sort heap p cat).catalogue_name = cat.catalogue_name ∧
    (sort_catalogue std_sort heap p cat).local_object_names.length =
      cat.local_object_names.length ∧
    (sort_catalogue std_sort heap p cat).local_object_names.take
        (sort_catalogue std_sort heap p cat).catalogue_objects.length =
      object_names heap (sort_catalogue std_sort heap p cat) := by
  have hperm := sort_catalogue_perm std_sort hsort heap p cat
  refine ⟨hperm, hperm.length_eq, ?_⟩
  obtain ⟨comp, h⟩ := sort_catalogue_supported std_sort heap p cat hp
  have hl : (std_sort comp cat.catalogue_objects).length ≤ cat.local_object_names.length := by
    rw [(hsort comp cat.catalogue_objects).length_eq]; exact hlen
  rw [h]
  refine ⟨rfl, rfl, ?_, ?_⟩
  · simp only [refresh_names_eq heap _ _ hl, List.length_append, List.length_map,
      List.length_drop]
    omega
  · simp only [refresh_names_eq heap _ _ hl, object_names]
    rw [List.take_append_of_le_length (by simp)]
    simp

theorem sort_catalogue_frame_witness :
    (∀ comp l, (insertion_sort comp l).Perm l) ∧
    supported_parameter parameters.Name ∧
    bravo_catalogue.catalogue_objects.length ≤ bravo_catalogue.local_object_names.length ∧
    ((sort_catalogue insertion_sort bravo_memory.heap parameters.Name
        bravo_catalogue).catalogue_objects.Perm bravo_catalogue.catalogue_objects ∧
    (sort_catalogue insertion_sort bravo_memory.heap parameters.Name
        bravo_catalogue).catalogue_objects.length = bravo_catalogue.catalogue_objects.length ∧
    (sort_catalogue insertion_sort bravo_memory.heap parameters.Name
        bravo_catalogue).object_amount = bravo_catalogue.object_amount ∧
    (sort_catalogue insertion_sort bravo_memory.heap parameters.Name
        bravo_catalogue).catalogue_name = bravo_catalogue.catalogue_name ∧
    (sort_catalogue insertion_sort bravo_memory.heap parameters.Name
        bravo_catalogue).local_object_names.length =
      bravo_catalogue.local_object_names.length ∧
    (sort_catalogue insertion_sort bravo_memory.heap parameters.Name
        bravo_catalogue).local_object_names.take
        (sort_catalogue insertion_sort bravo_memory.heap parameters.Name
          bravo_catalogue).catalogue_objects.length =
      object_names bravo_memory.heap
        (sort_catalogue insertion_sort bravo_memory.heap parameters.Name bravo_catalogue)) :=
  ⟨insertion_sort_perm, Or.inl rfl, by decide,
    sort_catalogue_frame insertion_sort insertion_sort_perm bravo_memory.heap
      parameters.Name bravo_catalogue (Or.inl rfl) (by decide)⟩

/-! ## Members and the relationship parser -/

theorem reachable_members (heap : Heap) (hr : add_member_reachable heap) (r : Ref) :
    (heap r).member_number = (heap r).member_objects.length ∧
      ∀ s ∈ (heap r).member_objects, satellite.copy_ctor s = s := by
  induction hr with
  | fresh heap h =>
    obtain ⟨-, h2, h3⟩ := h r
    rw [h2, h3]
    simp
  | call heap heap' fuel this member_ptr d t e o _ hc ih =>
    rw [add_member_eq] at hc
    split at hc
    · cases hc; exact ih
    · cases hc
      by_cases hthis : r = this
      · subst hthis
        rw [append_member_this]
        refine ⟨?_, ?_⟩
        · simp only [push_back_satellite, List.length_append, List.length_singleton]
          rw [ih.1]; push_cast; rfl
        · intro s hs
          simp only [push_back_satellite, List.mem_append, List.mem_singleton] at hs
          rcases hs with hs | hs
          · exact ih.2 s hs
          · rw [hs]; rfl
      · rw [append_member_other _ _ _ _ _ _ _ hthis]
        exact ih

/-- C22, on the code: for every object reached from construction by `add_member` calls,
with member count n, and every integer i: for 0 <= i < n `get_member(i)` returns the
satellite at position i of the member list; for i < 0 or i >= n it takes the branch that
ends the function without a `return`, so that the call has no defined result instead of
a failure the caller can see. -/
theorem get_member_no_return (heap : Heap) (hr : add_member_reachable heap) (this : Ref)
    (i : Int) :
    ((0 ≤ i ∧ i < get_member_number heap this) →
      ∃ sat, (heap this).member_objects[i.toNat]? = some sat ∧
        get_member heap this i = some sat) ∧
    ((i < 0 ∨ get_member_number heap this ≤ i) → get_member heap this i = none) := by
  obtain ⟨hnum, hcopy⟩ := reachable_members heap hr this
  unfold get_member_number
  constructor
  · intro hin
    have hlt : i.toNat < (heap this).member_objects.length := by omega
    have hmem : (heap this).member_objects[i.toNat]? =
        some ((heap this).member_objects.get ⟨_, hlt⟩) := by
      simp [List.getElem?_eq_getElem hlt]
    refine ⟨_, hmem, ?_⟩
    unfold get_member
    rw [if_pos (by omega), hmem]
    simp only
    rw [hcopy _ (List.get_mem _ _ _)]
  · intro hout
    unfold get_member
    rw [if_neg (by omega)]

theorem get_member_no_return_witness :
    add_member_reachable orbit_heap ∧
    get_member_number orbit_heap 0 = 1 ∧
    get_member orbit_heap 0 1 = none ∧
    (((0 ≤ (1 : Int) ∧ (1 : Int) < get_member_number orbit_heap 0) →
      ∃ sat, (orbit_heap 0).member_objects[(1 : Int).toNat]? = some sat ∧
        get_member orbit_heap 0 1 = some sat) ∧
    (((1 : Int) < 0 ∨ get_member_number orbit_heap 0 ≤ 1) →
      get_member orbit_heap 0 1 = none)) :=
  have hreach : add_member_reachable orbit_heap :=
    add_member_reachable.call registry_memory.heap _ 0 0 3 1 2 3 add_member_outcome.Added
      (add_member_reachable.fresh _ (fun r => by
        unfold registry_memory
        dsimp only
        split_ifs <;> exact ⟨rfl, rfl, rfl⟩))
      (by rw [add_member_eq]; rfl)
  ⟨hreach, by decide, by decide, get_member_no_return orbit_heap hreach 0 1⟩

theorem expected_members_cons (x : Ref) (call : member_call) (rest : List member_call)
    (outcomes : List add_member_outcome) :
    expected_members x (call :: rest) (add_member_outcome.Added :: outcomes) =
      (if call.this = x then [some call.member_ptr] else []) ++
        expected_members x rest outcomes := by
  unfold expected_members
  by_cases h : call.this = x
  · simp [List.zip_cons_cons, List.filter_cons, h]
  · simp [List.zip_cons_cons, List.filter_cons, h]

theorem run_calls_spec (fuel : Nat) : ∀ (calls : List member_call) (heap : Heap),
    (∀ r, (heap r).parent_object = none) →
    ∃ heap' outcomes, run_calls fuel calls heap = some (heap', outcomes) ∧
      outcomes.length = calls.length ∧
      (∀ o ∈ outcomes, o = add_member_outcome.Added) ∧
      ∀ x, (heap' x).member_objects.map satellite.get_object =
          (heap x).member_objects.map satellite.get_object ++
            expected_members x calls outcomes ∧
        (heap' x).member_number =
          (heap x).member_number + (expected_members x calls outcomes).length := by
  intro calls
  induction calls with
  | nil =>
    intro heap _
    exact ⟨heap, [], rfl, rfl, by simp, fun x => by simp [expected_members]⟩
  | cons call rest ih =>
    intro heap hparent
    have hstep : add_member heap fuel call.this call.member_ptr call.orb_distance
        call.orb_tilt call.orb_eccentricity =
        some (append_member heap call.this call.member_ptr call.orb_distance call.orb_tilt
          call.orb_eccentricity, add_member_outcome.Added) := by
      rw [add_member_eq, if_neg (by simp [hparent])]
    have hparent' : ∀ r, (append_member heap call.this call.member_ptr call.orb_distance
        call.orb_tilt call.orb_eccentricity r).parent_object = none := by
      intro r
      rw [append_member_parent_object]
      exact hparent r
    obtain ⟨heap', outcomes, hrun, hlen, hall, hspec⟩ := ih _ hparent'
    refine ⟨heap', add_member_outcome.Added :: outcomes, ?_, by simp [hlen], ?_, ?_⟩
    · simp only [run_calls, hstep, hrun]
    · intro o ho
      simp only [List.mem_cons] at ho
      rcases ho with ho | ho
      · exact ho
      · exact hall o ho
    · intro x
      obtain ⟨h1, h2⟩ := hspec x
      rw [expected_members_cons, h1, h2]
      by_cases hx : call.this = x
      · subst hx
        simp only [append_member_this, push_back_satellite, List.map_append, List.map_cons,
          List.map_nil, if_true, List.append_assoc, List.length_append, List.length_singleton,
          List.length_cons, List.length_nil]
        refine ⟨rfl, ?_⟩
        push_cast
        ring
      · rw [append_member_other _ _ _ _ _ _ _ (fun e => hx e.symm)]
        simp [hx]

/-- C23: starting from freshly constructed objects, after any sequence of `add_member`
calls, `get_all_members()` of an object holds one satellite for every call on that
object that succeeded, in call order, each with the member of its call as object; its
length is `get_member_number()`. The method only returns a copy of the member list. -/
theorem get_all_members_calls (heap : Heap) (fuel : Nat) (calls : List member_call)
    (hfresh : ∀ r, (heap r).parent_object = none ∧ (heap r).member_objects = [] ∧
      (heap r).member_number = 0) :
    ∃ heap' outcomes, run_calls fuel calls heap = some (heap', outcomes) ∧
      outcomes.length = calls.length ∧
      ∀ x, (get_all_members heap' x).map satellite.get_object =
          expected_members x calls outcomes ∧
        ((get_all_members heap' x).length : Int) = get_member_number heap' x := by
  obtain ⟨heap', outcomes, hrun, hlen, -, hspec⟩ :=
    run_calls_spec fuel calls heap (fun r => (hfresh r).1)
  refine ⟨heap', outcomes, hrun, hlen, fun x => ?_⟩
  obtain ⟨h1, h2⟩ := hspec x
  have hmap : (get_all_members heap' x).map satellite.get_object =
      (heap' x).member_objects.map satellite.get_object := by
    simp [get_all_members, List.map_map, Function.comp_def, satellite.get_object,
      satellite.copy_ctor]
  refine ⟨?_, ?_⟩
  · rw [hmap, h1, (hfresh x).2.1]
    simp
  · have hl : (get_all_members heap' x).length = (expected_members x calls outcomes).length := by
      have := congrArg List.length (hmap.trans h1)
      simpa [(hfresh x).2.1] using this
    rw [hl, get_member_number, h2, (hfresh x).2.2]
    simp

theorem get_all_members_calls_witness :
    (∀ r, (fresh_heap r).parent_object = none ∧ (fresh_heap r).member_objects = [] ∧
      (fresh_heap r).member_number = 0) ∧
    ∃ heap' outcomes,
      run_calls 0 [⟨0, 1, 1, 2, 3⟩, ⟨2, 0, 1, 1, 1⟩, ⟨0, 2, 4, 5, 6⟩] fresh_heap =
        some (heap', outcomes) ∧
      outcomes.length = [(⟨0, 1, 1, 2, 3⟩ : member_call), ⟨2, 0, 1, 1, 1⟩,
        ⟨0, 2, 4, 5, 6⟩].length ∧
      ∀ x, (get_all_members heap' x).map satellite.get_object =
          expected_members x [⟨0, 1, 1, 2, 3⟩, ⟨2, 0, 1, 1, 1⟩, ⟨0, 2, 4, 5, 6⟩] outcomes ∧
        ((get_all_members heap' x).length : Int) = get_member_number heap' x :=
  ⟨fun _ => ⟨rfl, rfl, rfl⟩,
    get_all_members_calls fresh_heap 0 [⟨0, 1, 1, 2, 3⟩, ⟨2, 0, 1, 1, 1⟩, ⟨0, 2, 4, 5, 6⟩]
      (fun _ => ⟨rfl, rfl, rfl⟩)⟩

/-- The relationship lines `s:p:1:2:3` (both names found), `zz:p:1:1:1` (no object
`zz`) and `p:q:4:5:6` on the catalogue of `registry_memory`: the first and the third
add a member, the second changes nothing, and all three are processed. -/
theorem import_relationships_example :
    (match import_relationships stod_decimal 0 registry_catalogue
        ["s:p:1:2:3", "zz:p:1:1:1", "p:q:4:5:6"] registry_memory.heap with
      | Except.ok heap =>
        some ((heap 0).member_objects.map satellite.get_object, (heap 0).member_number,
          (heap 3).member_objects.map satellite.get_object, (heap 1).member_number)
      | Except.error _ => none) = some ([some 3], 1, [some 2], 0) := by
  decide

/-! ## The type dispatch of the import -/

theorem construct_object_supernova (stod : String → conversion Double)
    (stoi : String → conversion Int) (object_name : String) (parameter_storage : List String)
    (object : celestial_object) :
    construct_object stod stoi celestial_types.Supernova object_name parameter_storage ≠
      Except.ok object := by
  intro h
  unfold construct_object at h
  simp only [bind, Except.bind, pure, Except.pure, throw, throwThe, MonadExceptOf.throw] at h
  have e1 : ¬ (celestial_types.Supernova = celestial_types.Galaxy) := by decide
  have e2 : ¬ (celestial_types.Supernova = celestial_types.Star ∨
      celestial_types.Supernova = celestial_types.MainSequenceStar ∨
      celestial_types.Supernova = celestial_types.RedGiantStar ∨
      celestial_types.Supernova = celestial_types.StellarRemnant ∨
      celestial_types.Supernova = celestial_types.NeutronStar ∨
      celestial_types.Supernova = celestial_types.Pulsar) := by decide
  have e3 : ¬ (celestial_types.Supernova = celestial_types.Asteroid ∨
      celestial_types.Supernova = celestial_types.BlackHole ∨
      celestial_types.Supernova = celestial_types.Comet ∨
      celestial_types.Supernova = celestial_types.DwarfPlanet ∨
      celestial_types.Supernova = celestial_types.GaseousPlanet ∨
      celestial_types.Supernova = celestial_types.Moon ∨
      celestial_types.Supernova = celestial_types.Planet ∨
      celestial_types.Supernova = celestial_types.TerrestrialPlanet) := by decide
  simp only [if_neg e1, if_neg e2, if_neg e3] at h
  repeat' split at h
  all_goals cases h

/-- C30, on the code: a record line whose first token is `Supernova`, the token the
export writes for a supernova, never gives an object, whatever its other tokens are
and whatever `stod` and `stoi` return: when the import goes on after the line, the
object sequence and the object count are what they were. -/
theorem import_line_supernova (stod : String → conversion Double)
    (stoi : String → conversion Int) (st st' : import_state) (line : String)
    (rest : List String) (htok : tokenise line = some ("Supernova" :: rest))
    (h : import_line stod stoi st line = Except.ok st') :
    st'.2.catalogue_objects = st.2.catalogue_objects ∧
      st'.2.object_amount = st.2.object_amount ∧ st'.1 = st.1 := by
  have hidx : celestial_types_output.indexOf "Supernova" = 14 := by decide
  unfold import_line at h
  rw [htok] at h
  simp only [storage_at, List.getElem?_cons_zero, hidx] at h
  split at h
  · cases h
  · rename_i object_name hname
    split at h
    · rename_i object hobj
      exact absurd hobj (construct_object_supernova stod stoi _ _ _)
    · cases h
      exact ⟨rfl, rfl, rfl⟩
    · cases h
      exact ⟨rfl, rfl, rfl⟩
    · cases h

theorem import_line_supernova_witness :
    tokenise "Supernova:sn:0:0:1:0:G:2:V:1:1" =
      some ("Supernova" :: ["sn", "0", "0", "1", "0", "G", "2", "V", "1", "1"]) ∧
    import_line stod_decimal stoi_decimal (empty_memory, catalogue.ctor "Test")
      "Supernova:sn:0:0:1:0:G:2:V:1:1" = Except.ok supernova_skipped ∧
    (supernova_skipped.2.catalogue_objects = (catalogue.ctor "Test").catalogue_objects ∧
      supernova_skipped.2.object_amount = (catalogue.ctor "Test").object_amount ∧
      supernova_skipped.1 = empty_memory) :=
  ⟨by decide, rfl,
    import_line_supernova stod_decimal stoi_decimal (empty_memory, catalogue.ctor "Test")
      supernova_skipped "Supernova:sn:0:0:1:0:G:2:V:1:1"
      ["sn", "0", "0", "1", "0", "G", "2", "V", "1", "1"] (by decide) rfl⟩

/-- The object the import constructs has the kind its type token stands for. -/
theorem construct_object_type (stod : String → conversion Double)
    (stoi : String → conversion Int) (object_type : celestial_types) (object_name : String)
    (parameter_storage : List String) (object : celestial_object)
    (h : construct_object stod stoi object_type object_name parameter_storage =
      Except.ok object) : object.object_type = object_type := by
  unfold construct_object at h
  simp only [bind, Except.bind, pure, Except.pure, throw, throwThe, MonadExceptOf.throw] at h
  repeat' split at h
  all_goals first
    | (cases h; simp_all [galaxy.ctor, star.ctor, star_derived.ctor, plain.ctor])
    | cases h

/-- Every token of the kind table is found at its own position, so the import reads
back the kind the export wrote. -/
theorem indexOf_type_token :
    ∀ k < celestial_types_output.length,
      ∀ token, celestial_types_output[k]? = some token →
        celestial_types_output.indexOf token = k := by
  decide

/-- For each of the fifteen kinds the dispatch has a case for, a record line with the
token of the kind and well-formed fields is imported as one object of that kind: here
one line per kind, imported into an empty catalogue. -/
theorem import_known_kinds_example :
    (match import_objects stod_decimal stoi_decimal
        ["Galaxy:a:0:0:1:0:0:Sc", "Star:b:0:0:1:0:G:2:V:1:1",
         "MainSequenceStar:c:0:0:1:0:G:2:V:1:1", "RedGiantStar:d:0:0:1:0:G:2:V:1:1",
         "Planet:e:0:0:1:0", "TerrestrialPlanet:f:0:0:1:0", "GaseousPlanet:g:0:0:1:0",
         "Dwarf Planet:h:0:0:1:0", "Moon:i:0:0:1:0", "Comet:j:0:0:1:0",
         "Asteroid:k:0:0:1:0", "StellarRemnant:l:0:0:1:0:G:2:V:1:1",
         "NeutronStar:m:0:0:1:0:G:2:V:1:1", "Pulsar:n:0:0:1:0:G:2:V:1:1",
         "BlackHole:o:0:0:1:0"] (empty_memory, catalogue.ctor "Test") with
      | Except.ok st => some (st.2.catalogue_objects.map (fun r => (st.1.heap r).object_type))
      | Except.error _ => none) = some importable_kinds := by
  decide

/-! ## Selection along the class hierarchy -/

theorem mem_select_loop (heap : Heap) (test : celestial_types → Bool) (objects : List Ref)
    (r : Ref) (hr : r ∈ objects) (ht : test (heap r).object_type = true) :
    r ∈ select_loop heap test objects := by
  rw [select_loop_eq_filter]
  exact List.mem_filter.mpr ⟨hr, ht⟩

/-- The pairs of the class heads, apart from the two with `supernova` as the derived
class, are captured: `subselect_catalogue(base)` holds every object of the catalogue
whose kind is `derived`. -/
theorem subselect_captures_derived (heap : Heap) (cat : catalogue)
    (pair : celestial_types × celestial_types) (hp : pair ∈ inheritance_pairs)
    (hs : pair.2 ≠ celestial_types.Supernova) (r : Ref) (hr : r ∈ cat.catalogue_objects)
    (hk : (heap r).object_type = pair.2) :
    r ∈ subselect_catalogue heap cat pair.1 := by
  have hl : inheritance_pairs =
      [(celestial_types.Star, celestial_types.MainSequenceStar),
       (celestial_types.Star, celestial_types.RedGiantStar),
       (celestial_types.Planet, celestial_types.TerrestrialPlanet),
       (celestial_types.Planet, celestial_types.GaseousPlanet),
       (celestial_types.Planet, celestial_types.DwarfPlanet),
       (celestial_types.Star, celestial_types.StellarRemnant),
       (celestial_types.StellarRemnant, celestial_types.Supernova),
       (celestial_types.Star, celestial_types.Supernova),
       (celestial_types.StellarRemnant, celestial_types.NeutronStar),
       (celestial_types.Star, celestial_types.NeutronStar),
       (celestial_types.NeutronStar, celestial_types.Pulsar),
       (celestial_types.StellarRemnant, celestial_types.Pulsar),
       (celestial_types.Star, celestial_types.Pulsar)] := by decide
  rw [hl] at hp
  simp only [List.mem_cons, List.mem_singleton, List.not_mem_nil, or_false] at hp
  rcases hp with h | h | h | h | h | h | h | h | h | h | h | h | h <;> subst h <;>
    first
    | exact absurd rfl hs
    | (unfold subselect_catalogue
       simp only [show ¬ celestial_types.StellarRemnant = celestial_types.Star by decide,
         show ¬ celestial_types.NeutronStar = celestial_types.Star by decide,
         show ¬ celestial_types.NeutronStar = celestial_types.StellarRemnant by decide,
         show ¬ celestial_types.Planet = celestial_types.Star by decide,
         show ¬ celestial_types.Planet = celestial_types.StellarRemnant by decide,
         show ¬ celestial_types.Planet = celestial_types.NeutronStar by decide,
         if_true, if_false]
       exact mem_select_loop heap _ _ r hr (by rw [hk]; decide))

/-- C31, on the code: `supernova` derives from `stellar_remnant`, which derives from
`star`, and a catalogue holding one supernova gives an empty selection for the query
StellarRemnant and for the query Star. -/
theorem subselect_misses_supernova :
    base_classes 18 celestial_types.Supernova =
      [celestial_types.StellarRemnant, celestial_types.Star] ∧
    supernova_catalogue.catalogue_objects = [0] ∧
    (supernova_heap 0).object_type = celestial_types.Supernova ∧
    subselect_catalogue supernova_heap supernova_catalogue celestial_types.StellarRemnant
      = [] ∧
    subselect_catalogue supernova_heap supernova_catalogue celestial_types.Star = [] ∧
    subselect_catalogue supernova_heap supernova_catalogue celestial_types.Supernova
      = [0] := by
  decide

/-- C35: for every catalogue the selections along the chain Pulsar, NeutronStar,
StellarRemnant, Star, Unassigned are each a subsequence of the next, and for every kind
the selection is a subsequence of the object sequence. `subselect_catalogue` returns a
new vector and does not write `catalogue_objects`. -/
theorem subselect_catalogue_monotone (heap : Heap) (cat : catalogue) :
    (subselect_catalogue heap cat celestial_types.Pulsar).Sublist
      (subselect_catalogue heap cat celestial_types.NeutronStar) ∧
    (subselect_catalogue heap cat celestial_types.NeutronStar).Sublist
      (subselect_catalogue heap cat celestial_types.StellarRemnant) ∧
    (subselect_catalogue heap cat celestial_types.StellarRemnant).Sublist
      (subselect_catalogue heap cat celestial_types.Star) ∧
    (subselect_catalogue heap cat celestial_types.Star).Sublist
      (subselect_catalogue heap cat celestial_types.Unassigned) ∧
    ∀ k, (subselect_catalogue heap cat k).Sublist cat.catalogue_objects := by
  have hall : ∀ k, (subselect_catalogue heap cat k).Sublist cat.catalogue_objects := by
    intro k
    unfold subselect_catalogue
    split_ifs
    · rw [select_loop_eq_filter]; exact List.filter_sublist _
    · rw [select_loop_eq_filter]; exact List.filter_sublist _
    · rw [select_loop_eq_filter]; exact List.filter_sublist _
    · rw [select_loop_eq_filter]; exact List.filter_sublist _
    · exact List.Sublist.refl _
    · rw [select_loop_eq_filter]; exact List.filter_sublist _
  have hpulsar : subselect_catalogue heap cat celestial_types.Pulsar =
      cat.catalogue_objects.filter
        (fun r => decide ((heap r).object_type = celestial_types.Pulsar)) := by
    unfold subselect_catalogue
    rw [if_neg (by decide), if_neg (by decide), if_neg (by decide), if_neg (by decide),
      if_neg (by decide), select_loop_eq_filter]
  have hneutron : subselect_catalogue heap cat celestial_types.NeutronStar =
      cat.catalogue_objects.filter
        (fun r => decide ((heap r).object_type = celestial_types.NeutronStar) ||
          decide ((heap r).object_type = celestial_types.Pulsar)) := by
    unfold subselect_catalogue
    rw [if_neg (by decide), if_neg (by decide), if_pos rfl, select_loop_eq_filter]
  have hremnant : subselect_catalogue heap cat celestial_types.StellarRemnant =
      cat.catalogue_objects.filter
        (fun r => decide ((heap r).object_type = celestial_types.StellarRemnant) ||
          decide ((heap r).object_type = celestial_types.NeutronStar) ||
          decide ((heap r).object_type = celestial_types.Pulsar)) := by
    unfold subselect_catalogue
    rw [if_neg (by decide), if_pos rfl, select_loop_eq_filter]
  have hstar : subselect_catalogue heap cat celestial_types.Star =
      cat.catalogue_objects.filter
        (fun r => decide ((heap r).object_type = celestial_types.Star) ||
          decide ((heap r).object_type = celestial_types.MainSequenceStar) ||
          decide ((heap r).object_type = celestial_types.RedGiantStar) ||
          decide ((heap r).object_type = celestial_types.StellarRemnant) ||
          decide ((heap r).object_type = celestial_types.NeutronStar) ||
          decide ((heap r).object_type = celestial_types.Pulsar)) := by
    unfold subselect_catalogue
    rw [if_pos rfl, select_loop_eq_filter]
  have hunassigned : subselect_catalogue heap cat celestial_types.Unassigned =
      cat.catalogue_objects := by
    unfold subselect_catalogue
    rw [if_neg (by decide), if_neg (by decide), if_neg (by decide), if_neg (by decide),
      if_pos rfl]
  refine ⟨?_, ?_, ?_, ?_, hall⟩
  · rw [hpulsar, hneutron]
    apply List.monotone_filter_right
    intro r h
    simp only [Bool.or_eq_true]
    exact Or.inr h
  · rw [hneutron, hremnant]
    apply List.monotone_filter_right
    intro r h
    simp only [Bool.or_eq_true] at h ⊢
    rcases h with h | h
    · exact Or.inl (Or.inr h)
    · exact Or.inr h
  · rw [hremnant, hstar]
    apply List.monotone_filter_right
    intro r h
    simp only [Bool.or_eq_true] at h ⊢
    rcases h with (h | h) | h
    · exact Or.inl (Or.inl (Or.inr h))
    · exact Or.inl (Or.inr h)
    · exact Or.inr h
  · rw [hunassigned]
    exact hall _

/-! ## The two outcomes of `add_member` -/

/-- C34: for every heap and every pair of objects (the same object twice included),
both `add_member` methods return, for any amount of loop fuel, and do one of two
things: when the parent reference of the member is not null they report
"already parented" and change nothing; otherwise they append to the member list of
the object called a satellite whose object is the member, raise its member count by
one and leave every other object as it was. Neither ever takes the self-parent branch
or the closed-loop branch. -/
theorem add_member_two_outcomes (heap : Heap) (fuel : Nat) (this member_ptr : Ref)
    (d t e : Double) :
    ((heap member_ptr).parent_object ≠ none →
      add_member heap fuel this member_ptr d t e =
        some (heap, add_member_outcome.AlreadyParented) ∧
      add_member_prompted heap fuel this member_ptr d t e =
        some (heap, add_member_outcome.AlreadyParented)) ∧
    ((heap member_ptr).parent_object = none →
      ∃ heap', add_member heap fuel this member_ptr d t e =
          some (heap', add_member_outcome.Added) ∧
        add_member_prompted heap fuel this member_ptr d t e =
          some (heap', add_member_outcome.Added) ∧
        (∃ sat, (heap' this).member_objects = (heap this).member_objects ++ [sat] ∧
          satellite.get_object sat = some member_ptr) ∧
        (heap' this).member_number = (heap this).member_number + 1 ∧
        ∀ r, r ≠ this → heap' r = heap r) ∧
    (∀ result, (add_member heap fuel this member_ptr d t e = some result ∨
        add_member_prompted heap fuel this member_ptr d t e = some result) →
      result.2 ≠ add_member_outcome.SelfParentParadox ∧
      result.2 ≠ add_member_outcome.CyclicParentage) := by
  have hprompted : add_member_prompted heap fuel this member_ptr d t e =
      add_member heap fuel this member_ptr d t e := by
    unfold add_member_prompted add_member append_member satellite.ctor_prompted
      satellite.ctor
    rfl
  rw [hprompted, add_member_eq]
  refine ⟨?_, ?_, ?_⟩
  · intro h
    rw [if_pos h]
    exact ⟨rfl, rfl⟩
  · intro h
    rw [if_neg (by simp [h])]
    refine ⟨_, rfl, rfl,
      ⟨satellite.copy_ctor (satellite.ctor member_ptr d t e), ?_, rfl⟩, ?_, ?_⟩
    · rw [append_member_this]
      rfl
    · rw [append_member_this]
    · intro r hr
      exact append_member_other heap this member_ptr d t e r hr
  · intro result h
    rw [or_self] at h
    split at h
    · cases h
      exact ⟨fun hx => (nomatch hx), fun hx => (nomatch hx)⟩
    · cases h
      exact ⟨fun hx => (nomatch hx), fun hx => (nomatch hx)⟩

/-! ## The order `name_sort` -/

/-- C36: `name_sort` is a strict weak ordering of strings: it is irreflexive and
transitive, never holds both ways, two names are incomparable exactly when they are
equal after every character is lower-cased, and incomparability is transitive. -/
theorem name_sort_strict_weak :
    (∀ a, name_sort a a = false) ∧
    (∀ a b c, name_sort a b = true → name_sort b c = true → name_sort a c = true) ∧
    (∀ a b, ¬ (name_sort a b = true ∧ name_sort b a = true)) ∧
    (∀ a b, (name_sort a b = false ∧ name_sort b a = false) ↔
      a.data.map Char.toLower = b.data.map Char.toLower) ∧
    (∀ a b c, name_sort a b = false → name_sort b a = false →
      name_sort b c = false → name_sort c b = false →
      name_sort a c = false ∧ name_sort c a = false) := by
  have hinc : ∀ a b : String, (name_sort a b = false ∧ name_sort b a = false) ↔
      a.data.map Char.toLower = b.data.map Char.toLower := by
    intro a b
    unfold name_sort
    simp only [decide_eq_false_iff_not, not_lt]
    constructor
    · rintro ⟨h1, h2⟩
      exact le_antisymm h2 h1
    · intro h
      rw [h]
      exact ⟨le_refl _, le_refl _⟩
  refine ⟨?_, ?_, ?_, hinc, ?_⟩
  · intro a
    unfold name_sort
    simp
  · intro a b c hab hbc
    unfold name_sort at hab hbc ⊢
    simp only [decide_eq_true_eq] at hab hbc ⊢
    exact lt_trans hab hbc
  · intro a b h
    unfold name_sort at h
    simp only [decide_eq_true_eq] at h
    exact lt_asymm h.1 h.2
  · intro a b c hab hba hbc hcb
    have h1 := (hinc a b).mp ⟨hab, hba⟩
    have h2 := (hinc b c).mp ⟨hbc, hcb⟩
    exact (hinc a c).mpr (h1.trans h2)

/-! ## The output tables of `luminosity_class` and `parameters` -/

/-- C37, on the code: the table `luminosity_class_output` has eleven entries for the
twelve enumerators, so the lookup for `VII` (11) is past its end; for the eleven
enumerators below it the lookup is inside the table and the import lookup of the token
gives the enumerator back. The import makes a star of class `VII` from a record line
whose luminosity token is not in the table (here `Ia`), and that star has no record
line on export. -/
theorem luminosity_lookup_past_table :
    luminosity_class_output.length = 11 ∧
    luminosity_class.VII.code = 11 ∧
    luminosity_class_output[luminosity_class.VII.code]? = none ∧
    (∀ code < 11, (luminosity_class_output[code]?).map
      (fun token => luminosity_class_output.indexOf token) = some code) ∧
    (match construct_object stod_decimal stoi_decimal celestial_types.Star "s"
        ["Star", "s", "0", "0", "1", "0", "G", "2", "Ia", "1", "1"] with
      | Except.ok object => some object
      | Except.error _ => none) = some hypergiant ∧
    export_data_line show_whole hypergiant = none := by
  decide

/-- C38, on the code: `parameters_output` has no entry `"Distance"`, so from its sixth
entry on a word stands one place before its enumerator: the Sort command turns `"Mass"`
into `Distance`, `"RotationalVelocity"` into `Mass`, `"MemberNumber"` into
`RotationalVelocity`, refuses `"Distance"`, and turns no word into `MemberNumber`. On a
catalogue of a planet of mass 2 at distance 5 followed by a planet of mass 9 at distance
1, the word `"Mass"` puts the planet of mass 9 first. -/
theorem sort_command_wrong_parameter :
    sort_command_parameter "Mass" = some parameters.Distance ∧
    sort_command_parameter "RotationalVelocity" = some parameters.Mass ∧
    sort_command_parameter "MemberNumber" = some parameters.RotationalVelocity ∧
    sort_command_parameter "Distance" = none ∧
    (∀ param_name, sort_command_parameter param_name ≠ some parameters.MemberNumber) ∧
    scale_catalogue.catalogue_objects = [0, 1] ∧
    ((scale_heap 0).mass, (scale_heap 0).distance) = (2, 5) ∧
    ((scale_heap 1).mass, (scale_heap 1).distance) = (9, 1) ∧
    (sort_command insertion_sort scale_heap "Mass" scale_catalogue).map
      (fun cat => cat.catalogue_objects) = some [1, 0] := by
  refine ⟨by decide, by decide, by decide, by decide, ?_, by decide, by decide, by decide,
    by decide⟩
  intro param_name h
  unfold sort_command_parameter at h
  simp only [] at h
  split at h
  · cases h
  · rename_i hlt
    have hcode := congrArg parameters.code (Option.some.inj h)
    have hlen : parameters_output.length = 8 := by decide
    simp only [parameters.MemberNumber] at hcode
    omega

/-! ## The catalogue name of an import -/

theorem find_last_of_append (dir rest : List Char) (c : Char) (h : c ∉ rest) :
    find_last_of (dir ++ c :: rest) c = dir.length := by
  unfold find_last_of
  have hrev : (dir ++ c :: rest).reverse = rest.reverse ++ c :: dir.reverse := by simp
  have hidx : (dir ++ c :: rest).reverse.indexOf c = rest.length := by
    rw [hrev, List.indexOf_append_of_not_mem (by simpa using h), List.indexOf_cons_self]
    simp
  simp only [hidx, List.length_append, List.length_cons]
  rw [if_pos (by omega)]
  omega

theorem find_last_of_absent (str : List Char) (c : Char) (h : c ∉ str) :
    find_last_of str c = npos := by
  unfold find_last_of
  have hidx : str.reverse.indexOf c = str.length := by
    rw [List.indexOf_eq_length.mpr (by simpa using h), List.length_reverse]
  simp [hidx]

theorem through_int_small (n : Nat) (h : n < 2 ^ 31) : through_int n = n := by
  unfold through_int
  have h1 : n % 2 ^ 32 = n := Nat.mod_eq_of_lt (by omega)
  simp only [h1, if_pos h]

/-- For a file name without a directory part, `name.dat`, the catalogue name the import
computes is `name`. -/
theorem import_catalogue_name_plain (stem : List Char) (hstem : '/' ∉ stem)
    (hlen : stem.length + 4 < 2 ^ 31) :
    import_catalogue_name (String.mk (stem ++ ".dat".data)) = some (String.mk stem) := by
  have hdat : '/' ∉ ".dat".data := by decide
  have habs : '/' ∉ stem ++ ".dat".data := by
    simp only [List.mem_append, not_or]
    exact ⟨hstem, hdat⟩
  have hl : (".dat".data).length = 4 := by decide
  unfold import_catalogue_name
  simp only [find_last_of_absent _ _ habs, npos, List.length_append, hl]
  have h1 : (2 ^ 64 - 1 + 1) % 2 ^ 64 = 0 := by norm_num
  have h2 : (stem.length + 4 + 2 ^ 64 - 4) % 2 ^ 64 = stem.length := by
    have : stem.length < 2 ^ 64 := by omega
    omega
  rw [h1, h2, through_int_small 0 (by norm_num)]
  simp [substr]

/-- C32, on the code: for a file name with a directory part, `dir/name.dat`, the
catalogue name the import computes is `name` followed by the first `length(dir) + 1`
characters of `.dat`: never `name`, and `name.dat` as soon as the directory part has
three characters or more. The count passed to `substr` is the length of the whole path
less 4, not that of the part after the last `/`. -/
theorem import_catalogue_name_with_directory (dir stem : List Char) (hstem : '/' ∉ stem)
    (hlen : dir.length + stem.length + 5 < 2 ^ 31) :
    import_catalogue_name (String.mk (dir ++ '/' :: (stem ++ ".dat".data))) =
      some (String.mk (stem ++ (".dat".data).take (dir.length + 1))) := by
  have hdat : '/' ∉ ".dat".data := by decide
  have habs : '/' ∉ stem ++ ".dat".data := by
    simp only [List.mem_append, not_or]
    exact ⟨hstem, hdat⟩
  have hl : (".dat".data).length = 4 := by decide
  unfold import_catalogue_name
  simp only [find_last_of_append _ _ _ habs, List.length_append, List.length_cons, hl]
  have h1 : (dir.length + 1) % 2 ^ 64 = dir.length + 1 := Nat.mod_eq_of_lt (by omega)
  have h2 : (dir.length + (stem.length + 4 + 1) + 2 ^ 64 - 4) % 2 ^ 64 =
      stem.length + (dir.length + 1) := by
    have : dir.length + stem.length + 5 < 2 ^ 64 := by omega
    omega
  rw [h1, h2, through_int_small _ (by omega)]
  unfold substr
  rw [if_neg (by simp only [List.length_append, List.length_cons, hl]; omega)]
  have hdrop : (dir ++ '/' :: (stem ++ ".dat".data)).drop (dir.length + 1) =
      stem ++ ".dat".data := by
    rw [List.drop_append]
    rfl
  rw [hdrop, List.take_append]
  rfl

theorem import_catalogue_name_with_directory_witness :
    ('/' ∉ "cat".data ∧ ("data".data).length + ("cat".data).length + 5 < 2 ^ 31) ∧
    import_catalogue_name "data/cat.dat" = some "cat.dat" ∧
    import_catalogue_name (String.mk ("data".data ++ '/' :: ("cat".data ++ ".dat".data))) =
      some (String.mk ("cat".data ++ (".dat".data).take (("data".data).length + 1))) :=
  ⟨⟨by decide, by decide⟩, by decide,
    import_catalogue_name_with_directory "data".data "cat".data (by decide) (by decide)⟩

end celestial_objects

/-! # The matrix class -/

namespace matrix_class

theorem getElem?_eq_some_getD (l : List Rat) (k : Nat) (h : k < l.length) :
    l[k]? = some (l.getD k 0) := by
  simp [List.getD, List.getElem?_eq_getElem h]

theorem remove_columns_eq (this : matrix) (i_remove j_remove : Int) (i : Nat) :
    ∀ (js : List Nat) (stored : List Rat),
      (∀ j ∈ js, j + i * this.columns.toNat < this.matrix_data.length) →
      matrix.remove_columns this i_remove j_remove i js stored =
        some (stored ++
          if (i : Int) = i_remove then []
          else (js.filter (fun (j : Nat) => decide (¬ (j : Int) = j_remove))).map
            (fun j => this.matrix_data.getD (j + i * this.columns.toNat) 0)) := by
  intro js
  induction js with
  | nil => intro stored _; simp [matrix.remove_columns]
  | cons j js ih =>
    intro stored h
    have hj := h j (List.mem_cons_self _ _)
    have hjs : ∀ j' ∈ js, j' + i * this.columns.toNat < this.matrix_data.length :=
      fun j' hj' => h j' (List.mem_cons_of_mem _ hj')
    unfold matrix.remove_columns
    by_cases hi : (i : Int) = i_remove
    · rw [if_neg (by simp [hi]), ih stored hjs]
      simp only [if_pos hi]
    · by_cases hjr : (j : Int) = j_remove
      · rw [if_neg (by simp [hjr]), ih stored hjs, List.filter_cons]
        simp only [hjr, not_true_eq_false, decide_False, Bool.false_eq_true, if_false]
      · rw [if_pos ⟨hjr, hi⟩, getElem?_eq_some_getD _ _ hj]
        simp only []
        rw [ih _ hjs, List.filter_cons]
        simp only [hjr, not_false_eq_true, decide_True, if_true, if_neg hi, List.map_cons,
          List.append_assoc, List.singleton_append]

theorem remove_rows_eq (this : matrix) (i_remove j_remove : Int) :
    ∀ (is : List Nat) (stored : List Rat),
      (∀ i ∈ is, ∀ j < this.columns.toNat,
        j + i * this.columns.toNat < this.matrix_data.length) →
      matrix.remove_rows this i_remove j_remove is stored =
        some (stored ++ is.flatMap (fun i =>
          if (i : Int) = i_remove then []
          else ((List.range this.columns.toNat).filter
              (fun (j : Nat) => decide (¬ (j : Int) = j_remove))).map
            (fun j => this.matrix_data.getD (j + i * this.columns.toNat) 0))) := by
  intro is
  induction is with
  | nil => intro stored _; simp [matrix.remove_rows]
  | cons i is ih =>
    intro stored h
    have hi : ∀ j ∈ List.range this.columns.toNat,
        j + i * this.columns.toNat < this.matrix_data.length :=
      fun j hj => h i (List.mem_cons_self _ _) j (List.mem_range.mp hj)
    have his : ∀ i' ∈ is, ∀ j < this.columns.toNat,
        j + i' * this.columns.toNat < this.matrix_data.length :=
      fun i' hi' => h i' (List.mem_cons_of_mem _ hi')
    unfold matrix.remove_rows
    rw [remove_columns_eq this i_remove j_remove i _ stored hi]
    simp only [ih _ his, List.flatMap_cons, List.append_assoc]

theorem filter_range_skip (n x : Nat) (hx : x < n) :
    (List.range n).filter (fun k => decide (¬ k = x)) = (List.range (n - 1)).map (skip x) := by
  induction n with
  | zero => omega
  | succ n ih =>
    simp only [Nat.add_sub_cancel]
    rw [List.range_succ, List.filter_append]
    by_cases hxn : x < n
    · rw [ih hxn]
      have hn : n = (n - 1) + 1 := by omega
      have hne : ¬ n = x := by omega
      conv_rhs => rw [hn, List.range_succ, List.map_append]
      have hs : skip x (n - 1) = n := by
        unfold skip
        split <;> omega
      simp [hne, hs]
    · have hxe : x = n := by omega
      subst hxe
      have h1 : (List.range x).filter (fun k => decide (¬ k = x)) = List.range x := by
        apply List.filter_eq_self.mpr
        intro k hk
        have := List.mem_range.mp hk
        simp
        omega
      have h2 : (List.range x).map (skip x) = List.range x := by
        conv_rhs => rw [← List.map_id (List.range x)]
        apply List.map_congr_left
        intro k hk
        have := List.mem_range.mp hk
        simp [skip, this]
      rw [h1, h2]
      simp

theorem bind_skip_row (is : List Nat) (x : Nat) (g : Nat → List Rat) :
    is.flatMap (fun i => if (i : Int) = (x : Int) then [] else g i) =
      (is.filter (fun k => decide (¬ k = x))).flatMap g := by
  induction is with
  | nil => simp
  | cons i is ih =>
    rw [List.flatMap_cons, ih, List.filter_cons]
    by_cases h : i = x
    · subst h
      simp
    · have hc : ¬ ((i : Int) = (x : Int)) := by exact_mod_cast h
      simp [h, hc]

theorem grid_length {α : Type} (g : Nat → Nat → α) (R C : Nat) :
    ((List.range R).flatMap (fun a => (List.range C).map (g a))).length = R * C := by
  induction R with
  | zero => simp
  | succ R ih =>
    rw [List.range_succ, List.flatMap_append, List.length_append, ih]
    simp
    ring

theorem grid_getElem? {α : Type} (g : Nat → Nat → α) (R C a b : Nat) (ha : a < R)
    (hb : b < C) :
    ((List.range R).flatMap (fun a => (List.range C).map (g a)))[a * C + b]? = some (g a b) := by
  induction R with
  | zero => omega
  | succ R ih =>
    rw [List.range_succ, List.flatMap_append]
    by_cases haR : a < R
    · have hlt : a * C + b < ((List.range R).flatMap (fun a => (List.range C).map (g a))).length := by
        rw [grid_length]
        calc a * C + b < a * C + C := by omega
          _ = (a + 1) * C := by ring
          _ ≤ R * C := Nat.mul_le_mul_right C haR
      rw [List.getElem?_append_left hlt]
      exact ih haR
    · have haE : a = R := by omega
      subst haE
      have hge : ((List.range a).flatMap (fun a => (List.range C).map (g a))).length ≤ a * C + b := by
        rw [grid_length]; omega
      rw [List.getElem?_append_right hge, grid_length]
      simp [hb]

theorem remove_rows_grid (this : matrix) (r c x y : Nat) (hc : this.columns = c)
    (hlen : this.matrix_data.length = r * c) (hx : x < r) (hy : y < c) :
    matrix.remove_rows this (x : Int) (y : Int) (List.range r) [] =
      some ((List.range (r - 1)).flatMap (fun a => (List.range (c - 1)).map
        (fun b => this.matrix_data.getD (skip y b + skip x a * c) 0))) := by
  have hct : this.columns.toNat = c := by rw [hc]; simp
  rw [remove_rows_eq]
  · rw [hct, bind_skip_row, filter_range_skip r x hx, List.nil_append]
    have hf : (List.range c).filter (fun (j : Nat) => decide (¬ (j : Int) = (y : Int))) =
        (List.range (c - 1)).map (skip y) := by
      rw [← filter_range_skip c y hy]
      apply List.filter_congr
      intro k _
      simp
    rw [hf]
    simp [List.flatMap_map, List.map_map, Function.comp_def]
  · intro i hi j hj
    rw [hct] at hj ⊢
    rw [hlen]
    have := List.mem_range.mp hi
    calc j + i * c < c + i * c := by omega
      _ = (i + 1) * c := by ring
      _ ≤ r * c := Nat.mul_le_mul_right c this

theorem remove_eq (this : matrix) (r c : Nat) (i j : Int)
    (hr : this.rows = r) (hc : this.columns = c) (hlen : this.matrix_data.length = r * c)
    (hi1 : 1 ≤ i) (hi2 : i ≤ r) (hj1 : 1 ≤ j) (hj2 : j ≤ c) :
    matrix.remove this i j = some
      { rows := (r : Int) - 1, columns := (c : Int) - 1,
        matrix_data := (List.range (r - 1)).flatMap (fun a => (List.range (c - 1)).map
          (fun b => this.matrix_data.getD
            (skip (j - 1).toNat b + skip (i - 1).toNat a * c) 0)) } := by
  have hx : i - 1 = ((i - 1).toNat : Int) := by omega
  have hy : j - 1 = ((j - 1).toNat : Int) := by omega
  have hxr : (i - 1).toNat < r := by omega
  have hyc : (j - 1).toNat < c := by omega
  have hrt : this.rows.toNat = r := by rw [hr]; simp
  unfold matrix.remove
  simp only []
  rw [if_neg (by rw [hr, hc, abs_of_nonneg (by omega), abs_of_nonneg (by omega)]; omega),
    if_neg (by omega), if_neg (by omega), hrt]
  conv_lhs => rw [hx, hy]
  rw [remove_rows_grid this r c _ _ hc hlen hxr hyc]
  have hl : ((r : Int) - 1) * ((c : Int) - 1) = (((r - 1) * (c - 1) : Nat) : Int) := by
    have h1 : 1 ≤ r := by omega
    have h2 : 1 ≤ c := by omega
    push_cast [Nat.cast_sub h1, Nat.cast_sub h2]
    ring
  simp only [matrix.ctor, hr, hc, hl, Int.toNat_ofNat, List.length_replicate, grid_length,
    le_refl, if_true]
  rw [List.drop_of_length_le (by simp), List.append_nil]

/-! ## remove -/

/-- C25: for a matrix with `r` rows and `c` columns whose array holds its `r * c`
elements, and `1 ≤ i ≤ r`, `1 ≤ j ≤ c`, `remove(i, j)` returns a matrix with `r - 1`
rows and `c - 1` columns holding `(r - 1) * (c - 1)` elements, and its element in row
`a`, column `b` (counted from 0, stored at `b + a * (c - 1)`) is the element of the
original in row `a` or `a + 1` and column `b` or `b + 1`, the index being stepped over
the deleted row `i - 1` and the deleted column `j - 1`: the remaining elements, in
row-major order. The method writes to no member of the matrix it is called on, which
the embedding shows by `remove` returning the new matrix only. -/
theorem remove_spec (this : matrix) (r c : Nat) (i j : Int)
    (hr : this.rows = r) (hc : this.columns = c) (hlen : this.matrix_data.length = r * c)
    (hi1 : 1 ≤ i) (hi2 : i ≤ r) (hj1 : 1 ≤ j) (hj2 : j ≤ c) :
    ∃ reduced, matrix.remove this i j = some reduced ∧
      reduced.rows = (r : Int) - 1 ∧ reduced.columns = (c : Int) - 1 ∧
      reduced.matrix_data.length = (r - 1) * (c - 1) ∧
      ∀ a b, a < r - 1 → b < c - 1 →
        ∃ value, this.matrix_data[skip (j - 1).toNat b + skip (i - 1).toNat a * c]? =
            some value ∧
          reduced.matrix_data[b + a * (c - 1)]? = some value := by
  refine ⟨_, remove_eq this r c i j hr hc hlen hi1 hi2 hj1 hj2, rfl, rfl, ?_, ?_⟩
  · exact grid_length _ _ _
  · intro a b ha hb
    have hlt : skip (j - 1).toNat b + skip (i - 1).toNat a * c < this.matrix_data.length := by
      rw [hlen]
      have h1 : skip (j - 1).toNat b < c := by unfold skip; split <;> omega
      have h2 : skip (i - 1).toNat a + 1 ≤ r := by unfold skip; split <;> omega
      calc skip (j - 1).toNat b + skip (i - 1).toNat a * c
          < c + skip (i - 1).toNat a * c := by omega
        _ = (skip (i - 1).toNat a + 1) * c := by ring
        _ ≤ r * c := Nat.mul_le_mul_right c h2
    refine ⟨_, getElem?_eq_some_getD _ _ hlt, ?_⟩
    rw [Nat.add_comm b]
    exact grid_getElem? (fun a b => this.matrix_data.getD
      (skip (j - 1).toNat b + skip (i - 1).toNat a * c) 0) _ _ a b ha hb

theorem remove_spec_witness :
    matrix_a.rows = ((3 : Nat) : Int) ∧ matrix_a.columns = ((3 : Nat) : Int) ∧
    matrix_a.matrix_data.length = 3 * 3 ∧
    matrix.remove matrix_a 1 1 =
      some { rows := 2, columns := 2, matrix_data := [8, 7, 2, 6] } ∧
    ∃ reduced, matrix.remove matrix_a 1 1 = some reduced ∧
      reduced.rows = ((3 : Nat) : Int) - 1 ∧ reduced.columns = ((3 : Nat) : Int) - 1 ∧
      reduced.matrix_data.length = (3 - 1) * (3 - 1) ∧
      ∀ a b, a < 3 - 1 → b < 3 - 1 →
        ∃ value, matrix_a.matrix_data[skip ((1 : Int) - 1).toNat b +
              skip ((1 : Int) - 1).toNat a * 3]? = some value ∧
          reduced.matrix_data[b + a * (3 - 1)]? = some value :=
  ⟨by decide, by decide, by decide, by decide,
    remove_spec matrix_a 3 3 1 1 (by decide) (by decide) (by decide) (by decide) (by decide)
      (by decide) (by decide)⟩

/-! ## Arithmetic of `double` on whole numbers -/

theorem bit_length_le : ∀ (fuel n k : Nat), n < 2 ^ k → bit_length fuel n ≤ k := by
  intro fuel
  induction fuel with
  | zero => intro n k _; simp [bit_length]
  | succ fuel ih =>
    intro n k h
    unfold bit_length
    by_cases h0 : n = 0
    · simp [h0]
    · rw [if_neg h0]
      obtain ⟨k, rfl⟩ : ∃ k', k = k' + 1 := by
        cases k with
        | zero => simp at h; exact absurd h h0
        | succ k => exact ⟨k, rfl⟩
      have : n / 2 < 2 ^ k := by
        rw [pow_succ] at h
        omega
      have := ih (n / 2) k this
      omega

theorem bit_length_pos (n : Nat) (h : n ≠ 0) : 1 ≤ bit_length n n := by
  obtain ⟨k, rfl⟩ : ∃ k, n = k + 1 := ⟨n - 1, by omega⟩
  unfold bit_length
  rw [if_neg h]
  omega

theorem round_half_even_one (n : Nat) : round_half_even n 1 = n := by
  simp [round_half_even, Nat.mod_one]

theorem scaled_one (a : Nat) (e : Int) (he : e ≤ 0) :
    scaled a 1 e = (a * 2 ^ (-e).toNat, 1) := by
  unfold scaled
  by_cases h : 0 ≤ e
  · have : e = 0 := le_antisymm he h
    subst this
    simp
  · rw [if_neg h]

theorem round_to_double_integer (z : Int) (hz : z.natAbs < 2 ^ 53) :
    round_to_double z 1 = some (z : Rat) := by
  unfold round_to_double
  by_cases h0 : z = 0
  · simp [h0]
  · rw [if_neg h0]
    have ha : z.natAbs ≠ 0 := by simpa using h0
    have h1 : bit_length 1 1 = 1 := by decide
    have hle := bit_length_le z.natAbs z.natAbs 53 hz
    have hpos := bit_length_pos z.natAbs ha
    simp only [h1]
    generalize bit_length z.natAbs z.natAbs = len at hle hpos
    have key : ∀ e : Int, -53 ≤ e → e ≤ 0 →
        (if e < -1074 ∨ 971 < e ∨
            (e = 971 ∧ 2 ^ 53 ≤ round_half_even (scaled z.natAbs 1 e).1 (scaled z.natAbs 1 e).2)
          then none
          else if 0 ≤ e then
            some (mkRat (z.sign * ((round_half_even (scaled z.natAbs 1 e).1
              (scaled z.natAbs 1 e).2 * 2 ^ e.toNat : Nat) : Int)) 1)
          else some (mkRat (z.sign * ((round_half_even (scaled z.natAbs 1 e).1
              (scaled z.natAbs 1 e).2 : Nat) : Int)) (2 ^ (-e).toNat))) = some (z : Rat) := by
      intro e he1 he2
      rw [if_neg (by omega), scaled_one _ _ he2, round_half_even_one]
      by_cases hz0 : 0 ≤ e
      · have : e = 0 := le_antisymm he2 hz0
        subst this
        simp
        exact_mod_cast Int.sign_mul_abs z
      · rw [if_neg hz0]
        congr 1
        have h2 : (z.sign * ((z.natAbs * 2 ^ (-e).toNat : Nat) : Int)) =
            z * ((2 ^ (-e).toNat : Nat) : Int) := by
          rw [Nat.cast_mul, ← mul_assoc, Int.sign_mul_natAbs]
        rw [h2]
        have h3 := @Rat.mkRat_mul_right z 1 (2 ^ (-e).toNat) (by positivity)
        rw [one_mul] at h3
        rw [h3, Rat.mkRat_one]
    refine key _ ?_ ?_ <;> split_ifs <;> omega

theorem small_integer_eq (B : Nat) (x : Rat) (h : small_integer B x) : (x.num : Rat) = x :=
  Rat.coe_int_num_of_den_eq_one h.1

theorem small_integer_intCast (B : Nat) (z : Int) (h : z.natAbs ≤ B) :
    small_integer B (z : Rat) :=
  ⟨Rat.den_intCast z, by rw [Rat.num_intCast]; exact h⟩

theorem small_integer_mono (A B : Nat) (x : Rat) (hAB : A ≤ B) (h : small_integer A x) :
    small_integer B x :=
  ⟨h.1, le_trans h.2 hAB⟩

theorem double_mul_exact (A B : Nat) (a b : Rat) (ha : small_integer A a)
    (hb : small_integer B b) (h : A * B < 2 ^ 53) :
    double_mul a b = some (a * b) ∧ small_integer (A * B) (a * b) := by
  have hab : (a.num * b.num).natAbs ≤ A * B := by
    rw [Int.natAbs_mul]
    exact Nat.mul_le_mul ha.2 hb.2
  have hcast : ((a.num * b.num : Int) : Rat) = a * b := by
    push_cast
    rw [small_integer_eq A a ha, small_integer_eq B b hb]
  refine ⟨?_, ?_⟩
  · unfold double_mul
    rw [ha.1, hb.1, round_to_double_integer _ (lt_of_le_of_lt hab h), hcast]
  · rw [← hcast]
    exact small_integer_intCast _ _ hab

theorem double_add_exact (A B : Nat) (a b : Rat) (ha : small_integer A a)
    (hb : small_integer B b) (h : A + B < 2 ^ 53) :
    double_add a b = some (a + b) ∧ small_integer (A + B) (a + b) := by
  have hab : (a.num + b.num).natAbs ≤ A + B :=
    le_trans (Int.natAbs_add_le _ _) (Nat.add_le_add ha.2 hb.2)
  have hcast : ((a.num + b.num : Int) : Rat) = a + b := by
    push_cast
    rw [small_integer_eq A a ha, small_integer_eq B b hb]
  refine ⟨?_, ?_⟩
  · unfold double_add
    rw [ha.1, hb.1]
    simp only [Nat.cast_one, mul_one]
    rw [round_to_double_integer _ (lt_of_le_of_lt hab h), hcast]
  · rw [← hcast]
    exact small_integer_intCast _ _ hab

theorem double_sub_exact (A B : Nat) (a b : Rat) (ha : small_integer A a)
    (hb : small_integer B b) (h : A + B < 2 ^ 53) :
    double_sub a b = some (a - b) ∧ small_integer (A + B) (a - b) := by
  have hab : (a.num - b.num).natAbs ≤ A + B :=
    le_trans (Int.natAbs_sub_le _ _) (Nat.add_le_add ha.2 hb.2)
  have hcast : ((a.num - b.num : Int) : Rat) = a - b := by
    push_cast
    rw [small_integer_eq A a ha, small_integer_eq B b hb]
  refine ⟨?_, ?_⟩
  · unfold double_sub
    rw [ha.1, hb.1]
    simp only [Nat.cast_one, mul_one]
    rw [round_to_double_integer _ (lt_of_le_of_lt hab h), hcast]
  · rw [← hcast]
    exact small_integer_intCast _ _ hab

/-! ## determinant -/

theorem small_integer_getD (B : Nat) (l : List Rat) (k : Nat)
    (h : ∀ x ∈ l, small_integer B x) : small_integer B (l.getD k 0) := by
  by_cases hk : k < l.length
  · rw [List.getD_eq_getElem _ _ hk]
    exact h _ (List.getElem_mem _)
  · rw [List.getD_eq_default _ _ (by omega)]
    exact ⟨rfl, Nat.zero_le _⟩

theorem foldlM_range_sum (f : Rat → Nat → Option Rat) (g : Nat → Rat) (C n : Nat)
    (h : ∀ s j, j < n → small_integer (j * C) s →
      f s j = some (s + g j) ∧ small_integer ((j + 1) * C) (s + g j)) :
    (List.range n).foldlM f 0 = some (∑ j in Finset.range n, g j) ∧
      small_integer (n * C) (∑ j in Finset.range n, g j) := by
  induction n with
  | zero => exact ⟨by simp, rfl, by simp⟩
  | succ n ih =>
    obtain ⟨hrun, hsmall⟩ := ih (fun s j hj => h s j (by omega))
    obtain ⟨hstep, hnext⟩ := h _ n (by omega) hsmall
    rw [List.range_succ, List.foldlM_append, hrun, Finset.sum_range_succ]
    exact ⟨by simp [hstep], hnext⟩

theorem to_Matrix_minor (this minor : matrix) (m : Nat) (j : Fin (m + 1))
    (h : minor.matrix_data = (List.range m).flatMap (fun a => (List.range m).map
      (fun b => this.matrix_data.getD (skip j.val b + skip 0 a * (m + 1)) 0))) :
    to_Matrix minor m m = (to_Matrix this (m + 1) (m + 1)).submatrix Fin.succ j.succAbove := by
  ext a b
  simp only [to_Matrix, Matrix.of_apply, Matrix.submatrix_apply]
  have hg := grid_getElem? (fun a b => this.matrix_data.getD
    (skip j.val b + skip 0 a * (m + 1)) 0) m m a.val b.val a.isLt b.isLt
  rw [h, List.getD_eq_getElem?_getD, hg, Option.getD_some]
  beta_reduce
  have h1 : skip 0 a.val = (Fin.succ a).val := by simp [skip]
  have h2 : skip j.val b.val = (j.succAbove b).val := by
    unfold skip Fin.succAbove
    by_cases hlt : b.val < j.val
    · have : b.castSucc < j := by simpa [Fin.lt_def] using hlt
      simp [hlt, this]
    · have : ¬ b.castSucc < j := by simpa [Fin.lt_def] using hlt
      simp [hlt, this]
  rw [h1, h2]
  congr 1
  ring

/-- C24, as amended: for `n ≥ 2` and a matrix with `n` rows and `n` columns whose array
holds its `n * n` elements, every element a whole number of magnitude at most `B` with
`n! * B ^ n < 2 ^ 53`, `determinant()` returns, whenever the recursion is given depth
`n - 1` or more, the determinant of the `n` x `n` matrix of its elements (the
determinant of Mathlib, `Matrix.det`), which is a whole number of magnitude at most
`n! * B ^ n`: under that bound no product, sum or difference of the method is rounded. -/
theorem determinant_spec (n : Nat) (this : matrix) (fuel B : Nat) (hn : 2 ≤ n)
    (hr : this.rows = n) (hc : this.columns = n)
    (hlen : this.matrix_data.length = n * n) (hfuel : n ≤ fuel + 1)
    (hwhole : ∀ x ∈ this.matrix_data, small_integer B x)
    (hbound : n.factorial * B ^ n < 2 ^ 53) :
    matrix.determinant fuel this = some (to_Matrix this n n).det ∧
      small_integer (n.factorial * B ^ n) (to_Matrix this n n).det := by
  induction fuel generalizing n this with
  | zero => omega
  | succ fuel ih =>
    unfold matrix.determinant
    by_cases h2 : n = 2
    · subst h2
      have hfact : Nat.factorial 2 * B ^ 2 = B * B + B * B := by
        rw [show Nat.factorial 2 = 2 from rfl]
        ring
      rw [hfact] at hbound ⊢
      obtain ⟨hmain, hmain_small⟩ := double_mul_exact B B _ _
        (small_integer_getD B this.matrix_data 0 hwhole)
        (small_integer_getD B this.matrix_data 3 hwhole) (by omega)
      obtain ⟨hother, hother_small⟩ := double_mul_exact B B _ _
        (small_integer_getD B this.matrix_data 1 hwhole)
        (small_integer_getD B this.matrix_data 2 hwhole) (by omega)
      obtain ⟨hsub, hsub_small⟩ := double_sub_exact _ _ _ _ hmain_small hother_small hbound
      have hdet : (to_Matrix this 2 2).det =
          this.matrix_data.getD 0 0 * this.matrix_data.getD 3 0 -
            this.matrix_data.getD 1 0 * this.matrix_data.getD 2 0 := by
        rw [Matrix.det_fin_two]
        simp [to_Matrix]
      rw [if_pos ⟨by simpa using hr, by simpa using hc⟩,
        getElem?_eq_some_getD _ 0 (by omega), getElem?_eq_some_getD _ 3 (by omega),
        getElem?_eq_some_getD _ 1 (by omega), getElem?_eq_some_getD _ 2 (by omega)]
      simp only []
      rw [hmain, hother]
      simp only []
      rw [hsub, hdet]
      exact ⟨rfl, hsub_small⟩
    · obtain ⟨m, rfl⟩ : ∃ m, n = m + 1 := ⟨n - 1, by omega⟩
      have hrt : this.rows.toNat = m + 1 := by rw [hr]; simp
      have hfact : (m + 1).factorial * B ^ (m + 1) =
          (m + 1) * (B * (m.factorial * B ^ m)) := by
        rw [Nat.factorial_succ, pow_succ]
        ring
      rw [hfact] at hbound ⊢
      have hproduct : B * (m.factorial * B ^ m) < 2 ^ 53 :=
        lt_of_le_of_lt (Nat.le_mul_of_pos_left _ (by omega)) hbound
      have hminor_bound : m.factorial * B ^ m < 2 ^ 53 := by
        rcases Nat.eq_zero_or_pos B with hB0 | hBpos
        · subst hB0
          rw [zero_pow (by omega)]
          simp
        · exact lt_of_le_of_lt (Nat.le_mul_of_pos_left _ hBpos) hproduct
      have hexpansion : (to_Matrix this (m + 1) (m + 1)).det =
          ∑ j in Finset.range (m + 1), (fun j => if hj : j < m + 1 then
            (-1) ^ j * to_Matrix this (m + 1) (m + 1) 0 ⟨j, hj⟩ *
              ((to_Matrix this (m + 1) (m + 1)).submatrix Fin.succ
                (Fin.succAbove ⟨j, hj⟩)).det else 0) j := by
        rw [Matrix.det_succ_row_zero, Finset.sum_range]
        apply Finset.sum_congr rfl
        intro j _
        rw [dif_pos j.isLt]
      rw [if_neg (fun h => by have := h.1; rw [hr] at this; omega),
        if_pos (by rw [hr, hc]), hrt, hexpansion]
      apply foldlM_range_sum
      intro s j hj hs
      obtain ⟨minor, hremove, hminor_rows, hminor_columns, hminor_data⟩ :
          ∃ minor, matrix.remove this 1 ((j : Int) + 1) = some minor ∧
            minor.rows = m ∧ minor.columns = m ∧
            minor.matrix_data = (List.range m).flatMap (fun a => (List.range m).map
              (fun b => this.matrix_data.getD (skip j b + skip 0 a * (m + 1)) 0)) :=
        ⟨_, remove_eq this (m + 1) (m + 1) 1 (j + 1) hr hc hlen (by omega) (by omega)
          (by omega) (by omega), by push_cast; ring, by push_cast; ring, by simp⟩
      have hminor_whole : ∀ x ∈ minor.matrix_data, small_integer B x := by
        intro x hx
        rw [hminor_data] at hx
        simp only [List.mem_flatMap, List.mem_map] at hx
        obtain ⟨a, _, b, _, rfl⟩ := hx
        exact small_integer_getD B _ _ hwhole
      obtain ⟨hminor_det, hminor_small⟩ := ih m minor (by omega) hminor_rows hminor_columns
        (by rw [hminor_data, grid_length]) (by omega) hminor_whole hminor_bound
      rw [to_Matrix_minor this minor m ⟨j, hj⟩ hminor_data] at hminor_det hminor_small
      obtain ⟨hmul, hmul_small⟩ := double_mul_exact B _ _ _
        (small_integer_getD B this.matrix_data j hwhole) hminor_small hproduct
      have hlj : j < this.matrix_data.length := by
        rw [hlen]
        calc j < m + 1 := hj
          _ ≤ (m + 1) * (m + 1) := Nat.le_mul_of_pos_left _ (by omega)
      have hsum : j * (B * (m.factorial * B ^ m)) + B * (m.factorial * B ^ m) < 2 ^ 53 := by
        have h1 : (j + 1) * (B * (m.factorial * B ^ m)) ≤
            (m + 1) * (B * (m.factorial * B ^ m)) := Nat.mul_le_mul_right _ (by omega)
        rw [Nat.succ_mul] at h1
        omega
      have he : to_Matrix this (m + 1) (m + 1) 0 ⟨j, hj⟩ = this.matrix_data.getD j 0 := by
        simp [to_Matrix]
      rw [hremove]
      simp only []
      rw [getElem?_eq_some_getD _ j hlj, hminor_det]
      simp only []
      rw [hmul]
      simp only []
      rw [dif_pos hj, he, Nat.succ_mul]
      by_cases hpar : j % 2 = 0
      · obtain ⟨hadd, hadd_small⟩ := double_add_exact _ _ _ _ hs hmul_small hsum
        rw [if_pos hpar, Even.neg_one_pow (Nat.even_iff.mpr hpar), one_mul, hadd]
        exact ⟨rfl, hadd_small⟩
      · obtain ⟨hsub, hsub_small⟩ := double_sub_exact _ _ _ _ hs hmul_small hsum
        have hneg : ∀ x y : Rat, s + -1 * x * y = s - x * y := fun x y => by ring
        rw [if_neg hpar, Odd.neg_one_pow (Nat.odd_iff.mpr (by omega)), hneg, hsub]
        exact ⟨rfl, hsub_small⟩

/-- The determinant of matrix A of `main`, -60, is returned: its elements are whole
numbers of magnitude at most 9. -/
theorem determinant_spec_witness :
    (2 ≤ 3 ∧ matrix_a.rows = ((3 : Nat) : Int) ∧ matrix_a.columns = ((3 : Nat) : Int) ∧
      matrix_a.matrix_data.length = 3 * 3 ∧ 3 ≤ 2 + 1 ∧
      (∀ x ∈ matrix_a.matrix_data, small_integer 9 x) ∧
      Nat.factorial 3 * 9 ^ 3 < 2 ^ 53) ∧
    (matrix.determinant 2 matrix_a = some (to_Matrix matrix_a 3 3).det ∧
      small_integer (Nat.factorial 3 * 9 ^ 3) (to_Matrix matrix_a 3 3).det) ∧
    (to_Matrix matrix_a 3 3).det = -60 :=
  ⟨⟨by decide, by decide, by decide, by decide, by decide, by decide, by decide⟩,
    determinant_spec 3 matrix_a 2 9 (by decide) (by decide) (by decide) (by decide)
      (by decide) (by decide) (by decide),
    by
      rw [Matrix.det_fin_three]
      simp [to_Matrix, matrix_a]
      norm_num⟩

/-! ## operator* -/

theorem index_inj (p r r' c c' : Nat) (hc : c < p) (hc' : c' < p)
    (h : r * p + c = r' * p + c') : r = r' := by
  rcases lt_trichotomy r r' with hlt | heq | hgt
  · exfalso
    have h1 : (r + 1) * p ≤ r' * p := Nat.mul_le_mul_right p hlt
    have h2 : (r + 1) * p = r * p + p := by ring
    omega
  · exact heq
  · exfalso
    have h1 : (r' + 1) * p ≤ r * p := Nat.mul_le_mul_right p hgt
    have h2 : (r' + 1) * p = r' * p + p := by ring
    omega

theorem index_lt (m p r c : Nat) (hr : r < m) (hc : c < p) : r * p + c < m * p := by
  have h1 : (r + 1) * p ≤ m * p := Nat.mul_le_mul_right p hr
  have h2 : (r + 1) * p = r * p + p := by ring
  omega

theorem sum_range_map (f : Nat → Rat) (n : Nat) :
    ((List.range n).map f).sum = ∑ k in Finset.range n, f k := by
  induction n with
  | zero => simp
  | succ n ih => rw [List.range_succ, List.map_append, List.sum_append, ih,
      Finset.sum_range_succ]; simp

theorem dot_loop_eq (a b : matrix) (a_row b_column A B : Nat)
    (ha : ∀ x ∈ a.matrix_data, small_integer A x)
    (hb : ∀ x ∈ b.matrix_data, small_integer B x) :
    ∀ (is : List Nat) (sum : Rat) (S : Nat),
      (∀ i ∈ is, a_row * a.columns.toNat + i < a.matrix_data.length ∧
        i * b.columns.toNat + b_column < b.matrix_data.length) →
      small_integer S sum → S + is.length * (A * B) < 2 ^ 53 →
      dot_loop a b a_row b_column is sum =
        some (sum + (is.map (fun i => a.matrix_data.getD (a_row * a.columns.toNat + i) 0 *
          b.matrix_data.getD (i * b.columns.toNat + b_column) 0)).sum) := by
  intro is
  induction is with
  | nil => intro sum S _ _ _; simp [dot_loop]
  | cons i is ih =>
    intro sum S h hsum hbound
    have hi := h i (List.mem_cons_self _ _)
    rw [List.length_cons, Nat.succ_mul] at hbound
    obtain ⟨hmul, hmul_small⟩ := double_mul_exact A B _ _
      (small_integer_getD A a.matrix_data (a_row * a.columns.toNat + i) ha)
      (small_integer_getD B b.matrix_data (i * b.columns.toNat + b_column) hb) (by omega)
    obtain ⟨hadd, hadd_small⟩ := double_add_exact S (A * B) _ _ hsum hmul_small (by omega)
    unfold dot_loop
    rw [getElem?_eq_some_getD _ _ hi.1, getElem?_eq_some_getD _ _ hi.2]
    simp only []
    rw [hmul]
    simp only []
    rw [hadd]
    simp only []
    rw [ih _ (S + A * B) (fun i' hi' => h i' (List.mem_cons_of_mem _ hi')) hadd_small
      (by omega), List.map_cons, List.sum_cons, add_assoc]

theorem mul_columns_spec (a b : matrix) (a_row : Nat) (D : Nat → Rat)
    (hD : ∀ c < b.columns.toNat,
      dot_loop a b a_row c (List.range b.rows.toNat) 0 = some (D c)) :
    ∀ (cols : List Nat) (result : List Rat),
      (∀ c ∈ cols, c < b.columns.toNat ∧ a_row * b.columns.toNat + c < result.length) →
      ∃ result', mul_columns a b a_row cols result = some result' ∧
        result'.length = result.length ∧
        (∀ c ∈ cols, result'[a_row * b.columns.toNat + c]? = some (D c)) ∧
        (∀ k, (∀ c ∈ cols, k ≠ a_row * b.columns.toNat + c) → result'[k]? = result[k]?) := by
  intro cols
  induction cols with
  | nil => intro result _; exact ⟨result, by simp [mul_columns]⟩
  | cons c0 rest ih =>
    intro result h
    have h0 := h c0 (List.mem_cons_self _ _)
    obtain ⟨result', hrun, hlen', hin, hout⟩ :=
      ih (result.set (a_row * b.columns.toNat + c0) (D c0)) (fun c hc => by
        have := h c (List.mem_cons_of_mem _ hc)
        rw [List.length_set]
        exact this)
    refine ⟨result', ?_, ?_, ?_, ?_⟩
    · unfold mul_columns
      rw [hD c0 h0.1]
      simp only []
      rw [if_pos h0.2]
      exact hrun
    · rw [hlen', List.length_set]
    · intro c hc
      by_cases hmem : c ∈ rest
      · exact hin c hmem
      · have hc0 : c = c0 := by
          rcases List.mem_cons.mp hc with h1 | h1
          · exact h1
          · exact absurd h1 hmem
        subst hc0
        rw [hout _ (fun c' hc' heq => hmem (by
          have : c = c' := by omega
          rw [this]; exact hc'))]
        exact List.getElem?_set_self h0.2
    · intro k hk
      rw [hout k (fun c hc => hk c (List.mem_cons_of_mem _ hc))]
      exact List.getElem?_set_ne (fun heq => hk c0 (List.mem_cons_self _ _) heq.symm)

theorem mul_rows_spec (a b : matrix) (D : Nat → Nat → Rat) (M : Nat)
    (hD : ∀ r < M, ∀ c < b.columns.toNat,
      dot_loop a b r c (List.range b.rows.toNat) 0 = some (D r c)) :
    ∀ (rows : List Nat) (result : List Rat),
      (∀ r ∈ rows, r < M) → M * b.columns.toNat ≤ result.length →
      ∃ result', mul_rows a b rows result = some result' ∧
        result'.length = result.length ∧
        (∀ r ∈ rows, ∀ c < b.columns.toNat,
          result'[r * b.columns.toNat + c]? = some (D r c)) ∧
        (∀ k, (∀ r ∈ rows, ∀ c < b.columns.toNat, k ≠ r * b.columns.toNat + c) →
          result'[k]? = result[k]?) := by
  intro rows
  induction rows with
  | nil => intro result _ _; exact ⟨result, by simp [mul_rows]⟩
  | cons r0 rest ih =>
    intro result h hlen
    have h0 := h r0 (List.mem_cons_self _ _)
    obtain ⟨result1, hrun1, hlen1, hin1, hout1⟩ :=
      mul_columns_spec a b r0 (D r0) (hD r0 h0) (List.range b.columns.toNat) result
        (fun c hc => by
          have hc' := List.mem_range.mp hc
          exact ⟨hc', lt_of_lt_of_le (index_lt M _ r0 c h0 hc') hlen⟩)
    obtain ⟨result', hrun, hlen', hin, hout⟩ :=
      ih result1 (fun r hr => h r (List.mem_cons_of_mem _ hr)) (by rw [hlen1]; exact hlen)
    refine ⟨result', ?_, ?_, ?_, ?_⟩
    · unfold mul_rows
      rw [hrun1]
      exact hrun
    · rw [hlen', hlen1]
    · intro r hr c hc
      by_cases hmem : r ∈ rest
      · exact hin r hmem c hc
      · have hr0 : r = r0 := by
          rcases List.mem_cons.mp hr with h1 | h1
          · exact h1
          · exact absurd h1 hmem
        subst hr0
        rw [hout _ (fun r' hr' c' hc' heq => hmem (by
          rw [index_inj _ r r' c c' hc hc' heq]; exact hr'))]
        exact hin1 c (List.mem_range.mpr hc)
    · intro k hk
      rw [hout k (fun r hr => hk r (List.mem_cons_of_mem _ hr))]
      exact hout1 k (fun c hc => hk r0 (List.mem_cons_self _ _) c (List.mem_range.mp hc))

/-- C26, as amended: for a matrix `a` with `m` rows and `n` columns and a matrix `b`
with `n'` rows and `p` columns, each array holding the elements of its matrix: when
`n = n'`, the elements of `a` are whole numbers of magnitude at most `A`, those of `b`
whole numbers of magnitude at most `B`, and `n * (A * B) < 2 ^ 53`, `a * b` is returned
and has `m` rows, `p` columns and `m * p` elements, its element in row `i`, column `j`
(counted from 0) being the sum over `k < n` of the products of element (i, k) of `a` and
element (k, j) of `b`, so that it is the matrix product: under that bound no product and
no sum of the loops is rounded. When `n ≠ n'` the result is the 1 x 1 matrix holding the
value `std::nan("")`, whatever the elements are. Both operands are `const` references,
which the embedding shows by `operator_mul` returning the new matrix only. -/
theorem operator_mul_spec (nan : Rat) (a b : matrix) (m n n' p A B : Nat)
    (har : a.rows = m) (hac : a.columns = n) (hbr : b.rows = n') (hbc : b.columns = p)
    (hal : a.matrix_data.length = m * n) (hbl : b.matrix_data.length = n' * p) :
    (n = n' → (∀ x ∈ a.matrix_data, small_integer A x) →
      (∀ x ∈ b.matrix_data, small_integer B x) → n * (A * B) < 2 ^ 53 →
      ∃ c, operator_mul nan a b = some c ∧ c.rows = m ∧ c.columns = p ∧
      c.matrix_data.length = m * p ∧
      (∀ i < m, ∀ j < p, c.matrix_data[i * p + j]? =
        some (∑ k in Finset.range n,
          a.matrix_data.getD (i * n + k) 0 * b.matrix_data.getD (k * p + j) 0)) ∧
      to_Matrix c m p = to_Matrix a m n * to_Matrix b n p) ∧
    (n ≠ n' →
      operator_mul nan a b = some { rows := 1, columns := 1, matrix_data := [nan] }) := by
  have hact : a.columns.toNat = n := by rw [hac]; simp
  have hart : a.rows.toNat = m := by rw [har]; simp
  have hbrt : b.rows.toNat = n' := by rw [hbr]; simp
  have hbct : b.columns.toNat = p := by rw [hbc]; simp
  constructor
  · intro hnn ha hb hbound
    subst hnn
    have hD : ∀ r < m, ∀ c < b.columns.toNat,
        dot_loop a b r c (List.range b.rows.toNat) 0 =
          some (∑ k in Finset.range n,
            a.matrix_data.getD (r * n + k) 0 * b.matrix_data.getD (k * p + c) 0) := by
      intro r hr c hc
      rw [hbct] at hc
      rw [dot_loop_eq a b r c A B ha hb _ 0 0 (fun i hi => by
        have hi' := List.mem_range.mp hi
        rw [hbrt] at hi'
        rw [hact, hbct, hal, hbl]
        exact ⟨index_lt m n r i hr hi', index_lt n p i c hi' hc⟩) ⟨rfl, le_refl _⟩
        (by rw [List.length_range, hbrt, Nat.zero_add]; exact hbound)]
      rw [sum_range_map, hact, hbct, hbrt, zero_add]
    have hzl : (matrix.ctor a.rows b.columns).matrix_data.length = m * p := by
      unfold matrix.ctor
      simp only [List.length_replicate]
      rw [har, hbc, ← Nat.cast_mul]
      exact Int.toNat_ofNat _
    obtain ⟨data, hrun, hlen, hin, _⟩ := mul_rows_spec a b _ m hD (List.range m)
      (matrix.ctor a.rows b.columns).matrix_data
      (fun r hr => List.mem_range.mp hr) (by rw [hzl, hbct])
    have hget : ∀ i < m, ∀ j < p, data[i * p + j]? =
        some (∑ k in Finset.range n,
          a.matrix_data.getD (i * n + k) 0 * b.matrix_data.getD (k * p + j) 0) := by
      intro i hi j hj
      have := hin i (List.mem_range.mpr hi) j (by rw [hbct]; exact hj)
      rw [hbct] at this
      exact this
    refine ⟨{ matrix.ctor a.rows b.columns with matrix_data := data }, ?_, har, hbc,
      by rw [hlen, hzl], hget, ?_⟩
    · unfold operator_mul
      rw [if_pos (by rw [hac, hbr]), hart]
      simp only []
      rw [hrun]
    · ext i j
      rw [Matrix.mul_apply]
      simp only [to_Matrix, Matrix.of_apply]
      rw [List.getD_eq_getElem?_getD, hget i.val i.isLt j.val j.isLt, Option.getD_some,
        Finset.sum_range]
  · intro hne
    unfold operator_mul
    rw [if_neg (by rw [hac, hbr]; exact_mod_cast hne)]
    rfl

/-- The product C.B of `main` (2 x 3 by 3 x 3) is the matrix product, and B.C (3 x 3 by
2 x 3) is the 1 x 1 matrix of the failure branch. -/
theorem operator_mul_spec_witness :
    (matrix_c.rows = ((2 : Nat) : Int) ∧ matrix_c.columns = ((3 : Nat) : Int) ∧
      matrix_b.rows = ((3 : Nat) : Int) ∧ matrix_b.columns = ((3 : Nat) : Int) ∧
      matrix_c.matrix_data.length = 2 * 3 ∧ matrix_b.matrix_data.length = 3 * 3 ∧
      (∀ x ∈ matrix_c.matrix_data, small_integer 6 x) ∧
      (∀ x ∈ matrix_b.matrix_data, small_integer 9 x) ∧ 3 * (6 * 9) < 2 ^ 53) ∧
    (∃ c, operator_mul 0 matrix_c matrix_b = some c ∧ c.rows = ((2 : Nat) : Int) ∧
      c.columns = ((3 : Nat) : Int) ∧ c.matrix_data.length = 2 * 3 ∧
      (∀ i < 2, ∀ j < 3, c.matrix_data[i * 3 + j]? =
        some (∑ k in Finset.range 3,
          matrix_c.matrix_data.getD (i * 3 + k) 0 * matrix_b.matrix_data.getD (k * 3 + j) 0)) ∧
      to_Matrix c 2 3 = to_Matrix matrix_c 2 3 * to_Matrix matrix_b 3 3) ∧
    operator_mul 0 matrix_c matrix_b =
      some { rows := 2, columns := 3, matrix_data := [25, 32, 32, 51, 74, 71] } ∧
    operator_mul 0 matrix_b matrix_c = some { rows := 1, columns := 1, matrix_data := [0] } :=
  ⟨⟨by decide, by decide, by decide, by decide, by decide, by decide, by decide, by decide,
      by decide⟩,
    (operator_mul_spec 0 matrix_c matrix_b 2 3 3 3 6 9 (by decide) (by decide) (by decide)
      (by decide) (by decide) (by decide)).1 rfl (by decide) (by decide) (by decide),
    by decide, by decide⟩

/-- C24, the claim as stated fails: the 2 x 2 matrix with 134217729 (`2 ^ 27 + 1`) on the
diagonal and 0 elsewhere has whole-number elements and determinant 18014398777917441,
and `determinant()` returns 18014398777917440: the product of the diagonal is rounded to
53 binary digits. -/
theorem determinant_rounds :
    rounding_diagonal.rows = 2 ∧ rounding_diagonal.columns = 2 ∧
    rounding_diagonal.matrix_data.length = 2 * 2 ∧
    (∀ x ∈ rounding_diagonal.matrix_data, small_integer 134217729 x) ∧
    (∀ fuel, matrix.determinant (fuel + 1) rounding_diagonal = some 18014398777917440) ∧
    (to_Matrix rounding_diagonal 2 2).det = 18014398777917441 ∧
    ∀ fuel, matrix.determinant fuel rounding_diagonal ≠
      some (to_Matrix rounding_diagonal 2 2).det := by
  have hrun : ∀ fuel,
      matrix.determinant (fuel + 1) rounding_diagonal = some 18014398777917440 := by
    intro fuel
    unfold matrix.determinant
    rw [if_pos (by decide : rounding_diagonal.rows = 2 ∧ rounding_diagonal.columns = 2)]
    decide
  have hdet : (to_Matrix rounding_diagonal 2 2).det = 18014398777917441 := by
    rw [Matrix.det_fin_two]
    simp [to_Matrix, rounding_diagonal]
    norm_num
  refine ⟨by decide, by decide, by decide, by decide, hrun, hdet, ?_⟩
  intro fuel
  cases fuel with
  | zero => simp [matrix.determinant]
  | succ fuel =>
    rw [hrun fuel, hdet]
    intro h
    have h' := Option.some.inj h
    norm_num at h'

/-- C26, the claim as stated fails: the product of the 1 x 1 matrix holding 134217729
(`2 ^ 27 + 1`) with itself is the 1 x 1 matrix holding 18014398777917440, and the sum of
the products of the elements is 18014398777917441: the product is rounded to 53 binary
digits. -/
theorem operator_mul_rounds :
    rounding_square.rows = 1 ∧ rounding_square.columns = 1 ∧
    rounding_square.matrix_data.length = 1 * 1 ∧
    (∀ x ∈ rounding_square.matrix_data, small_integer 134217729 x) ∧
    operator_mul 0 rounding_square rounding_square =
      some { rows := 1, columns := 1, matrix_data := [18014398777917440] } ∧
    (∑ k in Finset.range 1, rounding_square.matrix_data.getD (0 * 1 + k) 0 *
      rounding_square.matrix_data.getD (k * 1 + 0) 0) = 18014398777917441 ∧
    ∀ c, operator_mul 0 rounding_square rounding_square = some c →
      to_Matrix c 1 1 ≠ to_Matrix rounding_square 1 1 * to_Matrix rounding_square 1 1 := by
  have hrun : operator_mul 0 rounding_square rounding_square =
      some { rows := 1, columns := 1, matrix_data := [18014398777917440] } := by decide
  refine ⟨by decide, by decide, by decide, by decide, hrun, ?_, ?_⟩
  · simp [rounding_square]
    norm_num
  · intro c hc heq
    rw [hrun] at hc
    have hc' := Option.some.inj hc
    subst hc'
    have h00 := congrFun (congrFun heq 0) 0
    simp [to_Matrix, rounding_square, Matrix.mul_apply] at h00
    norm_num at h00

/-! ## Negative indices and the 1 x 1 determinant -/

/-- C33, on the code: when the range test passes and the row index or the column index
is negative after the subtraction of 1, `remove` adds the number of rows (or columns) to
the index and reaches the end of the function: the loops that build the reduced matrix
are in the last `else` branch, so no matrix is built and none is returned. -/
theorem remove_negative_index (this : matrix) (row_remove column_remove : Int)
    (hrange : ¬ (|row_remove - 1| > this.rows - 1 ∨ |column_remove - 1| > this.columns - 1))
    (hneg : row_remove - 1 < 0 ∨ column_remove - 1 < 0) :
    matrix.remove this row_remove column_remove = none := by
  unfold matrix.remove
  simp only []
  rw [if_neg hrange]
  by_cases hi : row_remove - 1 < 0
  · rw [if_pos hi]
  · rw [if_neg hi, if_pos (hneg.resolve_left hi)]

theorem remove_negative_index_witness :
    (¬ (|(0 : Int) - 1| > matrix_a.rows - 1 ∨ |(1 : Int) - 1| > matrix_a.columns - 1) ∧
      ((0 : Int) - 1 < 0 ∨ (1 : Int) - 1 < 0)) ∧
    matrix.remove matrix_a 0 1 = none ∧
    matrix.remove matrix_a 3 1 = some { rows := 2, columns := 2, matrix_data := [2, 3, 8, 7] } :=
  ⟨⟨by decide, by decide⟩, remove_negative_index matrix_a 0 1 (by decide) (by decide),
    by decide⟩

/-- C39, on the code: for a matrix with one row and one column holding `a`,
`determinant()` takes the branch of the square matrices, multiplies `a` by the
determinant of the minor `remove(1, 1)`, which has no rows and no columns and whose
determinant is the empty sum 0, and returns 0 whatever `a` is. -/
theorem determinant_one_by_one :
    (∀ (a : Rat) (fuel : Nat),
      matrix.remove { rows := 1, columns := 1, matrix_data := [a] } 1 1 =
        some { rows := 0, columns := 0, matrix_data := [] } ∧
      matrix.determinant (fuel + 1) { rows := 0, columns := 0, matrix_data := [] } = some 0 ∧
      matrix.determinant (fuel + 2) { rows := 1, columns := 1, matrix_data := [a] } =
        some 0) ∧
    matrix.determinant 2 { rows := 1, columns := 1, matrix_data := [5] } ≠ some 5 := by
  have hremove : ∀ a : Rat,
      matrix.remove { rows := 1, columns := 1, matrix_data := [a] } 1 1 =
        some { rows := 0, columns := 0, matrix_data := [] } := by
    intro a
    simp [matrix.remove, matrix.remove_rows, matrix.remove_columns, matrix.ctor]
  have hempty : ∀ fuel : Nat,
      matrix.determinant (fuel + 1) { rows := 0, columns := 0, matrix_data := [] } =
        some 0 := by
    intro fuel
    simp [matrix.determinant]
  have hone : ∀ (a : Rat) (fuel : Nat),
      matrix.determinant (fuel + 2) { rows := 1, columns := 1, matrix_data := [a] } =
        some 0 := by
    intro a fuel
    rw [matrix.determinant]
    simp only [show ¬ ((1 : Int) = 2 ∧ (1 : Int) = 2) by decide, if_false, if_true,
      show (1 : Int).toNat = 1 from rfl, show List.range 1 = [0] from rfl]
    simp [hremove, hempty, double_mul, double_add, round_to_double]
  refine ⟨fun a fuel => ⟨hremove a, hempty fuel, hone a fuel⟩, ?_⟩
  rw [hone 5 0]
  simp

end matrix_class
